import Mathlib

/-!
# Groth16 Phase 2 setup (`backend/groth16/setup`)

A shallow embedding of `phase2.go` and `marshal.go`.

* The curve backend (`gnark-crypto`: scalar field, the groups, the pairing, the
  point encoder, SHA-256, hash-to-curve) is an external primitive.  It is kept
  abstract: the scalar field is any field `F`, the groups are `F`-modules
  written additively, and the remaining primitives are the fields of `Curve`.
* The package `setup/utils` (`GenPublicKey`, `GenR`, `SameRatio`, `Merge`,
  `LagrangeCoeffsG1/G2`, `BitReverseG1`) and the `constraint` package are part of
  the repository but their sources are not available; they are modelled from
  the specification and marked as such.
* Randomness (`SetRandom`, the PoK nonce, the coefficients of `Merge`) is an
  explicit argument.
* Go panics and returned errors are values of `Failure`.
-/

namespace Setup

/-- Byte strings. -/
abbrev Bytes := List Nat

/-- The ways a call can fail: an explicit `panic(msg)`, a Go run-time panic for
an index or slice bound out of range, the failure of the Lagrange preparation,
and an `error` value built by `errors.New(msg)`. -/
inductive Failure where
  | panic (msg : String)
  | outOfRange
  | lagrange
  | error (msg : String)
  deriving DecidableEq, Repr

/-- External curve primitives: generators, a bilinear pairing, the point
encoders, SHA-256, hash-to-G2 and the FFT domain generator. -/
structure Curve (F G₁ G₂ Gₜ : Type) [Field F] [AddCommGroup G₁] [Module F G₁]
    [AddCommGroup G₂] [Module F G₂] [AddCommGroup Gₜ] [Module F Gₜ] where
  g1 : G₁
  g2 : G₂
  e : G₁ → G₂ → Gₜ
  e_add_left : ∀ p p' q, e (p + p') q = e p q + e p' q
  e_add_right : ∀ p q q', e p (q + q') = e p q + e p q'
  e_smul_left : ∀ (k : F) p q, e (k • p) q = k • e p q
  e_smul_right : ∀ (k : F) p q, e p (k • q) = k • e p q
  g1_ne_zero : g1 ≠ 0
  g2_ne_zero : g2 ≠ 0
  encodeG1 : G₁ → Bytes
  encodeG2 : G₂ → Bytes
  sha256 : Bytes → Bytes
  hashToG2 : Bytes → G₂
  rootOfUnity : Nat → F

set_option linter.unusedSectionVars false

variable {F G₁ G₂ Gₜ : Type} [Field F]
  [AddCommGroup G₁] [Module F G₁] [DecidableEq G₁]
  [AddCommGroup G₂] [Module F G₂] [DecidableEq G₂]
  [AddCommGroup Gₜ] [Module F Gₜ] [DecidableEq Gₜ]

/-! ## `setup/utils` -/

namespace utils

/-- Modelled from the spec: the type `utils.PublicKey` (source not available),
a proof of knowledge with fields `SG`, `SXG` in G1 and `XR` in G2. -/
structure PublicKey (G₁ G₂ : Type) where
  SG : G₁
  SXG : G₁
  XR : G₂

/-- Modelled from the spec: `utils.GenR` (source not available), the
deterministic hash-to-curve of `SG ‖ SXG ‖ prev_hash ‖ domain_tag`. -/
def GenR (cv : Curve F G₁ G₂ Gₜ) (SG SXG : G₁) (hash : Bytes) (dst : Nat) : G₂ :=
  cv.hashToG2 (cv.encodeG1 SG ++ cv.encodeG1 SXG ++ hash ++ [dst])

/-- Modelled from the spec: `utils.GenPublicKey` (source not available).  With
the sampled nonce `s`: `SG = [s]₁`, `SXG = [s·x]₁`, `XR = x · R` where `R` is
`GenR SG SXG prev_hash domain_tag`. -/
def GenPublicKey (cv : Curve F G₁ G₂ Gₜ) (s : F) (x : F) (hash : Bytes) (dst : Nat) :
    PublicKey G₁ G₂ :=
  let SG := s • cv.g1
  let SXG := (s * x) • cv.g1
  let R := GenR cv SG SXG hash dst
  { SG := SG, SXG := SXG, XR := x • R }

/-- Modelled from the spec: `utils.SameRatio` (source not available): the pairing
equality that holds iff the pair `(A₁, B₁)` of G1 and the pair `(A₂, B₂)` of G2
have the same ratio, `e(A₁, A₂) == e(B₁, B₂)`; rejects if any input is the
identity.  The pairs are oriented as the uses of the specification require:
`SameRatio(next.Delta₁, prev.Delta₁, R, XR)` enforces `next.Delta₁ = δ · prev.Delta₁`
with `XR = δ · R`, `SameRatio(SG, SXG, next.Delta₂, prev.Delta₂)` enforces
`next.Delta₂ = δ · prev.Delta₂` with `SXG = δ · SG`, and
`SameRatio(Delta₁_after, Delta₁_before, g₂, Delta₂_after / Delta₂_before)` holds
across a contribution (the one-line formula of section 4.4 pairs `A₁` with `B₂`
and `B₁` with `A₂`, under which none of these would hold). -/
def SameRatio (cv : Curve F G₁ G₂ Gₜ) (A₁ B₁ : G₁) (A₂ B₂ : G₂) : Bool :=
  if A₁ = 0 ∨ B₁ = 0 ∨ A₂ = 0 ∨ B₂ = 0 then false
  else decide (cv.e A₁ A₂ = cv.e B₁ B₂)

/-- The linear combination `Σ r_j · A[j]`, the scalars taken from index `j` on. -/
def linComb {G : Type} [AddCommGroup G] [Module F G] (r : Nat → F) : Nat → List G → G
  | _, [] => 0
  | j, a :: as => r j • a + linComb r (j + 1) as

/-- Modelled from the spec: `utils.Merge` (source not available): with the
drawn scalars `r_j`, returns `(Σ r_j · A[j], Σ r_j · B[j])`. -/
def Merge (r : Nat → F) (A B : List G₁) : G₁ × G₁ :=
  (linComb r 0 A, linComb r 0 B)

/-- Whether `n` is a power of two (`0` is not). -/
def isPowerOfTwo (n : Nat) : Bool :=
  n != 0 && 2 ^ Nat.log2 n == n

/-- Modelled from the spec: the Lagrange preparation behind
`utils.LagrangeCoeffsG1` and `utils.LagrangeCoeffsG2` (source not available): an
inverse DFT in the exponent over the subgroup of order `n` generated by `ω`,
`Q[j] = n⁻¹ · Σ_i ω^(-i·j) · P[i]` for the first `n` entries of `P`; it fails
when `n` is not a power of two. -/
def LagrangeCoeffs {G : Type} [AddCommGroup G] [Module F G] (ω : F) (P : List G) (n : Nat) :
    Except Failure (List G) :=
  if !isPowerOfTwo n then .error .lagrange
  else if P.length < n then .error .outOfRange
  else .ok ((List.range n).map fun j =>
    ((n : F)⁻¹) • linComb (fun i => (ω ^ (i * j))⁻¹) 0 (P.take n))

/-- Modelled from the spec: `utils.LagrangeCoeffsG1` (source not available). -/
def LagrangeCoeffsG1 (cv : Curve F G₁ G₂ Gₜ) (powers : List G₁) (size : Nat) :
    Except Failure (List G₁) :=
  LagrangeCoeffs (cv.rootOfUnity size) powers size

/-- Modelled from the spec: `utils.LagrangeCoeffsG2` (source not available). -/
def LagrangeCoeffsG2 (cv : Curve F G₁ G₂ Gₜ) (powers : List G₂) (size : Nat) :
    Except Failure (List G₂) :=
  LagrangeCoeffs (cv.rootOfUnity size) powers size

/-- Bit reversal of `i` on `bits` bits. -/
def bitRev : Nat → Nat → Nat
  | 0, _ => 0
  | b + 1, i => (i % 2) * 2 ^ b + bitRev b (i / 2)

/-- Modelled from the spec: `utils.BitReverseG1` (source not available), the
bit-reversal permutation of a slice whose length is a power of two: the entry
at index `i` becomes the entry that was at the bit reversal of `i`. -/
def BitReverseG1 (a : List G₁) : List G₁ :=
  (List.range a.length).map fun i => a.getD (bitRev (Nat.log2 a.length) i) 0

end utils

/-! ## The `constraint` package -/

namespace constraint

/-- Modelled from the spec: `constraint.Term` (source not available), a pair
`(coeff_id, wire_id)` read through `CoeffID()` and `WireID()`. -/
structure Term where
  CoeffID : Nat
  WireID : Nat
  deriving DecidableEq, Repr

/-- The constants `constraint.CoeffIdZero`, `CoeffIdOne`, `CoeffIdMinusOne` and
`CoeffIdTwo`, whose declaration is not available: they are a parameter. -/
structure CoeffIds where
  CoeffIdZero : Nat
  CoeffIdOne : Nat
  CoeffIdMinusOne : Nat
  CoeffIdTwo : Nat

/-- Modelled from the spec: a constraint (source not available), three linear
combinations `L`, `R`, `O`. -/
structure R1C where
  L : List Term
  R : List Term
  O : List Term

end constraint

/-- Modelled from the spec: `cs_bn254.R1CS` (source not available): a sequence of
constraints, a coefficient table and the counts of variables. -/
structure R1CS (F : Type) where
  Constraints : List constraint.R1C
  Coefficients : List F
  NbInternalVariables : Nat
  NbSecretVariables : Nat
  NbPublicVariables : Nat

/-- Modelled from the spec: `R1CS.GetNbConstraints` (source not available), the
number of constraints. -/
def R1CS.GetNbConstraints (r1cs : R1CS F) : Nat :=
  r1cs.Constraints.length

/-- Modelled from the spec: `R1CS.GetNbVariables` (source not available), the
counts `(n_internal, n_secret, n_public)`. -/
def R1CS.GetNbVariables (r1cs : R1CS F) : Nat × Nat × Nat :=
  (r1cs.NbInternalVariables, r1cs.NbSecretVariables, r1cs.NbPublicVariables)

/-! ## `Phase1` (as read by `NewPhase2` and `marshal.go`) -/

/-- The struct `Phase1.Parameters.G1`. -/
structure Phase1G1 (G₁ : Type) where
  Tau : List G₁
  AlphaTau : List G₁
  BetaTau : List G₁

/-- The struct `Phase1.Parameters.G2`. -/
structure Phase1G2 (G₂ : Type) where
  Tau : List G₂
  Beta : G₂

/-- The struct `Phase1.Parameters`. -/
structure Phase1Parameters (G₁ G₂ : Type) where
  G1 : Phase1G1 G₁
  G2 : Phase1G2 G₂

/-- The struct `Phase1.PublicKeys`. -/
structure Phase1PublicKeys (G₁ G₂ : Type) where
  Tau : utils.PublicKey G₁ G₂
  Alpha : utils.PublicKey G₁ G₂
  Beta : utils.PublicKey G₁ G₂

/-- The struct `Phase1`. -/
structure Phase1 (G₁ G₂ : Type) where
  Parameters : Phase1Parameters G₁ G₂
  PublicKeys : Phase1PublicKeys G₁ G₂
  Hash : Bytes

/-! ## `Phase2` -/

/-- The anonymous struct `Phase2.Parameters.G1`. -/
structure Phase2G1 (G₁ : Type) where
  Delta : G₁
  L : List G₁
  Z : List G₁

/-- The anonymous struct `Phase2.Parameters.G2`. -/
structure Phase2G2 (G₂ : Type) where
  Delta : G₂

/-- The anonymous struct `Phase2.Parameters`. -/
structure Phase2Parameters (G₁ G₂ : Type) where
  G1 : Phase2G1 G₁
  G2 : Phase2G2 G₂

/-- The struct `Phase2`. -/
structure Phase2 (G₁ G₂ : Type) where
  Parameters : Phase2Parameters G₁ G₂
  PublicKey : utils.PublicKey G₁ G₂
  Hash : Bytes

/-- The 32-bit big-endian length written by the encoder in front of a slice. -/
def encodeUint32 (n : Nat) : Bytes :=
  [n / 2 ^ 24 % 256, n / 2 ^ 16 % 256, n / 2 ^ 8 % 256, n % 256]

/-- The encoding of a slice of points: its length, then every point. -/
def encodeSlice {α : Type} (enc : α → Bytes) (xs : List α) : Bytes :=
  encodeUint32 xs.length ++ xs.foldr (fun x acc => enc x ++ acc) []

/-- `Phase2.writeTo`: the bytes handed to the writer, in the order of `toEncode`. -/
def Phase2.writeTo (cv : Curve F G₁ G₂ Gₜ) (c : Phase2 G₁ G₂) : Bytes :=
  cv.encodeG1 c.PublicKey.SG ++ cv.encodeG1 c.PublicKey.SXG ++ cv.encodeG2 c.PublicKey.XR ++
  cv.encodeG1 c.Parameters.G1.Delta ++ encodeSlice cv.encodeG1 c.Parameters.G1.L ++
  encodeSlice cv.encodeG1 c.Parameters.G1.Z ++ cv.encodeG2 c.Parameters.G2.Delta

/-- `Phase2.hash`: SHA-256 of what `writeTo` writes. -/
def Phase2.hash (cv : Curve F G₁ G₂ Gₜ) (c : Phase2 G₁ G₂) : Bytes :=
  cv.sha256 (c.writeTo cv)

/-- The anonymous struct `Phase2Evaluations.G1`. -/
structure Phase2EvaluationsG1 (G₁ : Type) where
  A : List G₁
  B : List G₁
  VKK : List G₁

/-- The anonymous struct `Phase2Evaluations.G2`. -/
structure Phase2EvaluationsG2 (G₂ : Type) where
  B : List G₂

/-- The struct `Phase2Evaluations`. -/
structure Phase2Evaluations (G₁ G₂ : Type) where
  G1 : Phase2EvaluationsG1 G₁
  G2 : Phase2EvaluationsG2 G₂

/-! ## `NewPhase2` -/

/-- The closure `accumulateG1` of `NewPhase2`; the new value of `*res`. -/
def NewPhase2.accumulateG1 (ids : constraint.CoeffIds) (r1cs : R1CS F)
    (res : G₁) (t : constraint.Term) (value : G₁) : Except Failure G₁ :=
  let cID := t.CoeffID
  if cID = ids.CoeffIdZero then .ok res
  else if cID = ids.CoeffIdOne then .ok (res + value)
  else if cID = ids.CoeffIdMinusOne then .ok (res - value)
  else if cID = ids.CoeffIdTwo then .ok (res + value + value)
  else
    match r1cs.Coefficients[cID]? with
    | none => .error .outOfRange
    | some c => .ok (res + c • value)

/-- The closure `accumulateG2` of `NewPhase2`; the new value of `*res`. -/
def NewPhase2.accumulateG2 (ids : constraint.CoeffIds) (r1cs : R1CS F)
    (res : G₂) (t : constraint.Term) (value : G₂) : Except Failure G₂ :=
  let cID := t.CoeffID
  if cID = ids.CoeffIdZero then .ok res
  else if cID = ids.CoeffIdOne then .ok (res + value)
  else if cID = ids.CoeffIdMinusOne then .ok (res - value)
  else if cID = ids.CoeffIdTwo then .ok (res + value + value)
  else
    match r1cs.Coefficients[cID]? with
    | none => .error .outOfRange
    | some c => .ok (res + c • value)

/-- One call `accumulate(&arr[t.WireID()], t, &coeff[i])`: `value` is `coeff[i]`
when `i` is in range; the result is the updated `arr`. -/
def NewPhase2.atWire {G : Type} (accumulate : G → constraint.Term → G → Except Failure G)
    (arr : List G) (t : constraint.Term) (value : Option G) : Except Failure (List G) :=
  match arr[t.WireID]?, value with
  | some res, some v =>
    match accumulate res t v with
    | .ok res' => .ok (arr.set t.WireID res')
    | .error err => .error err
  | _, _ => .error .outOfRange

/-- The six per-wire accumulators of `NewPhase2`: `evals.G1.A`, `evals.G1.B`,
`evals.G2.B`, `bA`, `aB` and `C`. -/
structure NewPhase2.Acc (G₁ G₂ : Type) where
  A : List G₁
  B : List G₁
  B2 : List G₂
  bA : List G₁
  aB : List G₁
  C : List G₁

/-- The loop `for _, t := range c.L` of constraint `i`. -/
def NewPhase2.loopL (ids : constraint.CoeffIds) (r1cs : R1CS F) (tau1 btau1 : Option G₁) :
    List constraint.Term → NewPhase2.Acc G₁ G₂ → Except Failure (NewPhase2.Acc G₁ G₂)
  | [], st => .ok st
  | t :: ts, st => do
    let A ← NewPhase2.atWire (NewPhase2.accumulateG1 ids r1cs) st.A t tau1
    let bA ← NewPhase2.atWire (NewPhase2.accumulateG1 ids r1cs) st.bA t btau1
    NewPhase2.loopL ids r1cs tau1 btau1 ts { st with A := A, bA := bA }

/-- The loop `for _, t := range c.R` of constraint `i`. -/
def NewPhase2.loopR (ids : constraint.CoeffIds) (r1cs : R1CS F) (tau1 : Option G₁)
    (tau2 : Option G₂) (atau1 : Option G₁) :
    List constraint.Term → NewPhase2.Acc G₁ G₂ → Except Failure (NewPhase2.Acc G₁ G₂)
  | [], st => .ok st
  | t :: ts, st => do
    let B ← NewPhase2.atWire (NewPhase2.accumulateG1 ids r1cs) st.B t tau1
    let B2 ← NewPhase2.atWire (NewPhase2.accumulateG2 ids r1cs) st.B2 t tau2
    let aB ← NewPhase2.atWire (NewPhase2.accumulateG1 ids r1cs) st.aB t atau1
    NewPhase2.loopR ids r1cs tau1 tau2 atau1 ts { st with B := B, B2 := B2, aB := aB }

/-- The loop `for _, t := range c.O` of constraint `i`. -/
def NewPhase2.loopO (ids : constraint.CoeffIds) (r1cs : R1CS F) (tau1 : Option G₁) :
    List constraint.Term → NewPhase2.Acc G₁ G₂ → Except Failure (NewPhase2.Acc G₁ G₂)
  | [], st => .ok st
  | t :: ts, st => do
    let C ← NewPhase2.atWire (NewPhase2.accumulateG1 ids r1cs) st.C t tau1
    NewPhase2.loopO ids r1cs tau1 ts { st with C := C }

/-- The loop `for i, c := range r1cs.Constraints`, from index `i` on. -/
def NewPhase2.loopConstraints (ids : constraint.CoeffIds) (r1cs : R1CS F)
    (coeffTau1 : List G₁) (coeffTau2 : List G₂) (coeffAlphaTau1 coeffBetaTau1 : List G₁) :
    Nat → List constraint.R1C → NewPhase2.Acc G₁ G₂ → Except Failure (NewPhase2.Acc G₁ G₂)
  | _, [], st => .ok st
  | i, c :: cs, st => do
    -- A
    let st ← NewPhase2.loopL ids r1cs coeffTau1[i]? coeffBetaTau1[i]? c.L st
    -- B
    let st ← NewPhase2.loopR ids r1cs coeffTau1[i]? coeffTau2[i]? coeffAlphaTau1[i]? c.R st
    -- C
    let st ← NewPhase2.loopO ids r1cs coeffTau1[i]? c.O st
    NewPhase2.loopConstraints ids r1cs coeffTau1 coeffTau2 coeffAlphaTau1 coeffBetaTau1
      (i + 1) cs st

/-- The first `k` iterations of the loop `for i := 0; i < n-1; i++` that builds
`Z[i] = Tau[i+n] - Tau[i]`. -/
def NewPhase2.loopZ (Tau : List G₁) (n : Nat) : Nat → List G₁ → Except Failure (List G₁)
  | 0, Z => .ok Z
  | k + 1, Z => do
    let Z ← NewPhase2.loopZ Tau n k Z
    match Tau[k + n]?, Tau[k]? with
    | some a, some b =>
      if k < Z.length then .ok (Z.set k (a - b)) else .error .outOfRange
    | _, _ => .error .outOfRange

/-- The first `k` iterations of the loop `for i := 0; i < nWires; i++` that
fills `evals.G1.VKK` and `c2.Parameters.G1.L`; the state is `(VKK, L)`. -/
def NewPhase2.loopK (pub : Nat) (bA aB C : List G₁) :
    Nat → List G₁ × List G₁ → Except Failure (List G₁ × List G₁)
  | 0, st => .ok st
  | i + 1, st => do
    let (VKK, L) ← NewPhase2.loopK pub bA aB C i st
    match bA[i]?, aB[i]?, C[i]? with
    | some x, some y, some z =>
      let tmp := x + y
      let tmp := tmp + z
      if i < pub then
        if i < VKK.length then .ok (VKK.set i tmp, L) else .error .outOfRange
      else
        if i - pub < L.length then .ok (VKK, L.set (i - pub) tmp) else .error .outOfRange
    | _, _, _ => .error .outOfRange

/-- `NewPhase2`, with the PoK nonce `s` drawn by `GenPublicKey`. -/
def NewPhase2 (cv : Curve F G₁ G₂ Gₜ) (ids : constraint.CoeffIds) (s : F)
    (r1cs : R1CS F) (srs1 : Phase1 G₁ G₂) :
    Except Failure (Phase2 G₁ G₂ × Phase2Evaluations G₁ G₂) :=
  let srs := srs1.Parameters
  let size := srs.G1.AlphaTau.length
  if size < r1cs.GetNbConstraints then
    .error (.panic "Number of constraints is larger than expected")
  else do
    -- Prepare Lagrange coefficients of [τ...]₁, [τ...]₂, [ατ...]₁, [βτ...]₁
    let coeffTau1 ← utils.LagrangeCoeffsG1 cv srs.G1.Tau size
    let coeffTau2 ← utils.LagrangeCoeffsG2 cv srs.G2.Tau size
    let coeffAlphaTau1 ← utils.LagrangeCoeffsG1 cv srs.G1.AlphaTau size
    let coeffBetaTau1 ← utils.LagrangeCoeffsG1 cv srs.G1.BetaTau size
    let (internal, secret, pub) := r1cs.GetNbVariables
    let nWires := internal + secret + pub
    let st0 : NewPhase2.Acc G₁ G₂ :=
      { A := List.replicate nWires 0, B := List.replicate nWires 0,
        B2 := List.replicate nWires 0, bA := List.replicate nWires 0,
        aB := List.replicate nWires 0, C := List.replicate nWires 0 }
    let st ← NewPhase2.loopConstraints ids r1cs coeffTau1 coeffTau2 coeffAlphaTau1
      coeffBetaTau1 0 r1cs.Constraints st0
    -- Prepare default contribution
    let Delta1 := cv.g1
    let Delta2 := cv.g2
    -- Build Z in PK as τⁱ(τⁿ - 1) = τ⁽ⁱ⁺ⁿ⁾ - τⁱ for i ∈ [0, n-2]
    let n := srs.G1.AlphaTau.length
    let Z ← NewPhase2.loopZ srs.G1.Tau n (n - 1) (List.replicate n 0)
    let Z := utils.BitReverseG1 Z
    if n = 0 then .error .outOfRange
    else
      let Z := Z.take (n - 1)
      -- Evaluate L
      let nPrivate := internal + secret
      let (VKK, L) ← NewPhase2.loopK pub st.bA st.aB st.C nWires
        (List.replicate pub 0, List.replicate nPrivate 0)
      -- Set δ public key
      let delta : F := 1
      let c2 : Phase2 G₁ G₂ :=
        { Parameters := { G1 := { Delta := Delta1, L := L, Z := Z }, G2 := { Delta := Delta2 } },
          PublicKey := utils.GenPublicKey cv s delta [] 1,
          Hash := [] }
      -- Hash initial contribution
      let c2 := { c2 with Hash := c2.hash cv }
      let evals : Phase2Evaluations G₁ G₂ :=
        { G1 := { A := st.A, B := st.B, VKK := VKK }, G2 := { B := st.B2 } }
      pure (c2, evals)

/-- `Phase2.Contribute`, with the sampled `delta` and the PoK nonce `s`. -/
def Phase2.Contribute (cv : Curve F G₁ G₂ Gₜ) (delta s : F) (c : Phase2 G₁ G₂) :
    Phase2 G₁ G₂ :=
  let deltaInv := delta⁻¹
  -- Set δ public key
  let pk := utils.GenPublicKey cv s delta c.Hash 1
  -- Update δ
  let d1 := delta • c.Parameters.G1.Delta
  let d2 := delta • c.Parameters.G2.Delta
  -- Update Z using δ⁻¹
  let Z := c.Parameters.G1.Z.map (fun z => deltaInv • z)
  -- Update L using δ⁻¹
  let L := c.Parameters.G1.L.map (fun l => deltaInv • l)
  let c' : Phase2 G₁ G₂ :=
    { Parameters := { G1 := { Delta := d1, L := L, Z := Z }, G2 := { Delta := d2 } },
      PublicKey := pk, Hash := c.Hash }
  -- Hash contribution
  { c' with Hash := c'.hash cv }

/-- The loop of `verifyPhase2` comparing `h[i]` with `contribution.Hash[i]` for
every `i < len(h)`. -/
def verifyPhase2.checkHash : Bytes → Bytes → Except Failure Unit
  | [], _ => .ok ()
  | _ :: _, [] => .error .outOfRange
  | a :: h, b :: H =>
    if a ≠ b then .error (.error "couldn't verify hash of contribution")
    else verifyPhase2.checkHash h H

/-- `verifyPhase2`, with the scalars `rL`, `rZ` drawn by the two `Merge` calls.
`.ok ()` is the `nil` error. -/
def verifyPhase2 (cv : Curve F G₁ G₂ Gₜ) (rL rZ : Nat → F)
    (current contribution : Phase2 G₁ G₂) : Except Failure Unit :=
  -- Compute R for δ
  let deltaR := utils.GenR cv contribution.PublicKey.SG contribution.PublicKey.SXG current.Hash 1
  -- Check for knowledge of δ
  if !utils.SameRatio cv contribution.PublicKey.SG contribution.PublicKey.SXG
      contribution.PublicKey.XR deltaR then
    .error (.error "couldn't verify knowledge of δ")
  -- Check for valid updates using previous parameters
  else if !utils.SameRatio cv contribution.Parameters.G1.Delta current.Parameters.G1.Delta
      deltaR contribution.PublicKey.XR then
    .error (.error "couldn't verify that [δ]₁ is based on previous contribution")
  else if !utils.SameRatio cv contribution.PublicKey.SG contribution.PublicKey.SXG
      contribution.Parameters.G2.Delta current.Parameters.G2.Delta then
    .error (.error "couldn't verify that [δ]₂ is based on previous contribution")
  else
    -- Check for valid updates of L and Z
    let (L, prevL) := utils.Merge rL contribution.Parameters.G1.L current.Parameters.G1.L
    if !utils.SameRatio cv L prevL contribution.Parameters.G2.Delta
        current.Parameters.G2.Delta then
      .error (.error "couldn't verify valid updates of L using δ⁻¹")
    else
      let (Z, prevZ) := utils.Merge rZ contribution.Parameters.G1.Z current.Parameters.G1.Z
      if !utils.SameRatio cv Z prevZ contribution.Parameters.G2.Delta
          current.Parameters.G2.Delta then
        .error (.error "couldn't verify valid updates of L using δ⁻¹")
      else
        -- Check hash of the contribution
        verifyPhase2.checkHash (contribution.hash cv) contribution.Hash

/-- The loop of `VerifyPhase2` over the adjacent pairs of `contribs`; `rnd i`
gives the scalars drawn by the two `Merge` calls of the `i`-th transition. -/
def VerifyPhase2.loop (cv : Curve F G₁ G₂ Gₜ) (rnd : Nat → (Nat → F) × (Nat → F)) :
    Nat → List (Phase2 G₁ G₂) → Except Failure Unit
  | i, a :: b :: rest =>
    match verifyPhase2 cv (rnd i).1 (rnd i).2 a b with
    | .error err => .error err
    | .ok () => VerifyPhase2.loop cv rnd (i + 1) (b :: rest)
  | _, _ => .ok ()

/-- `VerifyPhase2(c0, c1, c...)`. -/
def VerifyPhase2 (cv : Curve F G₁ G₂ Gₜ) (rnd : Nat → (Nat → F) × (Nat → F))
    (c0 c1 : Phase2 G₁ G₂) (c : List (Phase2 G₁ G₂)) : Except Failure Unit :=
  VerifyPhase2.loop cv rnd 0 (c0 :: c1 :: c)

/-! ## `marshal.go`: writing -/

/-- `Phase2.WriteTo` on an in-memory writer: the bytes written (what `writeTo`
writes, then `Hash`) and the reported count `int64(nBytes) + n`. -/
def Phase2.WriteTo (cv : Curve F G₁ G₂ Gₜ) (phase2 : Phase2 G₁ G₂) : Bytes × Nat :=
  let out := phase2.writeTo cv
  let n := out.length
  let nBytes := phase2.Hash.length
  (out ++ phase2.Hash, nBytes + n)

/-- `Phase2Evaluations.WriteTo` on an in-memory writer: the bytes written, in
the order of `toEncode`, and the reported count. -/
def Phase2Evaluations.WriteTo (cv : Curve F G₁ G₂ Gₜ) (c : Phase2Evaluations G₁ G₂) :
    Bytes × Nat :=
  let out := encodeSlice cv.encodeG1 c.G1.A ++ encodeSlice cv.encodeG1 c.G1.B ++
    encodeSlice cv.encodeG2 c.G2.B
  (out, out.length)

/-! ## `marshal.go`: reading -/

/-- The backend decoder (`bn254.NewDecoder`) on an in-memory stream: each
function reads one point at the front of the stream and returns it with the
rest of the stream. -/
structure Decoder (G₁ G₂ : Type) where
  decodeG1 : Bytes → Except Failure (G₁ × Bytes)
  decodeG2 : Bytes → Except Failure (G₂ × Bytes)

/-- The decoder reads back every point the encoder of `cv` writes and leaves
the rest of the stream. -/
def Decoder.RoundTrip (cv : Curve F G₁ G₂ Gₜ) (dec : Decoder G₁ G₂) : Prop :=
  (∀ p rest, dec.decodeG1 (cv.encodeG1 p ++ rest) = .ok (p, rest)) ∧
  (∀ q rest, dec.decodeG2 (cv.encodeG2 q ++ rest) = .ok (q, rest))

/-- The 32-bit big-endian length read by the decoder in front of a slice. -/
def decodeUint32 : Bytes → Except Failure (Nat × Bytes)
  | a :: b :: c :: d :: rest => .ok (a * 2 ^ 24 + b * 2 ^ 16 + c * 2 ^ 8 + d, rest)
  | _ => .error (.error "unexpected EOF")

/-- The decoding of `n` points in a row. -/
def decodePoints {α : Type} (dec : Bytes → Except Failure (α × Bytes)) :
    Nat → Bytes → Except Failure (List α × Bytes)
  | 0, r => .ok ([], r)
  | n + 1, r => do
    let (x, r) ← dec r
    let (xs, r) ← decodePoints dec n r
    pure (x :: xs, r)

/-- The decoding of a slice of points: its length, then that many points. -/
def decodeSlice {α : Type} (dec : Bytes → Except Failure (α × Bytes)) (r : Bytes) :
    Except Failure (List α × Bytes) := do
  let (n, r) ← decodeUint32 r
  decodePoints dec n r

/-- The call `reader.Read(c.Hash)` on an in-memory stream, `c.Hash` being the 32
bytes just made: the new `c.Hash`, the count of bytes read and the rest of the
stream; `io.EOF` when the stream is exhausted. -/
def readHash (reader : Bytes) : Except Failure (Bytes × Nat × Bytes) :=
  if reader = [] then .error (.error "EOF")
  else
    let got := reader.take 32
    .ok (got ++ List.replicate (32 - got.length) 0, got.length, reader.drop 32)

/-- `Phase2.ReadFrom` on an in-memory stream: the receiver after the call, the
reported count and the rest of the stream. -/
def Phase2.ReadFrom (dec : Decoder G₁ G₂) (c : Phase2 G₁ G₂) (reader : Bytes) :
    Except Failure (Phase2 G₁ G₂ × Nat × Bytes) := do
  let (SG, r) ← dec.decodeG1 reader
  let (SXG, r) ← dec.decodeG1 r
  let (XR, r) ← dec.decodeG2 r
  let (Delta1, r) ← dec.decodeG1 r
  let (L, r) ← decodeSlice dec.decodeG1 r
  let (Z, r) ← decodeSlice dec.decodeG1 r
  let (Delta2, r) ← dec.decodeG2 r
  let bytesRead := reader.length - r.length
  let c : Phase2 G₁ G₂ :=
    { c with
      PublicKey := { SG := SG, SXG := SXG, XR := XR },
      Parameters := { G1 := { Delta := Delta1, L := L, Z := Z }, G2 := { Delta := Delta2 } } }
  let (Hash, n, r) ← readHash r
  pure ({ c with Hash := Hash }, n + bytesRead, r)

/-- `Phase2Evaluations.ReadFrom` on an in-memory stream: the receiver after the
call, the reported count and the rest of the stream. -/
def Phase2Evaluations.ReadFrom (dec : Decoder G₁ G₂) (c : Phase2Evaluations G₁ G₂)
    (reader : Bytes) : Except Failure (Phase2Evaluations G₁ G₂ × Nat × Bytes) := do
  let (A, r) ← decodeSlice dec.decodeG1 reader
  let (B, r) ← decodeSlice dec.decodeG1 r
  let (B2, r) ← decodeSlice dec.decodeG2 r
  let bytesRead := reader.length - r.length
  pure ({ G1 := { A := A, B := B, VKK := c.G1.VKK }, G2 := { B := B2 } }, bytesRead, r)

/-! ## Specification-side definitions for `NewPhase2` -/

/-- From the spec: `coeff(t)`, the field value designated by the coefficient
identifier of `t`: `0`, `1`, `-1`, `2` for the four special identifiers, and
otherwise the entry of the coefficient table of the R1CS. -/
def specCoeff (ids : constraint.CoeffIds) (r1cs : R1CS F) (t : constraint.Term) : F :=
  if t.CoeffID = ids.CoeffIdZero then 0
  else if t.CoeffID = ids.CoeffIdOne then 1
  else if t.CoeffID = ids.CoeffIdMinusOne then -1
  else if t.CoeffID = ids.CoeffIdTwo then 2
  else r1cs.Coefficients.getD t.CoeffID 0

/-- From the spec: the sum of `coeff(t) · v` over the terms `t` of `ts` with
`wire(t) = w`. -/
def specTermSum {G : Type} [AddCommGroup G] [Module F G] (ids : constraint.CoeffIds)
    (r1cs : R1CS F) (ts : List constraint.Term) (v : G) (w : Nat) : G :=
  ((ts.filter fun t => t.WireID = w).map fun t => specCoeff ids r1cs t • v).sum

/-- From the spec: the sum, over the constraints `cs` (the first of them having
index `i`) and over every term `t` of the selected linear combination of the
constraint with `wire(t) = w`, of `coeff(t) · vals[i]`. -/
def specWireSum {G : Type} [AddCommGroup G] [Module F G] (ids : constraint.CoeffIds)
    (r1cs : R1CS F) (sel : constraint.R1C → List constraint.Term) (vals : List G) :
    Nat → List constraint.R1C → Nat → G
  | _, [], _ => 0
  | i, c :: cs, w =>
    specTermSum ids r1cs (sel c) (vals.getD i 0) w + specWireSum ids r1cs sel vals (i + 1) cs w

/-- From the spec: `K[w] = bA[w] + aB[w] + C[w]`, with `bA[w]` the sum over the
`L`-terms on wire `w` with `bτ₁`, `aB[w]` the sum over the `R`-terms with `aτ₁`
and `C[w]` the sum over the `O`-terms with `τ₁`. -/
def specK (ids : constraint.CoeffIds) (r1cs : R1CS F) (tau1 atau1 btau1 : List G₁)
    (w : Nat) : G₁ :=
  specWireSum ids r1cs (fun c => c.L) btau1 0 r1cs.Constraints w +
  specWireSum ids r1cs (fun c => c.R) atau1 0 r1cs.Constraints w +
  specWireSum ids r1cs (fun c => c.O) tau1 0 r1cs.Constraints w

/-- The list `arr'` is `arr` with `f w` added to the entry at every index `w`. -/
def Adds {G : Type} [AddCommGroup G] (f : Nat → G) (arr arr' : List G) : Prop :=
  ∀ w : Nat, arr'[w]? = (arr[w]?).map fun x => x + f w

/-- The call did not end in an explicit `panic(msg)`. -/
def NoPanic {α : Type} (x : Except Failure α) : Prop :=
  ∀ msg, x ≠ .error (.panic msg)

/-! ## A small concrete instance

The rationals as scalar field and as the three groups, with the product as
pairing; `-1` generates the subgroup of order two. -/

/-- A concrete curve backend over `ℚ`. -/
def toyCurve : Curve ℚ ℚ ℚ ℚ where
  g1 := 1
  g2 := 1
  e := fun p q => p * q
  e_add_left := by intros; ring
  e_add_right := by intros; ring
  e_smul_left := by intros; simp only [smul_eq_mul]; ring
  e_smul_right := by intros; simp only [smul_eq_mul]; ring
  g1_ne_zero := one_ne_zero
  g2_ne_zero := one_ne_zero
  encodeG1 := fun p => [p.num.natAbs % 256, p.den % 256]
  encodeG2 := fun p => [p.num.natAbs % 256, p.den % 256]
  sha256 := fun b => List.replicate 32 (b.sum % 256)
  hashToG2 := fun _ => 1
  rootOfUnity := fun n => if n ≤ 1 then 1 else -1

/-- The identifiers of the coefficients `0`, `1`, `-1`, `2` used in the examples. -/
def toyIds : constraint.CoeffIds :=
  { CoeffIdZero := 0, CoeffIdOne := 1, CoeffIdMinusOne := 3, CoeffIdTwo := 2 }

/-- A system of two constraints over three wires (one public, one secret, one
internal), with one generic coefficient `5` at identifier `4`. -/
def toyR1CS : R1CS ℚ :=
  { Constraints :=
      [ { L := [⟨1, 0⟩, ⟨4, 1⟩], R := [⟨2, 1⟩], O := [⟨3, 2⟩] },
        { L := [⟨1, 1⟩], R := [⟨1, 0⟩, ⟨0, 2⟩], O := [⟨4, 0⟩] } ],
    Coefficients := [0, 1, 2, -1, 5],
    NbInternalVariables := 1, NbSecretVariables := 1, NbPublicVariables := 1 }

/-- A system of three constraints, more than the size `n = 2` of `toyPhase1`. -/
def toyR1CS3 : R1CS ℚ :=
  { toyR1CS with Constraints := toyR1CS.Constraints ++ [{ L := [], R := [], O := [] }] }

/-- A Phase 1 output of size `n = 2` for `τ = 2`, `α = 3`, `β = 5`. -/
def toyPhase1 : Phase1 ℚ ℚ :=
  { Parameters :=
      { G1 := { Tau := [1, 2, 4], AlphaTau := [3, 6], BetaTau := [5, 10] },
        G2 := { Tau := [1, 2], Beta := 5 } },
    PublicKeys :=
      { Tau := ⟨1, 2, 2⟩, Alpha := ⟨1, 3, 3⟩, Beta := ⟨1, 5, 5⟩ },
    Hash := [] }

/-- The Phase 2 state returned by `NewPhase2` on `toyR1CS` and `toyPhase1`. -/
def toyC0 : Phase2 ℚ ℚ :=
  { Parameters := { G1 := { Delta := 1, L := [44, -3 / 2], Z := [3] }, G2 := { Delta := 1 } },
    PublicKey := ⟨1, 1, 1⟩,
    Hash := List.replicate 32 67 }

/-- The evaluations returned by `NewPhase2` on `toyR1CS` and `toyPhase1`. -/
def toyEv : Phase2Evaluations ℚ ℚ :=
  { G1 := { A := [3 / 2, 7, 0], B := [-1 / 2, 3, 0], VKK := [7 / 2] },
    G2 := { B := [-1 / 2, 3, 0] } }

/-- A Phase 2 state before its hash is set. -/
def toyState0 : Phase2 ℚ ℚ :=
  { Parameters := { G1 := { Delta := 1, L := [1, 2], Z := [3] }, G2 := { Delta := 1 } },
    PublicKey := ⟨1, 1, 1⟩,
    Hash := [] }

/-- A Phase 2 state whose `Hash` is its own transcript hash. -/
def toyPrev : Phase2 ℚ ℚ :=
  { toyState0 with Hash := toyState0.hash toyCurve }

/-- A Phase 2 state with no private wire (`L` is empty), `Hash` its own
transcript hash. -/
def toyNoL : Phase2 ℚ ℚ :=
  let c : Phase2 ℚ ℚ :=
    { Parameters := { G1 := { Delta := 1, L := [], Z := [3] }, G2 := { Delta := 1 } },
      PublicKey := ⟨1, 1, 1⟩,
      Hash := [] }
  { c with Hash := c.hash toyCurve }

/-- A run of `k` contributions, each with its sampled `(delta, s)`. -/
def contributeChain (cv : Curve F G₁ G₂ Gₜ) (ds : List (F × F)) (c0 : Phase2 G₁ G₂) :
    Phase2 G₁ G₂ :=
  ds.foldl (fun c d => c.Contribute cv d.1 d.2) c0

/-- A Phase 1 output whose size `n = 3` is not a power of two. -/
def toyPhase1Odd : Phase1 ℚ ℚ :=
  { Parameters :=
      { G1 := { Tau := [1, 2, 4, 8, 16], AlphaTau := [3, 6, 12], BetaTau := [5, 10, 20] },
        G2 := { Tau := [1, 2, 4], Beta := 5 } },
    PublicKeys :=
      { Tau := ⟨1, 2, 2⟩, Alpha := ⟨1, 3, 3⟩, Beta := ⟨1, 5, 5⟩ },
    Hash := [] }

/-- From the spec: the canonical serialization of
`(PublicKey.SG, PublicKey.SXG, PublicKey.XR, Delta₁, L, Z, Delta₂)`, in that
order, every sequence preceded by its 32-bit length. -/
def specCanonical (cv : Curve F G₁ G₂ Gₜ) (SG SXG : G₁) (XR : G₂) (Delta1 : G₁)
    (L Z : List G₁) (Delta2 : G₂) : Bytes :=
  cv.encodeG1 SG ++ cv.encodeG1 SXG ++ cv.encodeG2 XR ++ cv.encodeG1 Delta1 ++
  encodeSlice cv.encodeG1 L ++ encodeSlice cv.encodeG1 Z ++ cv.encodeG2 Delta2

/-- The state left by the contribution `delta = -1`, `s = 1` on `toyPrev`. -/
def toyNext : Phase2 ℚ ℚ :=
  toyPrev.Contribute toyCurve (-1) 1

/-- `toyNext` with one more byte after its 32-byte hash. -/
def toyNextLong : Phase2 ℚ ℚ :=
  { toyNext with Hash := toyNext.Hash ++ [0] }

/-- `toyNext` with an empty `Hash`. -/
def toyNextShort : Phase2 ℚ ℚ :=
  { toyNext with Hash := [] }

/-- `toyNext` with the entry of `Z` negated. -/
def toyNextNegZ : Phase2 ℚ ℚ :=
  { toyNext with
    Parameters :=
      { G1 := { Delta := toyNext.Parameters.G1.Delta, L := toyNext.Parameters.G1.L,
                Z := toyNext.Parameters.G1.Z.map fun z => -z },
        G2 := toyNext.Parameters.G2 } }

/-- `toyNext` with the first entry of `L` negated. -/
def toyNextNegL : Phase2 ℚ ℚ :=
  { toyNext with
    Parameters :=
      { G1 := { Delta := toyNext.Parameters.G1.Delta,
                L := toyNext.Parameters.G1.L.modifyHead fun l => -l,
                Z := toyNext.Parameters.G1.Z },
        G2 := toyNext.Parameters.G2 } }

/-- From the spec (scenario "Wrong δ in G2"): a state built like the one left by
`Contribute` with the scalar `delta` and the nonce `s`, except that `Delta₂` is
scaled by `delta'`. -/
def contributeWrongG2 (cv : Curve F G₁ G₂ Gₜ) (delta delta' s : F) (c : Phase2 G₁ G₂) :
    Phase2 G₁ G₂ :=
  let c' : Phase2 G₁ G₂ :=
    { Parameters :=
        { G1 := { Delta := delta • c.Parameters.G1.Delta,
                  L := c.Parameters.G1.L.map (fun l => delta⁻¹ • l),
                  Z := c.Parameters.G1.Z.map (fun z => delta⁻¹ • z) },
          G2 := { Delta := delta' • c.Parameters.G2.Delta } },
      PublicKey := utils.GenPublicKey cv s delta c.Hash 1,
      Hash := c.Hash }
  { c' with Hash := c'.hash cv }

/-- From the spec: the accumulation without the shortcuts, the coefficient
resolved from the table of the R1CS and scalar-multiplied whatever its
identifier. -/
def specAccumulate {G : Type} [AddCommGroup G] [Module F G] (r1cs : R1CS F) (res : G)
    (t : constraint.Term) (value : G) : Except Failure G :=
  match r1cs.Coefficients[t.CoeffID]? with
  | none => .error .outOfRange
  | some c => .ok (res + c • value)

/-- The term `t` is within the documented bounds: its wire is below `nWires` and
its coefficient identifier is one of the four shortcuts or an index of the
coefficient table. -/
def TermOk (ids : constraint.CoeffIds) (r1cs : R1CS F) (nWires : Nat) (t : constraint.Term) :
    Prop :=
  t.WireID < nWires ∧
  (t.CoeffID = ids.CoeffIdZero ∨ t.CoeffID = ids.CoeffIdOne ∨
    t.CoeffID = ids.CoeffIdMinusOne ∨ t.CoeffID = ids.CoeffIdTwo ∨
    t.CoeffID < r1cs.Coefficients.length)

/-- The six accumulators all have `nWires` entries. -/
def AccLen (nWires : Nat) (st : NewPhase2.Acc G₁ G₂) : Prop :=
  st.A.length = nWires ∧ st.B.length = nWires ∧ st.B2.length = nWires ∧
  st.bA.length = nWires ∧ st.aB.length = nWires ∧ st.C.length = nWires

/-- A point encoding of the rationals that can be read back: the sign, the
absolute value of the numerator and the denominator. -/
def toyEncode (p : ℚ) : Bytes :=
  [if p.num < 0 then 1 else 0, p.num.natAbs, p.den]

/-- The decoder of `toyEncode`. -/
def toyDecode : Bytes → Except Failure (ℚ × Bytes)
  | sg :: a :: d :: rest => .ok ((if sg = 1 then -(a : ℚ) else (a : ℚ)) / (d : ℚ), rest)
  | _ => .error (.error "unexpected EOF")

/-- The concrete curve backend with the point encoding `toyEncode`. -/
def toyCodecCurve : Curve ℚ ℚ ℚ ℚ :=
  { toyCurve with encodeG1 := toyEncode, encodeG2 := toyEncode }

/-- The decoder of `toyCodecCurve`. -/
def toyDecoder : Decoder ℚ ℚ :=
  { decodeG1 := toyDecode, decodeG2 := toyDecode }

/-- The zero value of `Phase2Evaluations`. -/
def freshEvaluations : Phase2Evaluations ℚ ℚ :=
  { G1 := { A := [], B := [], VKK := [] }, G2 := { B := [] } }

/-- The zero value of `Phase2`. -/
def freshPhase2 : Phase2 ℚ ℚ :=
  { Parameters := { G1 := { Delta := 0, L := [], Z := [] }, G2 := { Delta := 0 } },
    PublicKey := ⟨0, 0, 0⟩,
    Hash := [] }

/-- Evaluations whose `G1.A` has `n` entries. -/
def manyEvaluations (n : Nat) : Phase2Evaluations ℚ ℚ :=
  { G1 := { A := List.replicate n 0, B := [], VKK := [] }, G2 := { B := [] } }

/-- A Phase 2 state whose `L` has `n` entries and whose `Hash` has 32 bytes. -/
def manyPhase2 (n : Nat) : Phase2 ℚ ℚ :=
  { Parameters :=
      { G1 := { Delta := 1, L := List.replicate n 0, Z := [] }, G2 := { Delta := 1 } },
    PublicKey := ⟨1, 1, 1⟩,
    Hash := List.replicate 32 0 }

/-! ## Lemmas -/

theorem checkHash_self (h : Bytes) : verifyPhase2.checkHash h h = .ok () := by
  induction h with
  | nil => rfl
  | cons a h ih => simp [verifyPhase2.checkHash, ih]

theorem linComb_map_smul {G : Type} [AddCommGroup G] [Module F G] (r : Nat → F) (k : F)
    (as : List G) (j : Nat) :
    utils.linComb r j (as.map fun a => k • a) = k • utils.linComb r j as := by
  induction as generalizing j with
  | nil => simp [utils.linComb]
  | cons a as ih => simp [utils.linComb, ih, smul_add, smul_comm k (r j) a]

theorem SameRatio_eq_true (cv : Curve F G₁ G₂ Gₜ) {A₁ B₁ : G₁} {A₂ B₂ : G₂}
    (hA₁ : A₁ ≠ 0) (hB₁ : B₁ ≠ 0) (hA₂ : A₂ ≠ 0) (hB₂ : B₂ ≠ 0)
    (h : cv.e A₁ A₂ = cv.e B₁ B₂) : utils.SameRatio cv A₁ B₁ A₂ B₂ = true := by
  simp [utils.SameRatio, hA₁, hB₁, hA₂, hB₂, h]

theorem hash_congr (cv : Curve F G₁ G₂ Gₜ) (c : Phase2 G₁ G₂) (h : Bytes) :
    Phase2.hash cv { c with Hash := h } = Phase2.hash cv c := rfl

/-! ### The accumulators -/

theorem length_eq_of_getElem?_map {α β : Type} (f : Nat → α → β) (xs : List β) (ys : List α)
    (h : ∀ j : Nat, xs[j]? = (ys[j]?).map (f j)) : xs.length = ys.length := by
  apply Nat.le_antisymm
  · by_contra hlt
    have h1 := h ys.length
    rw [List.getElem?_eq_none (Nat.le_refl _), Option.map_none',
      List.getElem?_eq_none_iff] at h1
    omega
  · by_contra hlt
    have h1 := h xs.length
    rw [List.getElem?_eq_none (Nat.le_refl _)] at h1
    have h2 : ys[xs.length]? = none := by
      cases hy : ys[xs.length]? with
      | none => rfl
      | some y => rw [hy] at h1; simp at h1
    rw [List.getElem?_eq_none_iff] at h2
    omega

theorem Adds.refl {G : Type} [AddCommGroup G] (arr : List G) : Adds (fun _ => 0) arr arr := by
  intro w
  cases arr[w]? <;> simp

theorem Adds.trans {G : Type} [AddCommGroup G] {f g : Nat → G} {a b c : List G}
    (h1 : Adds f a b) (h2 : Adds g b c) : Adds (fun w => f w + g w) a c := by
  intro w
  rw [h2 w, h1 w]
  cases a[w]? <;> simp [add_assoc]

theorem Adds.congr {G : Type} [AddCommGroup G] {f g : Nat → G} {a b : List G}
    (h : Adds f a b) (hfg : ∀ w, f w = g w) : Adds g a b := by
  intro w
  rw [h w, hfg w]

theorem Adds.length_eq {G : Type} [AddCommGroup G] {f : Nat → G} {a b : List G}
    (h : Adds f a b) : b.length = a.length :=
  length_eq_of_getElem?_map (fun j x => x + f j) _ _ (fun j => h j)

theorem Adds.replicate {G : Type} [AddCommGroup G] {f : Nat → G} {n : Nat} {b : List G}
    (h : Adds f (List.replicate n 0) b) (w : Nat) (hw : w < n) : b[w]? = some (f w) := by
  rw [h w, List.getElem?_replicate]
  simp [hw]

theorem accumulateG1_spec (ids : constraint.CoeffIds) (r1cs : R1CS F) (res res' : G₁)
    (t : constraint.Term) (v : G₁)
    (h : NewPhase2.accumulateG1 ids r1cs res t v = .ok res') :
    res' = res + specCoeff ids r1cs t • v := by
  unfold NewPhase2.accumulateG1 at h
  unfold specCoeff
  simp only at h
  split at h
  · rename_i h0
    simp only [Except.ok.injEq] at h
    rw [if_pos h0, zero_smul, add_zero, h]
  · rename_i h0
    rw [if_neg h0]
    split at h
    · rename_i h1
      simp only [Except.ok.injEq] at h
      rw [if_pos h1, one_smul, h]
    · rename_i h1
      rw [if_neg h1]
      split at h
      · rename_i h2
        simp only [Except.ok.injEq] at h
        rw [if_pos h2, neg_smul, one_smul, ← sub_eq_add_neg, h]
      · rename_i h2
        rw [if_neg h2]
        split at h
        · rename_i h3
          simp only [Except.ok.injEq] at h
          rw [if_pos h3, two_smul, ← add_assoc, h]
        · rename_i h3
          rw [if_neg h3]
          split at h
          · exact absurd h (by simp)
          · rename_i c hc
            simp only [Except.ok.injEq] at h
            rw [List.getD_eq_getElem?_getD, hc, Option.getD_some, h]

theorem accumulateG2_spec (ids : constraint.CoeffIds) (r1cs : R1CS F) (res res' : G₂)
    (t : constraint.Term) (v : G₂)
    (h : NewPhase2.accumulateG2 ids r1cs res t v = .ok res') :
    res' = res + specCoeff ids r1cs t • v := by
  unfold NewPhase2.accumulateG2 at h
  unfold specCoeff
  simp only at h
  split at h
  · rename_i h0
    simp only [Except.ok.injEq] at h
    rw [if_pos h0, zero_smul, add_zero, h]
  · rename_i h0
    rw [if_neg h0]
    split at h
    · rename_i h1
      simp only [Except.ok.injEq] at h
      rw [if_pos h1, one_smul, h]
    · rename_i h1
      rw [if_neg h1]
      split at h
      · rename_i h2
        simp only [Except.ok.injEq] at h
        rw [if_pos h2, neg_smul, one_smul, ← sub_eq_add_neg, h]
      · rename_i h2
        rw [if_neg h2]
        split at h
        · rename_i h3
          simp only [Except.ok.injEq] at h
          rw [if_pos h3, two_smul, ← add_assoc, h]
        · rename_i h3
          rw [if_neg h3]
          split at h
          · exact absurd h (by simp)
          · rename_i c hc
            simp only [Except.ok.injEq] at h
            rw [List.getD_eq_getElem?_getD, hc, Option.getD_some, h]

theorem specTermSum_nil {G : Type} [AddCommGroup G] [Module F G] (ids : constraint.CoeffIds)
    (r1cs : R1CS F) (v : G) (w : Nat) : specTermSum ids r1cs [] v w = 0 := by
  simp [specTermSum]

theorem specTermSum_cons {G : Type} [AddCommGroup G] [Module F G] (ids : constraint.CoeffIds)
    (r1cs : R1CS F) (t : constraint.Term) (ts : List constraint.Term) (v : G) (w : Nat) :
    specTermSum ids r1cs (t :: ts) v w =
      (if t.WireID = w then specCoeff ids r1cs t • v else 0) + specTermSum ids r1cs ts v w := by
  by_cases h : t.WireID = w <;> simp [specTermSum, List.filter_cons, h]

/-- One call of an accumulator on `arr[t.WireID()]` adds `coeff(t) · value` at
that index and leaves the other entries. -/
theorem atWire_spec {G : Type} [AddCommGroup G] [Module F G] (ids : constraint.CoeffIds)
    (r1cs : R1CS F) (acc : G → constraint.Term → G → Except Failure G)
    (hacc : ∀ res res' t v, acc res t v = .ok res' → res' = res + specCoeff ids r1cs t • v)
    (arr arr' : List G) (t : constraint.Term) (value : Option G)
    (h : NewPhase2.atWire acc arr t value = .ok arr') :
    ∃ v, value = some v ∧
      Adds (fun w => if t.WireID = w then specCoeff ids r1cs t • v else 0) arr arr' := by
  cases hres : arr[t.WireID]? with
  | none => simp [NewPhase2.atWire, hres] at h
  | some res =>
    cases value with
    | none => simp [NewPhase2.atWire, hres] at h
    | some v =>
      cases hr : acc res t v with
      | error err => simp [NewPhase2.atWire, hres, hr] at h
      | ok res' =>
        simp only [NewPhase2.atWire, hres, hr, Except.ok.injEq] at h
        refine ⟨v, rfl, ?_⟩
        intro w
        rw [← h, List.getElem?_set]
        have hlt : t.WireID < arr.length := by
          rw [List.getElem?_eq_some_iff] at hres
          exact hres.1
        by_cases hw : t.WireID = w
        · subst hw
          simp [hlt, hres, hacc _ _ _ _ hr]
        · cases arr[w]? <;> simp [hw]

theorem Adds.step {G : Type} [AddCommGroup G] [Module F G] (ids : constraint.CoeffIds)
    (r1cs : R1CS F) {t : constraint.Term} {ts : List constraint.Term} {value : Option G} {v : G}
    {a b c : List G} (hv : value = some v)
    (h1 : Adds (fun w => if t.WireID = w then specCoeff ids r1cs t • v else 0) a b)
    (h2 : Adds (specTermSum ids r1cs ts (value.getD 0)) b c) :
    Adds (specTermSum ids r1cs (t :: ts) (value.getD 0)) a c := by
  subst hv
  refine (h1.trans h2).congr ?_
  intro w
  rw [specTermSum_cons, Option.getD_some]

theorem loopL_spec (ids : constraint.CoeffIds) (r1cs : R1CS F) (tau1 btau1 : Option G₁)
    (ts : List constraint.Term) (st st' : NewPhase2.Acc G₁ G₂)
    (h : NewPhase2.loopL ids r1cs tau1 btau1 ts st = .ok st') :
    Adds (specTermSum ids r1cs ts (tau1.getD 0)) st.A st'.A ∧
    Adds (specTermSum ids r1cs ts (btau1.getD 0)) st.bA st'.bA ∧
    st'.B = st.B ∧ st'.B2 = st.B2 ∧ st'.aB = st.aB ∧ st'.C = st.C := by
  induction ts generalizing st with
  | nil =>
    simp only [NewPhase2.loopL, Except.ok.injEq] at h
    subst h
    exact ⟨(Adds.refl _).congr fun w => (specTermSum_nil ids r1cs _ w).symm,
      (Adds.refl _).congr fun w => (specTermSum_nil ids r1cs _ w).symm, rfl, rfl, rfl, rfl⟩
  | cons t ts ih =>
    simp only [NewPhase2.loopL, bind, Except.bind] at h
    cases hA : NewPhase2.atWire (NewPhase2.accumulateG1 ids r1cs) st.A t tau1 with
    | error err => simp [hA] at h
    | ok A =>
      cases hbA : NewPhase2.atWire (NewPhase2.accumulateG1 ids r1cs) st.bA t btau1 with
      | error err => simp [hA, hbA] at h
      | ok bA =>
        simp only [hA, hbA] at h
        obtain ⟨i1, i2, i3, i4, i5, i6⟩ := ih _ h
        obtain ⟨v, hv, a1⟩ := atWire_spec ids r1cs _ (accumulateG1_spec ids r1cs) _ _ _ _ hA
        obtain ⟨b, hb, a2⟩ := atWire_spec ids r1cs _ (accumulateG1_spec ids r1cs) _ _ _ _ hbA
        exact ⟨Adds.step ids r1cs hv a1 i1, Adds.step ids r1cs hb a2 i2, i3, i4, i5, i6⟩

theorem loopR_spec (ids : constraint.CoeffIds) (r1cs : R1CS F) (tau1 : Option G₁)
    (tau2 : Option G₂) (atau1 : Option G₁)
    (ts : List constraint.Term) (st st' : NewPhase2.Acc G₁ G₂)
    (h : NewPhase2.loopR ids r1cs tau1 tau2 atau1 ts st = .ok st') :
    Adds (specTermSum ids r1cs ts (tau1.getD 0)) st.B st'.B ∧
    Adds (specTermSum ids r1cs ts (tau2.getD 0)) st.B2 st'.B2 ∧
    Adds (specTermSum ids r1cs ts (atau1.getD 0)) st.aB st'.aB ∧
    st'.A = st.A ∧ st'.bA = st.bA ∧ st'.C = st.C := by
  induction ts generalizing st with
  | nil =>
    simp only [NewPhase2.loopR, Except.ok.injEq] at h
    subst h
    exact ⟨(Adds.refl _).congr fun w => (specTermSum_nil ids r1cs _ w).symm,
      (Adds.refl _).congr fun w => (specTermSum_nil ids r1cs _ w).symm,
      (Adds.refl _).congr fun w => (specTermSum_nil ids r1cs _ w).symm, rfl, rfl, rfl⟩
  | cons t ts ih =>
    simp only [NewPhase2.loopR, bind, Except.bind] at h
    cases hB : NewPhase2.atWire (NewPhase2.accumulateG1 ids r1cs) st.B t tau1 with
    | error err => simp [hB] at h
    | ok B =>
      cases hB2 : NewPhase2.atWire (NewPhase2.accumulateG2 ids r1cs) st.B2 t tau2 with
      | error err => simp [hB, hB2] at h
      | ok B2 =>
        cases haB : NewPhase2.atWire (NewPhase2.accumulateG1 ids r1cs) st.aB t atau1 with
        | error err => simp [hB, hB2, haB] at h
        | ok aB =>
          simp only [hB, hB2, haB] at h
          obtain ⟨i1, i2, i3, i4, i5, i6⟩ := ih _ h
          obtain ⟨v, hv, a1⟩ := atWire_spec ids r1cs _ (accumulateG1_spec ids r1cs) _ _ _ _ hB
          obtain ⟨b, hb, a2⟩ := atWire_spec ids r1cs _ (accumulateG2_spec ids r1cs) _ _ _ _ hB2
          obtain ⟨c, hc, a3⟩ := atWire_spec ids r1cs _ (accumulateG1_spec ids r1cs) _ _ _ _ haB
          exact ⟨Adds.step ids r1cs hv a1 i1, Adds.step ids r1cs hb a2 i2,
            Adds.step ids r1cs hc a3 i3, i4, i5, i6⟩

theorem loopO_spec (ids : constraint.CoeffIds) (r1cs : R1CS F) (tau1 : Option G₁)
    (ts : List constraint.Term) (st st' : NewPhase2.Acc G₁ G₂)
    (h : NewPhase2.loopO ids r1cs tau1 ts st = .ok st') :
    Adds (specTermSum ids r1cs ts (tau1.getD 0)) st.C st'.C ∧
    st'.A = st.A ∧ st'.B = st.B ∧ st'.B2 = st.B2 ∧ st'.bA = st.bA ∧ st'.aB = st.aB := by
  induction ts generalizing st with
  | nil =>
    simp only [NewPhase2.loopO, Except.ok.injEq] at h
    subst h
    exact ⟨(Adds.refl _).congr fun w => (specTermSum_nil ids r1cs _ w).symm,
      rfl, rfl, rfl, rfl, rfl⟩
  | cons t ts ih =>
    simp only [NewPhase2.loopO, bind, Except.bind] at h
    cases hC : NewPhase2.atWire (NewPhase2.accumulateG1 ids r1cs) st.C t tau1 with
    | error err => simp [hC] at h
    | ok C =>
      simp only [hC] at h
      obtain ⟨i1, i2, i3, i4, i5, i6⟩ := ih _ h
      obtain ⟨v, hv, a1⟩ := atWire_spec ids r1cs _ (accumulateG1_spec ids r1cs) _ _ _ _ hC
      exact ⟨Adds.step ids r1cs hv a1 i1, i2, i3, i4, i5, i6⟩

/-- The loop over the constraints adds to every accumulator, at every wire, the
sum the specification gives for it. -/
theorem loopConstraints_spec (ids : constraint.CoeffIds) (r1cs : R1CS F)
    (tau1 : List G₁) (tau2 : List G₂) (atau1 btau1 : List G₁) (cs : List constraint.R1C)
    (i : Nat) (st st' : NewPhase2.Acc G₁ G₂)
    (h : NewPhase2.loopConstraints ids r1cs tau1 tau2 atau1 btau1 i cs st = .ok st') :
    Adds (specWireSum ids r1cs (fun c => c.L) tau1 i cs) st.A st'.A ∧
    Adds (specWireSum ids r1cs (fun c => c.R) tau1 i cs) st.B st'.B ∧
    Adds (specWireSum ids r1cs (fun c => c.R) tau2 i cs) st.B2 st'.B2 ∧
    Adds (specWireSum ids r1cs (fun c => c.L) btau1 i cs) st.bA st'.bA ∧
    Adds (specWireSum ids r1cs (fun c => c.R) atau1 i cs) st.aB st'.aB ∧
    Adds (specWireSum ids r1cs (fun c => c.O) tau1 i cs) st.C st'.C := by
  induction cs generalizing i st with
  | nil =>
    simp only [NewPhase2.loopConstraints, Except.ok.injEq] at h
    subst h
    exact ⟨Adds.refl _, Adds.refl _, Adds.refl _, Adds.refl _, Adds.refl _, Adds.refl _⟩
  | cons c cs ih =>
    simp only [NewPhase2.loopConstraints, bind, Except.bind] at h
    cases hL : NewPhase2.loopL ids r1cs tau1[i]? btau1[i]? c.L st with
    | error err => simp [hL] at h
    | ok s1 =>
      cases hR : NewPhase2.loopR ids r1cs tau1[i]? tau2[i]? atau1[i]? c.R s1 with
      | error err => simp [hL, hR] at h
      | ok s2 =>
        cases hO : NewPhase2.loopO ids r1cs tau1[i]? c.O s2 with
        | error err => simp [hL, hR, hO] at h
        | ok s3 =>
          simp only [hL, hR, hO] at h
          obtain ⟨i1, i2, i3, i4, i5, i6⟩ := ih _ _ h
          obtain ⟨l1, l2, l3, l4, l5, l6⟩ := loopL_spec ids r1cs _ _ _ _ _ hL
          obtain ⟨r1, r2, r3, r4, r5, r6⟩ := loopR_spec ids r1cs _ _ _ _ _ _ hR
          obtain ⟨o1, o2, o3, o4, o5, o6⟩ := loopO_spec ids r1cs _ _ _ _ hO
          rw [o2, r4] at i1
          rw [o3] at i2
          rw [o4] at i3
          rw [o5, r5] at i4
          rw [o6] at i5
          rw [l3] at r1
          rw [l4] at r2
          rw [l5] at r3
          rw [r6, l6] at o1
          refine ⟨(l1.trans i1).congr ?_, (r1.trans i2).congr ?_, (r2.trans i3).congr ?_,
            (l2.trans i4).congr ?_, (r3.trans i5).congr ?_, (o1.trans i6).congr ?_⟩ <;>
          · intro w
            simp only [specWireSum, List.getD_eq_getElem?_getD]

/-- The loop over the wires keeps the lengths of `VKK` and `L` and, for every
wire `i` it went through, stores `bA[i] + aB[i] + C[i]` at `VKK[i]` when
`i < pub` and at `L[i - pub]` otherwise. -/
theorem loopK_spec (pub : Nat) (bA aB C : List G₁) (k : Nat) (st0 st : List G₁ × List G₁)
    (h : NewPhase2.loopK pub bA aB C k st0 = .ok st) :
    st.1.length = st0.1.length ∧ st.2.length = st0.2.length ∧
    ∀ i, i < k → ∃ x y z, bA[i]? = some x ∧ aB[i]? = some y ∧ C[i]? = some z ∧
      (i < pub → st.1[i]? = some (x + y + z)) ∧
      (pub ≤ i → st.2[i - pub]? = some (x + y + z)) := by
  induction k generalizing st with
  | zero =>
    simp only [NewPhase2.loopK, Except.ok.injEq] at h
    subst h
    exact ⟨rfl, rfl, fun i hi => absurd hi (Nat.not_lt_zero i)⟩
  | succ k ih =>
    simp only [NewPhase2.loopK, bind, Except.bind] at h
    cases hk : NewPhase2.loopK pub bA aB C k st0 with
    | error err => simp [hk] at h
    | ok p =>
      obtain ⟨VKK, L⟩ := p
      obtain ⟨i1, i2, i3⟩ := ih _ hk
      simp only [hk] at h
      cases hx : bA[k]? with
      | none => simp [hx] at h
      | some x =>
        cases hy : aB[k]? with
        | none => simp [hx, hy] at h
        | some y =>
          cases hz : C[k]? with
          | none => simp [hx, hy, hz] at h
          | some z =>
            simp only [hx, hy, hz] at h
            by_cases hp : k < pub
            · simp only [hp, if_true] at h
              by_cases hl : k < VKK.length
              · simp only [hl, if_true, Except.ok.injEq] at h
                subst h
                refine ⟨by simpa using i1, i2, ?_⟩
                intro i hi
                by_cases hik : i = k
                · subst hik
                  refine ⟨x, y, z, hx, hy, hz, ?_, ?_⟩
                  · intro _
                    simp [hl]
                  · intro hle
                    omega
                · obtain ⟨x', y', z', hx', hy', hz', a1, a2⟩ := i3 i (by omega)
                  refine ⟨x', y', z', hx', hy', hz', ?_, a2⟩
                  intro hip
                  have hne : k ≠ i := fun e => hik e.symm
                  simpa [List.getElem?_set, hne] using a1 hip
              · simp [hl] at h
            · simp only [hp, if_false] at h
              by_cases hl : k - pub < L.length
              · simp only [hl, if_true, Except.ok.injEq] at h
                subst h
                refine ⟨i1, by simpa using i2, ?_⟩
                intro i hi
                by_cases hik : i = k
                · subst hik
                  refine ⟨x, y, z, hx, hy, hz, ?_, ?_⟩
                  · intro hlt
                    exact absurd hlt hp
                  · intro _
                    simp [hl]
                · obtain ⟨x', y', z', hx', hy', hz', a1, a2⟩ := i3 i (by omega)
                  refine ⟨x', y', z', hx', hy', hz', a1, ?_⟩
                  intro hip
                  have hne : k - pub ≠ i - pub := by omega
                  simpa [List.getElem?_set, hne] using a2 hip
              · simp [hl] at h

/-- The loop building `Z` keeps the length, sets `Z[i] = Tau[i+n] - Tau[i]` for
every index it went through and leaves the other entries. -/
theorem loopZ_spec (Tau : List G₁) (n k : Nat) (Z0 Z : List G₁)
    (h : NewPhase2.loopZ Tau n k Z0 = .ok Z) :
    Z.length = Z0.length ∧
    (∀ i, i < k → ∃ a b, Tau[i + n]? = some a ∧ Tau[i]? = some b ∧ Z[i]? = some (a - b)) ∧
    (∀ i, k ≤ i → Z[i]? = Z0[i]?) := by
  induction k generalizing Z with
  | zero =>
    simp only [NewPhase2.loopZ, Except.ok.injEq] at h
    subst h
    exact ⟨rfl, fun i hi => absurd hi (Nat.not_lt_zero i), fun _ _ => rfl⟩
  | succ k ih =>
    simp only [NewPhase2.loopZ, bind, Except.bind] at h
    cases hk : NewPhase2.loopZ Tau n k Z0 with
    | error err => simp [hk] at h
    | ok Z1 =>
      obtain ⟨i1, i2, i3⟩ := ih _ hk
      simp only [hk] at h
      cases ha : Tau[k + n]? with
      | none => simp [ha] at h
      | some a =>
        cases hb : Tau[k]? with
        | none => simp [ha, hb] at h
        | some b =>
          simp only [ha, hb] at h
          by_cases hl : k < Z1.length
          · simp only [hl, if_true, Except.ok.injEq] at h
            subst h
            refine ⟨by simpa using i1, ?_, ?_⟩
            · intro i hi
              by_cases hik : i = k
              · subst hik
                exact ⟨a, b, ha, hb, by simp [hl]⟩
              · obtain ⟨a', b', ha', hb', hz⟩ := i2 i (by omega)
                refine ⟨a', b', ha', hb', ?_⟩
                have hne : k ≠ i := fun e => hik e.symm
                simpa [List.getElem?_set, hne] using hz
            · intro i hi
              have hne : k ≠ i := by omega
              rw [← i3 i (by omega)]
              simp [List.getElem?_set, hne]
          · simp [hl] at h

/-! ### Bit reversal and the Lagrange preparation -/

theorem bitRev_lt (b i : Nat) : utils.bitRev b i < 2 ^ b := by
  induction b generalizing i with
  | zero => simp [utils.bitRev]
  | succ b ih =>
    have h1 := ih (i / 2)
    have h2 : i % 2 < 2 := Nat.mod_lt _ (by decide)
    have h3 : i % 2 * 2 ^ b ≤ 1 * 2 ^ b := Nat.mul_le_mul_right _ (by omega)
    simp only [utils.bitRev, pow_succ]
    omega

theorem bitRev_ones (b : Nat) : utils.bitRev b (2 ^ b - 1) = 2 ^ b - 1 := by
  induction b with
  | zero => simp [utils.bitRev]
  | succ b ih =>
    have hp : 0 < 2 ^ b := Nat.two_pow_pos b
    have h1 : (2 ^ (b + 1) - 1) % 2 = 1 := by
      rw [pow_succ]
      omega
    have h2 : (2 ^ (b + 1) - 1) / 2 = 2 ^ b - 1 := by
      rw [pow_succ]
      omega
    show (2 ^ (b + 1) - 1) % 2 * 2 ^ b + utils.bitRev b ((2 ^ (b + 1) - 1) / 2)
      = 2 ^ (b + 1) - 1
    rw [h1, h2, ih, pow_succ]
    omega

/-- Bit reversal, peeling the most significant bit instead of the least one. -/
theorem bitRev_top (b i : Nat) :
    utils.bitRev (b + 1) i = utils.bitRev b (i % 2 ^ b) * 2 + i / 2 ^ b % 2 := by
  induction b generalizing i with
  | zero => simp [utils.bitRev, Nat.mod_one]
  | succ b ih =>
    have e1 : utils.bitRev (b + 2) i = (i % 2) * 2 ^ (b + 1) + utils.bitRev (b + 1) (i / 2) := rfl
    have e2 : utils.bitRev (b + 1) (i % 2 ^ (b + 1)) =
        (i % 2 ^ (b + 1) % 2) * 2 ^ b + utils.bitRev b (i % 2 ^ (b + 1) / 2) := rfl
    rw [e1, ih (i / 2), e2]
    have a1 : i % 2 ^ (b + 1) % 2 = i % 2 := by
      rw [pow_succ, Nat.mul_comm]
      exact Nat.mod_mul_right_mod i 2 (2 ^ b)
    have a2 : i % 2 ^ (b + 1) / 2 = i / 2 % 2 ^ b := by
      rw [pow_succ, Nat.mul_comm]
      exact Nat.mod_mul_right_div_self i 2 (2 ^ b)
    have a3 : i / 2 / 2 ^ b = i / 2 ^ (b + 1) := by
      rw [Nat.div_div_eq_div_mul, pow_succ, Nat.mul_comm]
    rw [a1, a2, a3, pow_succ]
    ring

/-- Bit reversal on `b` bits is an involution on the numbers below `2 ^ b`. -/
theorem bitRev_bitRev (b i : Nat) : utils.bitRev b (utils.bitRev b i) = i % 2 ^ b := by
  induction b generalizing i with
  | zero => simp [utils.bitRev, Nat.mod_one]
  | succ b ih =>
    have hlt := bitRev_lt b (i / 2)
    have h2 : i % 2 < 2 := Nat.mod_lt _ (by decide)
    have e1 : utils.bitRev (b + 1) i = (i % 2) * 2 ^ b + utils.bitRev b (i / 2) := rfl
    have m1 : ((i % 2) * 2 ^ b + utils.bitRev b (i / 2)) % 2 ^ b = utils.bitRev b (i / 2) := by
      rw [Nat.mul_add_mod_of_lt hlt]
    have m2 : ((i % 2) * 2 ^ b + utils.bitRev b (i / 2)) / 2 ^ b = i % 2 := by
      rw [Nat.add_comm, Nat.add_mul_div_right _ _ (Nat.two_pow_pos b),
        Nat.div_eq_of_lt hlt, Nat.zero_add]
    rw [bitRev_top, e1, m1, m2, ih (i / 2), Nat.mod_mod]
    have a : i % 2 ^ (b + 1) = 2 * (i / 2 % 2 ^ b) + i % 2 := by
      rw [pow_succ, Nat.mul_comm (2 ^ b) 2, Nat.mod_mul]
      omega
    omega

theorem isPowerOfTwo_spec (n : Nat) (h : utils.isPowerOfTwo n = true) :
    n ≠ 0 ∧ 2 ^ Nat.log2 n = n := by
  simpa [utils.isPowerOfTwo] using h

theorem LagrangeCoeffs_spec {G : Type} [AddCommGroup G] [Module F G] (ω : F) (P Q : List G)
    (n : Nat) (h : utils.LagrangeCoeffs ω P n = .ok Q) :
    utils.isPowerOfTwo n = true ∧ n ≤ P.length ∧ Q.length = n := by
  unfold utils.LagrangeCoeffs at h
  split at h
  · exact absurd h (by simp)
  · rename_i hp
    split at h
    · exact absurd h (by simp)
    · rename_i hl
      simp only [Except.ok.injEq] at h
      subst h
      refine ⟨by simpa using hp, by omega, by simp⟩

theorem BitReverseG1_getElem? (a : List G₁) (j : Nat) (hj : j < a.length) :
    (utils.BitReverseG1 a)[j]? = some (a.getD (utils.bitRev (Nat.log2 a.length) j) 0) := by
  simp [utils.BitReverseG1, List.getElem?_map, List.getElem?_range hj]

/-! ### Explicit panics -/

theorem NoPanic.ok {α : Type} (a : α) : NoPanic (.ok a : Except Failure α) := by
  intro msg h
  cases h

theorem NoPanic.outOfRange {α : Type} : NoPanic (.error .outOfRange : Except Failure α) := by
  intro msg h
  cases h

theorem NoPanic.lagrange {α : Type} : NoPanic (.error .lagrange : Except Failure α) := by
  intro msg h
  cases h

theorem NoPanic.bind {α β : Type} {x : Except Failure α} {f : α → Except Failure β}
    (hx : NoPanic x) (hf : ∀ a, NoPanic (f a)) : NoPanic (x >>= f) := by
  intro msg h
  cases x with
  | error err =>
    have e : (Except.error err >>= f) = Except.error err := rfl
    rw [e] at h
    simp only [Except.error.injEq] at h
    exact hx msg (by rw [h])
  | ok a => exact hf a msg h

theorem accumulateG1_noPanic (ids : constraint.CoeffIds) (r1cs : R1CS F) (res : G₁)
    (t : constraint.Term) (v : G₁) : NoPanic (NewPhase2.accumulateG1 ids r1cs res t v) := by
  unfold NewPhase2.accumulateG1
  simp only
  split_ifs
  · exact NoPanic.ok _
  · exact NoPanic.ok _
  · exact NoPanic.ok _
  · exact NoPanic.ok _
  · split
    · exact NoPanic.outOfRange
    · exact NoPanic.ok _

theorem accumulateG2_noPanic (ids : constraint.CoeffIds) (r1cs : R1CS F) (res : G₂)
    (t : constraint.Term) (v : G₂) : NoPanic (NewPhase2.accumulateG2 ids r1cs res t v) := by
  unfold NewPhase2.accumulateG2
  simp only
  split_ifs
  · exact NoPanic.ok _
  · exact NoPanic.ok _
  · exact NoPanic.ok _
  · exact NoPanic.ok _
  · split
    · exact NoPanic.outOfRange
    · exact NoPanic.ok _

theorem atWire_noPanic {G : Type} (acc : G → constraint.Term → G → Except Failure G)
    (hacc : ∀ res t v, NoPanic (acc res t v)) (arr : List G) (t : constraint.Term)
    (value : Option G) : NoPanic (NewPhase2.atWire acc arr t value) := by
  cases hres : arr[t.WireID]? with
  | none =>
    simp only [NewPhase2.atWire, hres]
    exact NoPanic.outOfRange
  | some res =>
    cases value with
    | none =>
      simp only [NewPhase2.atWire, hres]
      exact NoPanic.outOfRange
    | some v =>
      cases hr : acc res t v with
      | ok r =>
        simp only [NewPhase2.atWire, hres, hr]
        exact NoPanic.ok _
      | error err =>
        simp only [NewPhase2.atWire, hres, hr]
        intro msg h
        exact hacc res t v msg (by rw [hr]; simpa using h)

theorem loopL_noPanic (ids : constraint.CoeffIds) (r1cs : R1CS F) (tau1 btau1 : Option G₁)
    (ts : List constraint.Term) (st : NewPhase2.Acc G₁ G₂) :
    NoPanic (NewPhase2.loopL ids r1cs tau1 btau1 ts st) := by
  induction ts generalizing st with
  | nil => exact NoPanic.ok _
  | cons t ts ih =>
    unfold NewPhase2.loopL
    refine NoPanic.bind (atWire_noPanic _ (accumulateG1_noPanic ids r1cs) _ _ _) fun A => ?_
    exact NoPanic.bind (atWire_noPanic _ (accumulateG1_noPanic ids r1cs) _ _ _) fun bA => ih _

theorem loopR_noPanic (ids : constraint.CoeffIds) (r1cs : R1CS F) (tau1 : Option G₁)
    (tau2 : Option G₂) (atau1 : Option G₁)
    (ts : List constraint.Term) (st : NewPhase2.Acc G₁ G₂) :
    NoPanic (NewPhase2.loopR ids r1cs tau1 tau2 atau1 ts st) := by
  induction ts generalizing st with
  | nil => exact NoPanic.ok _
  | cons t ts ih =>
    unfold NewPhase2.loopR
    refine NoPanic.bind (atWire_noPanic _ (accumulateG1_noPanic ids r1cs) _ _ _) fun B => ?_
    refine NoPanic.bind (atWire_noPanic _ (accumulateG2_noPanic ids r1cs) _ _ _) fun B2 => ?_
    exact NoPanic.bind (atWire_noPanic _ (accumulateG1_noPanic ids r1cs) _ _ _) fun aB => ih _

theorem loopO_noPanic (ids : constraint.CoeffIds) (r1cs : R1CS F) (tau1 : Option G₁)
    (ts : List constraint.Term) (st : NewPhase2.Acc G₁ G₂) :
    NoPanic (NewPhase2.loopO ids r1cs tau1 ts st) := by
  induction ts generalizing st with
  | nil => exact NoPanic.ok _
  | cons t ts ih =>
    unfold NewPhase2.loopO
    exact NoPanic.bind (atWire_noPanic _ (accumulateG1_noPanic ids r1cs) _ _ _) fun C => ih _

theorem loopConstraints_noPanic (ids : constraint.CoeffIds) (r1cs : R1CS F)
    (tau1 : List G₁) (tau2 : List G₂) (atau1 btau1 : List G₁) (cs : List constraint.R1C)
    (i : Nat) (st : NewPhase2.Acc G₁ G₂) :
    NoPanic (NewPhase2.loopConstraints ids r1cs tau1 tau2 atau1 btau1 i cs st) := by
  induction cs generalizing i st with
  | nil => exact NoPanic.ok _
  | cons c cs ih =>
    unfold NewPhase2.loopConstraints
    refine NoPanic.bind (loopL_noPanic ids r1cs _ _ _ _) fun s1 => ?_
    refine NoPanic.bind (loopR_noPanic ids r1cs _ _ _ _ _) fun s2 => ?_
    exact NoPanic.bind (loopO_noPanic ids r1cs _ _ _) fun s3 => ih _ _

theorem loopZ_noPanic (Tau : List G₁) (n k : Nat) (Z0 : List G₁) :
    NoPanic (NewPhase2.loopZ Tau n k Z0) := by
  induction k with
  | zero => exact NoPanic.ok _
  | succ k ih =>
    unfold NewPhase2.loopZ
    refine NoPanic.bind ih fun Z => ?_
    split
    · split_ifs
      · exact NoPanic.ok _
      · exact NoPanic.outOfRange
    · exact NoPanic.outOfRange

theorem loopK_noPanic (pub : Nat) (bA aB C : List G₁) (k : Nat) (st0 : List G₁ × List G₁) :
    NoPanic (NewPhase2.loopK pub bA aB C k st0) := by
  induction k with
  | zero => exact NoPanic.ok _
  | succ k ih =>
    unfold NewPhase2.loopK
    refine NoPanic.bind ih fun p => ?_
    obtain ⟨VKK, L⟩ := p
    simp only
    split
    · split_ifs
      · exact NoPanic.ok _
      · exact NoPanic.outOfRange
      · exact NoPanic.ok _
      · exact NoPanic.outOfRange
    · exact NoPanic.outOfRange

theorem LagrangeCoeffs_noPanic {G : Type} [AddCommGroup G] [Module F G] (ω : F) (P : List G)
    (n : Nat) : NoPanic (utils.LagrangeCoeffs ω P n) := by
  unfold utils.LagrangeCoeffs
  split_ifs
  · exact NoPanic.lagrange
  · exact NoPanic.outOfRange
  · exact NoPanic.ok _

/-- Past its size check, `NewPhase2` does not end in an explicit panic. -/
theorem NewPhase2_noPanic (cv : Curve F G₁ G₂ Gₜ) (ids : constraint.CoeffIds) (s : F)
    (r1cs : R1CS F) (srs1 : Phase1 G₁ G₂)
    (hsz : r1cs.GetNbConstraints ≤ srs1.Parameters.G1.AlphaTau.length) :
    NoPanic (NewPhase2 cv ids s r1cs srs1) := by
  unfold NewPhase2
  simp only [R1CS.GetNbVariables, Nat.not_lt.mpr hsz, if_false]
  refine NoPanic.bind (LagrangeCoeffs_noPanic _ _ _) fun tau1 => ?_
  refine NoPanic.bind (LagrangeCoeffs_noPanic _ _ _) fun tau2 => ?_
  refine NoPanic.bind (LagrangeCoeffs_noPanic _ _ _) fun atau1 => ?_
  refine NoPanic.bind (LagrangeCoeffs_noPanic _ _ _) fun btau1 => ?_
  refine NoPanic.bind (loopConstraints_noPanic ids r1cs _ _ _ _ _ _ _) fun st => ?_
  refine NoPanic.bind (loopZ_noPanic _ _ _ _) fun Z => ?_
  split_ifs
  · exact NoPanic.outOfRange
  · refine NoPanic.bind (loopK_noPanic _ _ _ _ _ _) fun p => ?_
    exact NoPanic.ok _

/-- What a successful `NewPhase2` went through: the size check passed, the four
Lagrange preparations, the loop over the constraints, the loop building `Z` and
the loop over the wires all succeeded, and the outputs are assembled from their
results. -/
theorem NewPhase2_inv (cv : Curve F G₁ G₂ Gₜ) (ids : constraint.CoeffIds) (s : F)
    (r1cs : R1CS F) (srs1 : Phase1 G₁ G₂) (c2 : Phase2 G₁ G₂) (ev : Phase2Evaluations G₁ G₂)
    (h : NewPhase2 cv ids s r1cs srs1 = .ok (c2, ev)) :
    ∃ (tau1 : List G₁) (tau2 : List G₂) (atau1 btau1 : List G₁) (st : NewPhase2.Acc G₁ G₂)
      (Z1 VKK L : List G₁),
      r1cs.GetNbConstraints ≤ srs1.Parameters.G1.AlphaTau.length ∧
      utils.LagrangeCoeffsG1 cv srs1.Parameters.G1.Tau srs1.Parameters.G1.AlphaTau.length
        = .ok tau1 ∧
      utils.LagrangeCoeffsG2 cv srs1.Parameters.G2.Tau srs1.Parameters.G1.AlphaTau.length
        = .ok tau2 ∧
      utils.LagrangeCoeffsG1 cv srs1.Parameters.G1.AlphaTau srs1.Parameters.G1.AlphaTau.length
        = .ok atau1 ∧
      utils.LagrangeCoeffsG1 cv srs1.Parameters.G1.BetaTau srs1.Parameters.G1.AlphaTau.length
        = .ok btau1 ∧
      NewPhase2.loopConstraints ids r1cs tau1 tau2 atau1 btau1 0 r1cs.Constraints
        { A := List.replicate
            (r1cs.NbInternalVariables + r1cs.NbSecretVariables + r1cs.NbPublicVariables) 0,
          B := List.replicate
            (r1cs.NbInternalVariables + r1cs.NbSecretVariables + r1cs.NbPublicVariables) 0,
          B2 := List.replicate
            (r1cs.NbInternalVariables + r1cs.NbSecretVariables + r1cs.NbPublicVariables) 0,
          bA := List.replicate
            (r1cs.NbInternalVariables + r1cs.NbSecretVariables + r1cs.NbPublicVariables) 0,
          aB := List.replicate
            (r1cs.NbInternalVariables + r1cs.NbSecretVariables + r1cs.NbPublicVariables) 0,
          C := List.replicate
            (r1cs.NbInternalVariables + r1cs.NbSecretVariables + r1cs.NbPublicVariables) 0 }
        = .ok st ∧
      NewPhase2.loopZ srs1.Parameters.G1.Tau srs1.Parameters.G1.AlphaTau.length
        (srs1.Parameters.G1.AlphaTau.length - 1)
        (List.replicate srs1.Parameters.G1.AlphaTau.length 0) = .ok Z1 ∧
      srs1.Parameters.G1.AlphaTau.length ≠ 0 ∧
      NewPhase2.loopK r1cs.NbPublicVariables st.bA st.aB st.C
        (r1cs.NbInternalVariables + r1cs.NbSecretVariables + r1cs.NbPublicVariables)
        (List.replicate r1cs.NbPublicVariables 0,
          List.replicate (r1cs.NbInternalVariables + r1cs.NbSecretVariables) 0)
        = .ok (VKK, L) ∧
      c2.Parameters.G1.Delta = cv.g1 ∧ c2.Parameters.G2.Delta = cv.g2 ∧
      c2.Parameters.G1.L = L ∧
      c2.Parameters.G1.Z =
        (utils.BitReverseG1 Z1).take (srs1.Parameters.G1.AlphaTau.length - 1) ∧
      c2.PublicKey = utils.GenPublicKey cv s 1 [] 1 ∧
      c2.Hash = c2.hash cv ∧
      ev.G1.A = st.A ∧ ev.G1.B = st.B ∧ ev.G2.B = st.B2 ∧ ev.G1.VKK = VKK := by
  unfold NewPhase2 at h
  simp only [R1CS.GetNbVariables] at h
  split at h
  · exact absurd h (by simp)
  · rename_i hsz
    cases h1 : utils.LagrangeCoeffsG1 cv srs1.Parameters.G1.Tau
        srs1.Parameters.G1.AlphaTau.length with
    | error err => simp [h1, bind, Except.bind] at h
    | ok tau1 =>
    cases h2 : utils.LagrangeCoeffsG2 cv srs1.Parameters.G2.Tau
        srs1.Parameters.G1.AlphaTau.length with
    | error err => simp [h1, h2, bind, Except.bind] at h
    | ok tau2 =>
    cases h3 : utils.LagrangeCoeffsG1 cv srs1.Parameters.G1.AlphaTau
        srs1.Parameters.G1.AlphaTau.length with
    | error err => simp [h1, h2, h3, bind, Except.bind] at h
    | ok atau1 =>
    cases h4 : utils.LagrangeCoeffsG1 cv srs1.Parameters.G1.BetaTau
        srs1.Parameters.G1.AlphaTau.length with
    | error err => simp [h1, h2, h3, h4, bind, Except.bind] at h
    | ok btau1 =>
    simp only [h1, h2, h3, h4, bind, Except.bind] at h
    split at h
    · exact absurd h (by simp)
    · rename_i st h5
      split at h
      · exact absurd h (by simp)
      · rename_i Z1 h6
        split at h
        · exact absurd h (by simp)
        · rename_i hn
          split at h
          · exact absurd h (by simp)
          · rename_i VL h7
            simp only [pure, Except.pure, Except.ok.injEq, Prod.mk.injEq] at h
            obtain ⟨hc, he⟩ := h
            subst hc he
            exact ⟨tau1, tau2, atau1, btau1, st, Z1, VL.1, VL.2, Nat.le_of_not_lt hsz,
              rfl, rfl, rfl, rfl, h5, h6, hn, h7, rfl, rfl, rfl, rfl, rfl, rfl, rfl, rfl, rfl, rfl⟩

/-- A run of contributions multiplies both `Delta` by the product `D` of the
sampled scalars and every entry of `L` and `Z` by `D⁻¹`. -/
theorem contributeChain_spec (cv : Curve F G₁ G₂ Gₜ) (ds : List (F × F)) (c0 : Phase2 G₁ G₂) :
    (contributeChain cv ds c0).Parameters.G1.Delta
      = (ds.map Prod.fst).prod • c0.Parameters.G1.Delta ∧
    (contributeChain cv ds c0).Parameters.G2.Delta
      = (ds.map Prod.fst).prod • c0.Parameters.G2.Delta ∧
    (∀ j : Nat, (contributeChain cv ds c0).Parameters.G1.L[j]? =
      (c0.Parameters.G1.L[j]?).map fun l => ((ds.map Prod.fst).prod)⁻¹ • l) ∧
    (∀ m : Nat, (contributeChain cv ds c0).Parameters.G1.Z[m]? =
      (c0.Parameters.G1.Z[m]?).map fun z => ((ds.map Prod.fst).prod)⁻¹ • z) := by
  induction ds generalizing c0 with
  | nil => simp [contributeChain]
  | cons d ds ih =>
    obtain ⟨i1, i2, i3, i4⟩ := ih (c0.Contribute cv d.1 d.2)
    have e : contributeChain cv (d :: ds) c0
        = contributeChain cv ds (c0.Contribute cv d.1 d.2) := rfl
    rw [e]
    refine ⟨?_, ?_, ?_, ?_⟩
    · rw [i1]
      simp [Phase2.Contribute, smul_smul, mul_comm]
    · rw [i2]
      simp [Phase2.Contribute, smul_smul, mul_comm]
    · intro j
      rw [i3]
      simp [Phase2.Contribute, List.getElem?_map, Option.map_map, Function.comp_def,
        smul_smul, mul_inv, mul_comm]
    · intro m
      rw [i4]
      simp [Phase2.Contribute, List.getElem?_map, Option.map_map, Function.comp_def,
        smul_smul, mul_inv, mul_comm]

/-- The run of `NewPhase2` on the concrete instance. -/
theorem toy_NewPhase2 :
    NewPhase2 toyCurve toyIds 1 toyR1CS toyPhase1 = .ok (toyC0, toyEv) := by
  simp [NewPhase2, R1CS.GetNbConstraints, R1CS.GetNbVariables, toyR1CS, toyPhase1,
    utils.LagrangeCoeffsG1, utils.LagrangeCoeffsG2, utils.LagrangeCoeffs, utils.isPowerOfTwo,
    Nat.log2, bind, Except.bind, NewPhase2.loopConstraints, NewPhase2.loopL, NewPhase2.loopR,
    NewPhase2.loopO, NewPhase2.atWire, NewPhase2.accumulateG1, NewPhase2.accumulateG2, toyIds,
    List.range, List.range.loop, utils.linComb, toyCurve, NewPhase2.loopZ, NewPhase2.loopK,
    utils.BitReverseG1, utils.bitRev, pure, Except.pure, List.replicate, toyC0, toyEv,
    utils.GenPublicKey, utils.GenR, Phase2.hash, Phase2.writeTo, encodeSlice, encodeUint32]
  norm_num

/-! ## Contribution and verification -/

/-- C1 (as amended).  With `SameRatio`, `GenR` and `GenPublicKey` as the
specification defines them, `verifyPhase2 prev next` and `VerifyPhase2 prev next`
return success for the state `next` left by one `Contribute` on `prev` whenever
the sampled `delta` and the nonce `s` are non-zero and every point handed to
`SameRatio` is not the identity (the two `Delta` of `prev`, the point `R`, and
the two combinations of `prev.L` and `prev.Z` built by `Merge`). -/
theorem verifyPhase2_Contribute (cv : Curve F G₁ G₂ Gₜ)
    (rnd : Nat → (Nat → F) × (Nat → F)) (prev : Phase2 G₁ G₂) (delta s : F)
    (hδ : delta ≠ 0) (hs : s ≠ 0)
    (h1 : prev.Parameters.G1.Delta ≠ 0) (h2 : prev.Parameters.G2.Delta ≠ 0)
    (hR : utils.GenR cv (s • cv.g1) ((s * delta) • cv.g1) prev.Hash 1 ≠ 0)
    (hL : (utils.Merge (rnd 0).1 prev.Parameters.G1.L prev.Parameters.G1.L).2 ≠ 0)
    (hZ : (utils.Merge (rnd 0).2 prev.Parameters.G1.Z prev.Parameters.G1.Z).2 ≠ 0) :
    verifyPhase2 cv (rnd 0).1 (rnd 0).2 prev (prev.Contribute cv delta s) = .ok () ∧
    VerifyPhase2 cv rnd prev (prev.Contribute cv delta s) [] = .ok () := by
  have hd : delta ≠ 0 := hδ
  have hg := cv.g1_ne_zero
  have key : verifyPhase2 cv (rnd 0).1 (rnd 0).2 prev (prev.Contribute cv delta s) = .ok () := by
    simp only [utils.Merge] at hL hZ
    have c1 : utils.SameRatio cv (s • cv.g1) ((s * delta) • cv.g1)
        (delta • utils.GenR cv (s • cv.g1) ((s * delta) • cv.g1) prev.Hash 1)
        (utils.GenR cv (s • cv.g1) ((s * delta) • cv.g1) prev.Hash 1) = true := by
      apply SameRatio_eq_true
      · simp [hs, hg]
      · simp [hs, hd, hg]
      · simp [hd, hR]
      · exact hR
      · simp only [cv.e_smul_left, cv.e_smul_right, smul_smul]
    have c2 : utils.SameRatio cv (delta • prev.Parameters.G1.Delta) prev.Parameters.G1.Delta
        (utils.GenR cv (s • cv.g1) ((s * delta) • cv.g1) prev.Hash 1)
        (delta • utils.GenR cv (s • cv.g1) ((s * delta) • cv.g1) prev.Hash 1) = true := by
      apply SameRatio_eq_true
      · simp [hd, h1]
      · exact h1
      · exact hR
      · simp [hd, hR]
      · simp only [cv.e_smul_left, cv.e_smul_right]
    have c3 : utils.SameRatio cv (s • cv.g1) ((s * delta) • cv.g1)
        (delta • prev.Parameters.G2.Delta) prev.Parameters.G2.Delta = true := by
      apply SameRatio_eq_true
      · simp [hs, hg]
      · simp [hs, hd, hg]
      · simp [hd, h2]
      · exact h2
      · simp only [cv.e_smul_left, cv.e_smul_right, smul_smul]
    have c4 : ∀ (r : Nat → F) (X : List G₁), utils.linComb r 0 X ≠ 0 →
        utils.SameRatio cv (utils.linComb r 0 (X.map fun l => delta⁻¹ • l))
          (utils.linComb r 0 X) (delta • prev.Parameters.G2.Delta)
          prev.Parameters.G2.Delta = true := by
      intro r X hX
      rw [linComb_map_smul]
      apply SameRatio_eq_true
      · simp [hd, hX]
      · exact hX
      · simp [hd, h2]
      · exact h2
      · rw [cv.e_smul_left, cv.e_smul_right, smul_smul, inv_mul_cancel₀ hd, one_smul]
    simp only [verifyPhase2, Phase2.Contribute, utils.GenPublicKey, utils.Merge, c1, c2, c3,
      c4 _ _ hL, c4 _ _ hZ, Bool.not_true, Bool.false_eq_true, if_false]
    exact checkHash_self _
  refine ⟨key, ?_⟩
  simp only [VerifyPhase2, VerifyPhase2.loop, key]

/-- Witness for `verifyPhase2_Contribute`: `delta = 2`, `s = 1` on `toyPrev`. -/
theorem verifyPhase2_Contribute_witness :
    verifyPhase2 toyCurve (fun _ => 1) (fun _ => 1) toyPrev (toyPrev.Contribute toyCurve 2 1)
      = .ok () ∧
    VerifyPhase2 toyCurve (fun _ => (fun _ => 1, fun _ => 1)) toyPrev
      (toyPrev.Contribute toyCurve 2 1) [] = .ok () :=
  verifyPhase2_Contribute toyCurve (fun _ => (fun _ => 1, fun _ => 1)) toyPrev 2 1
    (by norm_num) (by norm_num)
    (by simp [toyPrev, toyState0]) (by simp [toyPrev, toyState0])
    (by simp [utils.GenR, toyCurve])
    (by simp [utils.Merge, utils.linComb, toyPrev, toyState0]; norm_num)
    (by simp [utils.Merge, utils.linComb, toyPrev, toyState0])

/-- C1, counterexample.  On states whose `Hash` is their own transcript hash, a
contribution made by `Contribute` is rejected: with the sampled `delta = 0` and
`s = 1`, `SXG` and `XR` are the identity and the knowledge check fails; with
`delta = 1` and `s = 0`, `SG` is the identity and the knowledge check fails; with
`delta = 1`, `s = 1` and an empty `L`, the combination of `L` is the identity and
the check of `L` fails. -/
theorem verifyPhase2_Contribute_counterexample :
    toyPrev.Hash = toyPrev.hash toyCurve ∧
    verifyPhase2 toyCurve (fun _ => 1) (fun _ => 1) toyPrev (toyPrev.Contribute toyCurve 0 1)
      = .error (.error "couldn't verify knowledge of δ") ∧
    verifyPhase2 toyCurve (fun _ => 1) (fun _ => 1) toyPrev (toyPrev.Contribute toyCurve 1 0)
      = .error (.error "couldn't verify knowledge of δ") ∧
    toyNoL.Hash = toyNoL.hash toyCurve ∧
    verifyPhase2 toyCurve (fun _ => 1) (fun _ => 1) toyNoL (toyNoL.Contribute toyCurve 1 1)
      = .error (.error "couldn't verify valid updates of L using δ⁻¹") := by
  refine ⟨rfl, ?_, ?_, rfl, ?_⟩
  · simp [verifyPhase2, Phase2.Contribute, utils.GenPublicKey, utils.SameRatio, utils.GenR,
      toyCurve, toyPrev, toyState0]
  · simp [verifyPhase2, Phase2.Contribute, utils.GenPublicKey, utils.SameRatio, utils.GenR,
      toyCurve, toyPrev, toyState0]
  · simp [verifyPhase2, Phase2.Contribute, utils.GenPublicKey, utils.SameRatio, utils.GenR,
      utils.Merge, utils.linComb, toyCurve, toyNoL]

/-- C2.  One `Contribute` with the sampled `delta` multiplies `Delta` by `delta`
in G1 and in G2, multiplies every entry of `Z` and of `L` by `delta⁻¹` (the
lengths are unchanged, and the entry at every index `j` is the scaled old
entry), and sets `PublicKey` to `GenPublicKey(delta, c.Hash, 1)` for the hash
held before the update. -/
theorem Contribute_update (cv : Curve F G₁ G₂ Gₜ) (delta s : F) (c : Phase2 G₁ G₂) :
    (c.Contribute cv delta s).Parameters.G1.Delta = delta • c.Parameters.G1.Delta ∧
    (c.Contribute cv delta s).Parameters.G2.Delta = delta • c.Parameters.G2.Delta ∧
    (c.Contribute cv delta s).Parameters.G1.Z.length = c.Parameters.G1.Z.length ∧
    (c.Contribute cv delta s).Parameters.G1.L.length = c.Parameters.G1.L.length ∧
    (∀ j : Nat, (c.Contribute cv delta s).Parameters.G1.Z[j]? =
      (c.Parameters.G1.Z[j]?).map fun z => delta⁻¹ • z) ∧
    (∀ j : Nat, (c.Contribute cv delta s).Parameters.G1.L[j]? =
      (c.Parameters.G1.L[j]?).map fun l => delta⁻¹ • l) ∧
    (c.Contribute cv delta s).PublicKey = utils.GenPublicKey cv s delta c.Hash 1 := by
  refine ⟨rfl, rfl, ?_, ?_, ?_, ?_, rfl⟩
  · simp [Phase2.Contribute]
  · simp [Phase2.Contribute]
  · intro j
    simp [Phase2.Contribute, List.getElem?_map]
  · intro j
    simp [Phase2.Contribute, List.getElem?_map]

/-- C4 (as amended).  `Contribute` applies the sampled `delta` as it is; when
`delta` is non-zero, `delta * delta⁻¹ = 1` and a `Delta` in G1 or G2 that is not
the identity is not mapped to the identity. -/
theorem Contribute_delta_ne_zero (cv : Curve F G₁ G₂ Gₜ) (delta s : F) (c : Phase2 G₁ G₂)
    (hδ : delta ≠ 0) :
    delta * delta⁻¹ = 1 ∧
    (c.Parameters.G1.Delta ≠ 0 → (c.Contribute cv delta s).Parameters.G1.Delta ≠ 0) ∧
    (c.Parameters.G2.Delta ≠ 0 → (c.Contribute cv delta s).Parameters.G2.Delta ≠ 0) := by
  refine ⟨mul_inv_cancel₀ hδ, ?_, ?_⟩
  · intro h
    simp [Phase2.Contribute, hδ, h]
  · intro h
    simp [Phase2.Contribute, hδ, h]

/-- Witness for `Contribute_delta_ne_zero`: `delta = 2` on `toyPrev`. -/
theorem Contribute_delta_ne_zero_witness :
    (2 : ℚ) ≠ 0 ∧ (2 : ℚ) * 2⁻¹ = 1 ∧
    (toyPrev.Parameters.G1.Delta ≠ 0 →
      (toyPrev.Contribute toyCurve 2 1).Parameters.G1.Delta ≠ 0) ∧
    (toyPrev.Parameters.G2.Delta ≠ 0 →
      (toyPrev.Contribute toyCurve 2 1).Parameters.G2.Delta ≠ 0) :=
  ⟨by norm_num, Contribute_delta_ne_zero toyCurve 2 1 toyPrev (by norm_num)⟩

/-- C4, counterexample.  The outcome `delta = 0` of the randomness source is
applied: `delta * delta⁻¹` is `0` and both `Delta` of `toyPrev`, which are not
the identity, are mapped to the identity. -/
theorem Contribute_delta_zero_counterexample :
    (0 : ℚ) * 0⁻¹ ≠ 1 ∧
    toyPrev.Parameters.G1.Delta ≠ 0 ∧ toyPrev.Parameters.G2.Delta ≠ 0 ∧
    (toyPrev.Contribute toyCurve 0 1).Parameters.G1.Delta = 0 ∧
    (toyPrev.Contribute toyCurve 0 1).Parameters.G2.Delta = 0 := by
  simp [Phase2.Contribute, toyPrev, toyState0]

/-- C5 (as amended).  For a contribution whose `delta` is non-zero, at every
index `j` of `L` and `m` of `Z` the pairing of the entry with `Delta₂` is the
same before and after `Contribute`. -/
theorem Contribute_pairing_invariant (cv : Curve F G₁ G₂ Gₜ) (delta s : F) (c : Phase2 G₁ G₂)
    (hδ : delta ≠ 0) :
    (∀ j : Nat, ((c.Contribute cv delta s).Parameters.G1.L[j]?).map
        (fun l => cv.e l (c.Contribute cv delta s).Parameters.G2.Delta) =
      (c.Parameters.G1.L[j]?).map (fun l => cv.e l c.Parameters.G2.Delta)) ∧
    (∀ m : Nat, ((c.Contribute cv delta s).Parameters.G1.Z[m]?).map
        (fun z => cv.e z (c.Contribute cv delta s).Parameters.G2.Delta) =
      (c.Parameters.G1.Z[m]?).map (fun z => cv.e z c.Parameters.G2.Delta)) := by
  have key : ∀ x : G₁, cv.e (delta⁻¹ • x) (delta • c.Parameters.G2.Delta) =
      cv.e x c.Parameters.G2.Delta := by
    intro x
    rw [cv.e_smul_left, cv.e_smul_right, smul_smul, inv_mul_cancel₀ hδ, one_smul]
  constructor
  · intro j
    simp only [Phase2.Contribute, List.getElem?_map, Option.map_map]
    congr 1
    funext x
    exact key x
  · intro m
    simp only [Phase2.Contribute, List.getElem?_map, Option.map_map]
    congr 1
    funext x
    exact key x

/-- Witness for `Contribute_pairing_invariant`: `delta = 2` on `toyPrev`. -/
theorem Contribute_pairing_invariant_witness :
    (2 : ℚ) ≠ 0 ∧
    (∀ j : Nat, ((toyPrev.Contribute toyCurve 2 1).Parameters.G1.L[j]?).map
        (fun l => toyCurve.e l (toyPrev.Contribute toyCurve 2 1).Parameters.G2.Delta) =
      (toyPrev.Parameters.G1.L[j]?).map (fun l => toyCurve.e l toyPrev.Parameters.G2.Delta)) ∧
    (∀ m : Nat, ((toyPrev.Contribute toyCurve 2 1).Parameters.G1.Z[m]?).map
        (fun z => toyCurve.e z (toyPrev.Contribute toyCurve 2 1).Parameters.G2.Delta) =
      (toyPrev.Parameters.G1.Z[m]?).map (fun z => toyCurve.e z toyPrev.Parameters.G2.Delta)) :=
  ⟨by norm_num, Contribute_pairing_invariant toyCurve 2 1 toyPrev (by norm_num)⟩

/-- C5, counterexample.  With the outcome `delta = 0`, `L[0]`, `Z[0]` and `Delta₂`
of `toyPrev` (`1`, `3` and `1`) all become the identity, and the pairings
`e(L[0], Delta₂)` and `e(Z[0], Delta₂)` change. -/
theorem Contribute_pairing_counterexample :
    toyPrev.Parameters.G1.L[0]? = some 1 ∧ toyPrev.Parameters.G1.Z[0]? = some 3 ∧
    toyPrev.Parameters.G2.Delta = 1 ∧
    (toyPrev.Contribute toyCurve 0 1).Parameters.G1.L[0]? = some 0 ∧
    (toyPrev.Contribute toyCurve 0 1).Parameters.G1.Z[0]? = some 0 ∧
    (toyPrev.Contribute toyCurve 0 1).Parameters.G2.Delta = 0 ∧
    toyCurve.e 0 0 ≠ toyCurve.e 1 1 ∧ toyCurve.e 0 0 ≠ toyCurve.e 3 1 := by
  simp [Phase2.Contribute, toyPrev, toyState0, toyCurve]

/-- C3.  Chain invariant: after a successful `NewPhase2` followed by `k`
sequential `Contribute` with the sampled scalars `delta_1..delta_k` of product
`D` (`D = 1` for `k = 0`), `Delta₁ = D · g₁`, `Delta₂ = D · g₂`, and every entry
of `L` and of `Z` is `D⁻¹` times the entry returned by `NewPhase2`; with no
contribution `Delta₁ = g₁` and `Delta₂ = g₂`. -/
theorem NewPhase2_chain (cv : Curve F G₁ G₂ Gₜ) (ids : constraint.CoeffIds) (s : F)
    (r1cs : R1CS F) (srs1 : Phase1 G₁ G₂) (c0 : Phase2 G₁ G₂) (ev : Phase2Evaluations G₁ G₂)
    (h : NewPhase2 cv ids s r1cs srs1 = .ok (c0, ev)) (ds : List (F × F)) :
    (contributeChain cv ds c0).Parameters.G1.Delta = (ds.map Prod.fst).prod • cv.g1 ∧
    (contributeChain cv ds c0).Parameters.G2.Delta = (ds.map Prod.fst).prod • cv.g2 ∧
    (contributeChain cv ds c0).Parameters.G1.L.length = c0.Parameters.G1.L.length ∧
    (contributeChain cv ds c0).Parameters.G1.Z.length = c0.Parameters.G1.Z.length ∧
    (∀ j : Nat, (contributeChain cv ds c0).Parameters.G1.L[j]? =
      (c0.Parameters.G1.L[j]?).map fun l => ((ds.map Prod.fst).prod)⁻¹ • l) ∧
    (∀ m : Nat, (contributeChain cv ds c0).Parameters.G1.Z[m]? =
      (c0.Parameters.G1.Z[m]?).map fun z => ((ds.map Prod.fst).prod)⁻¹ • z) ∧
    (contributeChain cv [] c0).Parameters.G1.Delta = cv.g1 ∧
    (contributeChain cv [] c0).Parameters.G2.Delta = cv.g2 := by
  obtain ⟨_, _, _, _, _, _, _, _, _, _, _, _, _, _, _, _, _, hd1, hd2, _⟩ :=
    NewPhase2_inv cv ids s r1cs srs1 c0 ev h
  obtain ⟨i1, i2, i3, i4⟩ := contributeChain_spec cv ds c0
  refine ⟨by rw [i1, hd1], by rw [i2, hd2], ?_, ?_, i3, i4, hd1, hd2⟩
  · exact length_eq_of_getElem?_map (fun _ l => ((ds.map Prod.fst).prod)⁻¹ • l) _ _ i3
  · exact length_eq_of_getElem?_map (fun _ z => ((ds.map Prod.fst).prod)⁻¹ • z) _ _ i4

/-- Witness for `NewPhase2_chain`: the concrete instance followed by the two
contributions `delta = 2` and `delta = 3`. -/
theorem NewPhase2_chain_witness :
    NewPhase2 toyCurve toyIds 1 toyR1CS toyPhase1 = .ok (toyC0, toyEv) ∧
    (contributeChain toyCurve [(2, 1), (3, 1)] toyC0).Parameters.G1.Delta
      = ([((2 : ℚ), (1 : ℚ)), (3, 1)].map Prod.fst).prod • toyCurve.g1 :=
  ⟨toy_NewPhase2,
    (NewPhase2_chain toyCurve toyIds 1 toyR1CS toyPhase1 toyC0 toyEv toy_NewPhase2
      [(2, 1), (3, 1)]).1⟩

/-! ## Initialisation -/

/-- C6.  Shape of the output of `NewPhase2`: with `n = len(G1.AlphaTau)` and the
variable counts `(n_internal, n_secret, n_public)` of the R1CS, the result has
`len(Z) = n - 1`, `len(L) = n_internal + n_secret`, `len(VKK) = n_public`, and
`G1.A`, `G1.B`, `G2.B` all have `n_internal + n_secret + n_public` entries. -/
theorem NewPhase2_shape (cv : Curve F G₁ G₂ Gₜ) (ids : constraint.CoeffIds) (s : F)
    (r1cs : R1CS F) (srs1 : Phase1 G₁ G₂) (c2 : Phase2 G₁ G₂) (ev : Phase2Evaluations G₁ G₂)
    (h : NewPhase2 cv ids s r1cs srs1 = .ok (c2, ev)) :
    c2.Parameters.G1.Z.length = srs1.Parameters.G1.AlphaTau.length - 1 ∧
    c2.Parameters.G1.L.length = r1cs.GetNbVariables.1 + r1cs.GetNbVariables.2.1 ∧
    ev.G1.VKK.length = r1cs.GetNbVariables.2.2 ∧
    ev.G1.A.length =
      r1cs.GetNbVariables.1 + r1cs.GetNbVariables.2.1 + r1cs.GetNbVariables.2.2 ∧
    ev.G1.B.length =
      r1cs.GetNbVariables.1 + r1cs.GetNbVariables.2.1 + r1cs.GetNbVariables.2.2 ∧
    ev.G2.B.length =
      r1cs.GetNbVariables.1 + r1cs.GetNbVariables.2.1 + r1cs.GetNbVariables.2.2 := by
  obtain ⟨tau1, tau2, atau1, btau1, st, Z1, VKK, L, hle, hT1, hT2, hT3, hT4, hLoop, hZ, hn, hK,
    hd1, hd2, hL, hZeq, hPK, hHash, hA, hB, hB2, hVKK⟩ := NewPhase2_inv cv ids s r1cs srs1 c2 ev h
  obtain ⟨z1, _, _⟩ := loopZ_spec _ _ _ _ _ hZ
  obtain ⟨k1, k2, _⟩ := loopK_spec _ _ _ _ _ _ _ hK
  obtain ⟨a1, a2, a3, _, _, _⟩ := loopConstraints_spec ids r1cs _ _ _ _ _ _ _ _ hLoop
  simp only [R1CS.GetNbVariables]
  refine ⟨?_, ?_, ?_, ?_, ?_, ?_⟩
  · rw [hZeq, List.length_take, utils.BitReverseG1]
    simp only [List.length_map, List.length_range, z1, List.length_replicate]
    omega
  · rw [hL, k2, List.length_replicate]
  · rw [hVKK, k1, List.length_replicate]
  · rw [hA, a1.length_eq, List.length_replicate]
  · rw [hB, a2.length_eq, List.length_replicate]
  · rw [hB2, a3.length_eq, List.length_replicate]

/-- Witness for `NewPhase2_shape`: the concrete instance (`n = 2`, one internal,
one secret and one public variable). -/
theorem NewPhase2_shape_witness :
    NewPhase2 toyCurve toyIds 1 toyR1CS toyPhase1 = .ok (toyC0, toyEv) ∧
    toyC0.Parameters.G1.Z.length = toyPhase1.Parameters.G1.AlphaTau.length - 1 ∧
    toyC0.Parameters.G1.L.length = toyR1CS.GetNbVariables.1 + toyR1CS.GetNbVariables.2.1 ∧
    toyEv.G1.VKK.length = toyR1CS.GetNbVariables.2.2 :=
  ⟨toy_NewPhase2,
    (NewPhase2_shape toyCurve toyIds 1 toyR1CS toyPhase1 toyC0 toyEv toy_NewPhase2).1,
    (NewPhase2_shape toyCurve toyIds 1 toyR1CS toyPhase1 toyC0 toyEv toy_NewPhase2).2.1,
    (NewPhase2_shape toyCurve toyIds 1 toyR1CS toyPhase1 toyC0 toyEv toy_NewPhase2).2.2.1⟩

/-- C7.  Construction of `Z` in `NewPhase2`, with `n = len(G1.AlphaTau)` (a power
of two when `NewPhase2` returns) and `rev` the bit reversal on `log2 n` bits:
`Z` has `n - 1` entries; for every `j < n - 1`, `rev j < n - 1` and
`Z[j] = Tau[rev j + n] - Tau[rev j]`; every difference `Tau[i+n] - Tau[i]`,
`i < n - 1`, is the entry `Z[rev i]`; and the slot `n - 1` of `Z_raw`, which the
loop never assigns, is fixed by the bit reversal and is the entry dropped by the
truncation to `n - 1` entries. -/
theorem NewPhase2_Z (cv : Curve F G₁ G₂ Gₜ) (ids : constraint.CoeffIds) (s : F)
    (r1cs : R1CS F) (srs1 : Phase1 G₁ G₂) (c2 : Phase2 G₁ G₂) (ev : Phase2Evaluations G₁ G₂)
    (h : NewPhase2 cv ids s r1cs srs1 = .ok (c2, ev)) :
    2 ^ Nat.log2 srs1.Parameters.G1.AlphaTau.length = srs1.Parameters.G1.AlphaTau.length ∧
    c2.Parameters.G1.Z.length = srs1.Parameters.G1.AlphaTau.length - 1 ∧
    (∀ j, j < srs1.Parameters.G1.AlphaTau.length - 1 →
      utils.bitRev (Nat.log2 srs1.Parameters.G1.AlphaTau.length) j
        < srs1.Parameters.G1.AlphaTau.length - 1 ∧
      ∃ a b,
        srs1.Parameters.G1.Tau[utils.bitRev (Nat.log2 srs1.Parameters.G1.AlphaTau.length) j
          + srs1.Parameters.G1.AlphaTau.length]? = some a ∧
        srs1.Parameters.G1.Tau[utils.bitRev (Nat.log2 srs1.Parameters.G1.AlphaTau.length) j]?
          = some b ∧
        c2.Parameters.G1.Z[j]? = some (a - b)) ∧
    (∀ i, i < srs1.Parameters.G1.AlphaTau.length - 1 →
      ∃ a b,
        srs1.Parameters.G1.Tau[i + srs1.Parameters.G1.AlphaTau.length]? = some a ∧
        srs1.Parameters.G1.Tau[i]? = some b ∧
        c2.Parameters.G1.Z[utils.bitRev (Nat.log2 srs1.Parameters.G1.AlphaTau.length) i]?
          = some (a - b)) ∧
    ∃ Zraw,
      NewPhase2.loopZ srs1.Parameters.G1.Tau srs1.Parameters.G1.AlphaTau.length
        (srs1.Parameters.G1.AlphaTau.length - 1)
        (List.replicate srs1.Parameters.G1.AlphaTau.length 0) = .ok Zraw ∧
      Zraw.length = srs1.Parameters.G1.AlphaTau.length ∧
      Zraw[srs1.Parameters.G1.AlphaTau.length - 1]? = some 0 ∧
      utils.bitRev (Nat.log2 srs1.Parameters.G1.AlphaTau.length)
        (srs1.Parameters.G1.AlphaTau.length - 1) = srs1.Parameters.G1.AlphaTau.length - 1 ∧
      (utils.BitReverseG1 Zraw)[srs1.Parameters.G1.AlphaTau.length - 1]?
        = Zraw[srs1.Parameters.G1.AlphaTau.length - 1]? ∧
      c2.Parameters.G1.Z
        = (utils.BitReverseG1 Zraw).take (srs1.Parameters.G1.AlphaTau.length - 1) := by
  obtain ⟨tau1, tau2, atau1, btau1, st, Z1, VKK, L, hle, hT1, hT2, hT3, hT4, hLoop, hZ, hn, hK,
    hd1, hd2, hL, hZeq, hPK, hHash, hA, hB, hB2, hVKK⟩ := NewPhase2_inv cv ids s r1cs srs1 c2 ev h
  obtain ⟨z1, z2, z3⟩ := loopZ_spec _ _ _ _ _ hZ
  obtain ⟨hpow, _, _⟩ := LagrangeCoeffs_spec _ _ _ _ hT1
  obtain ⟨_, hlog⟩ := isPowerOfTwo_spec _ hpow
  rw [List.length_replicate] at z1
  generalize srs1.Parameters.G1.AlphaTau.length = n at *
  have hones : utils.bitRev (Nat.log2 n) (n - 1) = n - 1 := by
    have := bitRev_ones (Nat.log2 n)
    rwa [hlog] at this
  have hrev_lt : ∀ j, utils.bitRev (Nat.log2 n) j < n := by
    intro j
    have := bitRev_lt (Nat.log2 n) j
    rwa [hlog] at this
  have hinv : ∀ j, j < n → utils.bitRev (Nat.log2 n) (utils.bitRev (Nat.log2 n) j) = j := by
    intro j hj
    have := bitRev_bitRev (Nat.log2 n) j
    rwa [hlog, Nat.mod_eq_of_lt hj] at this
  have hrev_lt' : ∀ j, j < n - 1 → utils.bitRev (Nat.log2 n) j < n - 1 := by
    intro j hj
    have h1 := hrev_lt j
    have h2 : utils.bitRev (Nat.log2 n) j ≠ n - 1 := by
      intro e
      have h3 := hinv j (by omega)
      rw [e, hones] at h3
      omega
    omega
  have hget : ∀ j, j < n - 1 →
      c2.Parameters.G1.Z[j]? = Z1[utils.bitRev (Nat.log2 n) j]? := by
    intro j hj
    have hj' : j < Z1.length := by omega
    have hr : utils.bitRev (Nat.log2 n) j < Z1.length := by
      rw [z1]
      exact hrev_lt j
    rw [hZeq, List.getElem?_take_of_lt hj, BitReverseG1_getElem? _ _ hj', z1,
      List.getD_eq_getElem?_getD, List.getElem?_eq_getElem hr]
    rfl
  refine ⟨hlog, ?_, ?_, ?_, Z1, hZ, z1, ?_, hones, ?_, hZeq⟩
  · rw [hZeq, List.length_take, utils.BitReverseG1]
    simp only [List.length_map, List.length_range, z1]
    omega
  · intro j hj
    refine ⟨hrev_lt' j hj, ?_⟩
    obtain ⟨a, b, ha, hb, hz⟩ := z2 _ (hrev_lt' j hj)
    exact ⟨a, b, ha, hb, by rw [hget j hj, hz]⟩
  · intro i hi
    obtain ⟨a, b, ha, hb, hz⟩ := z2 i hi
    refine ⟨a, b, ha, hb, ?_⟩
    rw [hget _ (hrev_lt' i hi), hinv i (by omega), hz]
  · rw [z3 (n - 1) (Nat.le_refl _), List.getElem?_replicate]
    simp
    omega
  · have hlt : n - 1 < Z1.length := by omega
    rw [BitReverseG1_getElem? _ _ hlt, z1, hones, List.getD_eq_getElem?_getD,
      List.getElem?_eq_getElem hlt]
    rfl

/-- Witness for `NewPhase2_Z`: the concrete instance, where `n = 2` and
`Z = [Tau[2] - Tau[0]]`. -/
theorem NewPhase2_Z_witness :
    NewPhase2 toyCurve toyIds 1 toyR1CS toyPhase1 = .ok (toyC0, toyEv) ∧
    toyC0.Parameters.G1.Z.length = toyPhase1.Parameters.G1.AlphaTau.length - 1 :=
  ⟨toy_NewPhase2,
    (NewPhase2_Z toyCurve toyIds 1 toyR1CS toyPhase1 toyC0 toyEv toy_NewPhase2).2.1⟩

/-- C8.  Per-wire evaluations of `NewPhase2`: with `tau1`, `tau2` the Lagrange
coefficient vectors of `G1.Tau` and `G2.Tau`, for every wire `w < n_wires`,
`G1.A[w]` is the sum over every constraint index `i` and every term `t` of the
`L` of that constraint with `wire(t) = w` of `coeff(t) · tau1[i]`, `G1.B[w]` is
the same sum over the terms of `R`, and `G2.B[w]` the same sum over the terms of
`R` with `tau2[i]`. -/
theorem NewPhase2_evaluations (cv : Curve F G₁ G₂ Gₜ) (ids : constraint.CoeffIds) (s : F)
    (r1cs : R1CS F) (srs1 : Phase1 G₁ G₂) (c2 : Phase2 G₁ G₂) (ev : Phase2Evaluations G₁ G₂)
    (h : NewPhase2 cv ids s r1cs srs1 = .ok (c2, ev)) :
    ∃ (tau1 : List G₁) (tau2 : List G₂),
      utils.LagrangeCoeffsG1 cv srs1.Parameters.G1.Tau srs1.Parameters.G1.AlphaTau.length
        = .ok tau1 ∧
      utils.LagrangeCoeffsG2 cv srs1.Parameters.G2.Tau srs1.Parameters.G1.AlphaTau.length
        = .ok tau2 ∧
      ∀ w, w < r1cs.GetNbVariables.1 + r1cs.GetNbVariables.2.1 + r1cs.GetNbVariables.2.2 →
        ev.G1.A[w]? =
          some (specWireSum ids r1cs (fun c => c.L) tau1 0 r1cs.Constraints w) ∧
        ev.G1.B[w]? =
          some (specWireSum ids r1cs (fun c => c.R) tau1 0 r1cs.Constraints w) ∧
        ev.G2.B[w]? =
          some (specWireSum ids r1cs (fun c => c.R) tau2 0 r1cs.Constraints w) := by
  obtain ⟨tau1, tau2, atau1, btau1, st, Z1, VKK, L, hle, hT1, hT2, hT3, hT4, hLoop, hZ, hn, hK,
    hd1, hd2, hL, hZeq, hPK, hHash, hA, hB, hB2, hVKK⟩ := NewPhase2_inv cv ids s r1cs srs1 c2 ev h
  obtain ⟨a1, a2, a3, _, _, _⟩ := loopConstraints_spec ids r1cs _ _ _ _ _ _ _ _ hLoop
  refine ⟨tau1, tau2, hT1, hT2, ?_⟩
  intro w hw
  simp only [R1CS.GetNbVariables] at hw
  rw [hA, hB, hB2]
  exact ⟨a1.replicate w hw, a2.replicate w hw, a3.replicate w hw⟩

/-- Witness for `NewPhase2_evaluations`: the concrete instance. -/
theorem NewPhase2_evaluations_witness :
    NewPhase2 toyCurve toyIds 1 toyR1CS toyPhase1 = .ok (toyC0, toyEv) ∧
    ∃ (tau1 : List ℚ) (tau2 : List ℚ),
      utils.LagrangeCoeffsG1 toyCurve toyPhase1.Parameters.G1.Tau
        toyPhase1.Parameters.G1.AlphaTau.length = .ok tau1 ∧
      utils.LagrangeCoeffsG2 toyCurve toyPhase1.Parameters.G2.Tau
        toyPhase1.Parameters.G1.AlphaTau.length = .ok tau2 ∧
      ∀ w, w < toyR1CS.GetNbVariables.1 + toyR1CS.GetNbVariables.2.1
          + toyR1CS.GetNbVariables.2.2 →
        toyEv.G1.A[w]? =
          some (specWireSum toyIds toyR1CS (fun c => c.L) tau1 0 toyR1CS.Constraints w) ∧
        toyEv.G1.B[w]? =
          some (specWireSum toyIds toyR1CS (fun c => c.R) tau1 0 toyR1CS.Constraints w) ∧
        toyEv.G2.B[w]? =
          some (specWireSum toyIds toyR1CS (fun c => c.R) tau2 0 toyR1CS.Constraints w) :=
  ⟨toy_NewPhase2,
    NewPhase2_evaluations toyCurve toyIds 1 toyR1CS toyPhase1 toyC0 toyEv toy_NewPhase2⟩

/-- C9.  Public/private split of `K` in `NewPhase2`: with `tau1`, `atau1`,
`btau1` the Lagrange coefficient vectors of `G1.Tau`, `G1.AlphaTau`, `G1.BetaTau`
and `K[w] = bA[w] + aB[w] + C[w]`, for every wire `w < n_public`,
`VKK[w] = K[w]`, and for every wire `n_public ≤ w < n_wires`,
`L[w - n_public] = K[w]`; `VKK` has `n_public` entries and `L` has
`n_internal + n_secret` entries, so every entry `VKK[j]` is `K[j]` and every
entry `L[j]` is `K[j + n_public]`. -/
theorem NewPhase2_K_split (cv : Curve F G₁ G₂ Gₜ) (ids : constraint.CoeffIds) (s : F)
    (r1cs : R1CS F) (srs1 : Phase1 G₁ G₂) (c2 : Phase2 G₁ G₂) (ev : Phase2Evaluations G₁ G₂)
    (h : NewPhase2 cv ids s r1cs srs1 = .ok (c2, ev)) :
    ∃ (tau1 atau1 btau1 : List G₁),
      utils.LagrangeCoeffsG1 cv srs1.Parameters.G1.Tau srs1.Parameters.G1.AlphaTau.length
        = .ok tau1 ∧
      utils.LagrangeCoeffsG1 cv srs1.Parameters.G1.AlphaTau srs1.Parameters.G1.AlphaTau.length
        = .ok atau1 ∧
      utils.LagrangeCoeffsG1 cv srs1.Parameters.G1.BetaTau srs1.Parameters.G1.AlphaTau.length
        = .ok btau1 ∧
      (∀ w, w < r1cs.GetNbVariables.2.2 →
        ev.G1.VKK[w]? = some (specK ids r1cs tau1 atau1 btau1 w)) ∧
      (∀ w, r1cs.GetNbVariables.2.2 ≤ w →
        w < r1cs.GetNbVariables.1 + r1cs.GetNbVariables.2.1 + r1cs.GetNbVariables.2.2 →
        c2.Parameters.G1.L[w - r1cs.GetNbVariables.2.2]?
          = some (specK ids r1cs tau1 atau1 btau1 w)) ∧
      ev.G1.VKK.length = r1cs.GetNbVariables.2.2 ∧
      c2.Parameters.G1.L.length = r1cs.GetNbVariables.1 + r1cs.GetNbVariables.2.1 ∧
      (∀ j, j < c2.Parameters.G1.L.length →
        c2.Parameters.G1.L[j]?
          = some (specK ids r1cs tau1 atau1 btau1 (j + r1cs.GetNbVariables.2.2))) := by
  obtain ⟨tau1, tau2, atau1, btau1, st, Z1, VKK, L, hle, hT1, hT2, hT3, hT4, hLoop, hZ, hn, hK,
    hd1, hd2, hL, hZeq, hPK, hHash, hA, hB, hB2, hVKK⟩ := NewPhase2_inv cv ids s r1cs srs1 c2 ev h
  obtain ⟨_, _, _, a4, a5, a6⟩ := loopConstraints_spec ids r1cs _ _ _ _ _ _ _ _ hLoop
  obtain ⟨k1, k2, k3⟩ := loopK_spec _ _ _ _ _ _ _ hK
  simp only [R1CS.GetNbVariables]
  have hK' : ∀ w, w < r1cs.NbInternalVariables + r1cs.NbSecretVariables
        + r1cs.NbPublicVariables →
      (w < r1cs.NbPublicVariables → VKK[w]? = some (specK ids r1cs tau1 atau1 btau1 w)) ∧
      (r1cs.NbPublicVariables ≤ w →
        L[w - r1cs.NbPublicVariables]? = some (specK ids r1cs tau1 atau1 btau1 w)) := by
    intro w hw
    obtain ⟨x, y, z, hx, hy, hz, b1, b2⟩ := k3 w hw
    rw [a4.replicate w hw] at hx
    rw [a5.replicate w hw] at hy
    rw [a6.replicate w hw] at hz
    simp only [Option.some.injEq] at hx hy hz
    simp only [specK, hx, hy, hz]
    exact ⟨b1, b2⟩
  have hlenL : c2.Parameters.G1.L.length
      = r1cs.NbInternalVariables + r1cs.NbSecretVariables := by
    rw [hL, k2, List.length_replicate]
  refine ⟨tau1, atau1, btau1, hT1, hT3, hT4, ?_, ?_, ?_, hlenL, ?_⟩
  · intro w hw
    rw [hVKK]
    exact (hK' w (by omega)).1 hw
  · intro w hw1 hw2
    rw [hL]
    exact (hK' w hw2).2 hw1
  · rw [hVKK, k1, List.length_replicate]
  · intro j hj
    rw [hlenL] at hj
    have := (hK' (j + r1cs.NbPublicVariables) (by omega)).2 (by omega)
    rw [Nat.add_sub_cancel] at this
    rw [hL]
    exact this

/-- Witness for `NewPhase2_K_split`: the concrete instance. -/
theorem NewPhase2_K_split_witness :
    NewPhase2 toyCurve toyIds 1 toyR1CS toyPhase1 = .ok (toyC0, toyEv) ∧
    toyEv.G1.VKK.length = toyR1CS.GetNbVariables.2.2 ∧
    toyC0.Parameters.G1.L.length = toyR1CS.GetNbVariables.1 + toyR1CS.GetNbVariables.2.1 := by
  obtain ⟨_, _, _, _, _, _, _, _, h1, h2, _⟩ :=
    NewPhase2_K_split toyCurve toyIds 1 toyR1CS toyPhase1 toyC0 toyEv toy_NewPhase2
  exact ⟨toy_NewPhase2, h1, h2⟩

/-- C10.  The size check of `NewPhase2`: when the number of constraints exceeds
`n = len(G1.AlphaTau)` the call panics with the message of that check and
returns nothing; when the number of constraints is at most `n` (equality
included) the call does not end in that panic, nor in any explicit panic. -/
theorem NewPhase2_size_check (cv : Curve F G₁ G₂ Gₜ) (ids : constraint.CoeffIds) (s : F)
    (r1cs : R1CS F) (srs1 : Phase1 G₁ G₂) :
    (srs1.Parameters.G1.AlphaTau.length < r1cs.GetNbConstraints →
      NewPhase2 cv ids s r1cs srs1
        = .error (.panic "Number of constraints is larger than expected")) ∧
    (r1cs.GetNbConstraints ≤ srs1.Parameters.G1.AlphaTau.length →
      ∀ msg, NewPhase2 cv ids s r1cs srs1 ≠ .error (.panic msg)) := by
  constructor
  · intro hlt
    unfold NewPhase2
    simp only [hlt, if_true]
  · intro hle
    exact NewPhase2_noPanic cv ids s r1cs srs1 hle

/-- Witness for `NewPhase2_size_check`: three constraints against `n = 2` panic,
two constraints against `n = 2` pass the check. -/
theorem NewPhase2_size_check_witness :
    (toyPhase1.Parameters.G1.AlphaTau.length < toyR1CS3.GetNbConstraints ∧
      NewPhase2 toyCurve toyIds 1 toyR1CS3 toyPhase1
        = .error (.panic "Number of constraints is larger than expected")) ∧
    (toyR1CS.GetNbConstraints ≤ toyPhase1.Parameters.G1.AlphaTau.length ∧
      ∀ msg, NewPhase2 toyCurve toyIds 1 toyR1CS toyPhase1 ≠ .error (.panic msg)) :=
  ⟨⟨by decide,
      (NewPhase2_size_check toyCurve toyIds 1 toyR1CS3 toyPhase1).1 (by decide)⟩,
    ⟨by decide,
      (NewPhase2_size_check toyCurve toyIds 1 toyR1CS toyPhase1).2 (by decide)⟩⟩

/-! ## Second part: failures, hashing, serialisation, bounds -/

theorem isPowerOfTwo_iff (n : Nat) : utils.isPowerOfTwo n = true ↔ ∃ k, n = 2 ^ k := by
  constructor
  · intro h
    exact ⟨Nat.log2 n, (isPowerOfTwo_spec n h).2.symm⟩
  · rintro ⟨k, rfl⟩
    have hp : 0 < 2 ^ k := Nat.two_pow_pos k
    simp [utils.isPowerOfTwo, Nat.log2_two_pow]

theorem LagrangeCoeffs_not_pow {G : Type} [AddCommGroup G] [Module F G] (ω : F) (P : List G)
    (n : Nat) (hn : ¬ ∃ k, n = 2 ^ k) : utils.LagrangeCoeffs ω P n = .error .lagrange := by
  have h : utils.isPowerOfTwo n = false := by
    cases hp : utils.isPowerOfTwo n with
    | false => rfl
    | true => exact absurd ((isPowerOfTwo_iff n).mp hp) hn
  simp [utils.LagrangeCoeffs, h]

/-- C11.  When `n = len(G1.AlphaTau)` is not a power of two (`n = 0` included),
`NewPhase2` returns no Phase 2 state: it ends in the panic of the size check or
in the failure of the Lagrange preparation, and in the latter as soon as the
size check is passed, before any accumulation. -/
theorem NewPhase2_not_power_of_two (cv : Curve F G₁ G₂ Gₜ) (ids : constraint.CoeffIds) (s : F)
    (r1cs : R1CS F) (srs1 : Phase1 G₁ G₂)
    (hn : ¬ ∃ k, srs1.Parameters.G1.AlphaTau.length = 2 ^ k) :
    (∀ r, NewPhase2 cv ids s r1cs srs1 ≠ .ok r) ∧
    (NewPhase2 cv ids s r1cs srs1
        = .error (.panic "Number of constraints is larger than expected") ∨
      NewPhase2 cv ids s r1cs srs1 = .error .lagrange) ∧
    (r1cs.GetNbConstraints ≤ srs1.Parameters.G1.AlphaTau.length →
      NewPhase2 cv ids s r1cs srs1 = .error .lagrange) := by
  have key : r1cs.GetNbConstraints ≤ srs1.Parameters.G1.AlphaTau.length →
      NewPhase2 cv ids s r1cs srs1 = .error .lagrange := by
    intro hle
    unfold NewPhase2
    simp only [Nat.not_lt.mpr hle, if_false, utils.LagrangeCoeffsG1,
      LagrangeCoeffs_not_pow _ _ _ hn]
    rfl
  have alt : NewPhase2 cv ids s r1cs srs1
        = .error (.panic "Number of constraints is larger than expected") ∨
      NewPhase2 cv ids s r1cs srs1 = .error .lagrange := by
    by_cases hlt : srs1.Parameters.G1.AlphaTau.length < r1cs.GetNbConstraints
    · left
      unfold NewPhase2
      simp only [hlt, if_true]
    · right
      exact key (Nat.le_of_not_lt hlt)
  refine ⟨?_, alt, key⟩
  intro r hr
  rcases alt with h | h <;> rw [h] at hr <;> cases hr

/-- Witness for `NewPhase2_not_power_of_two`: a Phase 1 output of size `3`. -/
theorem NewPhase2_not_power_of_two_witness :
    (¬ ∃ k, toyPhase1Odd.Parameters.G1.AlphaTau.length = 2 ^ k) ∧
    NewPhase2 toyCurve toyIds 1 toyR1CS toyPhase1Odd = .error .lagrange := by
  have hn : ¬ ∃ k, toyPhase1Odd.Parameters.G1.AlphaTau.length = 2 ^ k := by
    rintro ⟨k, hk⟩
    have h3 : (3 : Nat) = 2 ^ k := hk
    cases k with
    | zero => simp at h3
    | succ k =>
      rw [pow_succ] at h3
      omega
  exact ⟨hn, (NewPhase2_not_power_of_two toyCurve toyIds 1 toyR1CS toyPhase1Odd hn).2.2
    (by decide)⟩

theorem checkHash_append (h t : Bytes) : verifyPhase2.checkHash h (h ++ t) = .ok () := by
  induction h with
  | nil => rfl
  | cons a h ih => simp [verifyPhase2.checkHash, ih]

/-- When the five `SameRatio` checks pass, the result of `verifyPhase2` is the
result of the comparison of the hashes. -/
theorem verifyPhase2_of_checks (cv : Curve F G₁ G₂ Gₜ) (rL rZ : Nat → F)
    (current contribution : Phase2 G₁ G₂)
    (h1 : utils.SameRatio cv contribution.PublicKey.SG contribution.PublicKey.SXG
      contribution.PublicKey.XR
      (utils.GenR cv contribution.PublicKey.SG contribution.PublicKey.SXG current.Hash 1)
      = true)
    (h2 : utils.SameRatio cv contribution.Parameters.G1.Delta current.Parameters.G1.Delta
      (utils.GenR cv contribution.PublicKey.SG contribution.PublicKey.SXG current.Hash 1)
      contribution.PublicKey.XR = true)
    (h3 : utils.SameRatio cv contribution.PublicKey.SG contribution.PublicKey.SXG
      contribution.Parameters.G2.Delta current.Parameters.G2.Delta = true)
    (h4 : utils.SameRatio cv (utils.Merge rL contribution.Parameters.G1.L
        current.Parameters.G1.L).1
      (utils.Merge rL contribution.Parameters.G1.L current.Parameters.G1.L).2
      contribution.Parameters.G2.Delta current.Parameters.G2.Delta = true)
    (h5 : utils.SameRatio cv (utils.Merge rZ contribution.Parameters.G1.Z
        current.Parameters.G1.Z).1
      (utils.Merge rZ contribution.Parameters.G1.Z current.Parameters.G1.Z).2
      contribution.Parameters.G2.Delta current.Parameters.G2.Delta = true) :
    verifyPhase2 cv rL rZ current contribution
      = verifyPhase2.checkHash (contribution.hash cv) contribution.Hash := by
  unfold verifyPhase2
  simp only [utils.Merge] at h4 h5
  simp only [h1, h2, h3, utils.Merge, h4, h5, Bool.not_true, Bool.false_eq_true, if_false]

/-- The five `SameRatio` checks pass between `toyPrev` and `toyNext`, whatever
`Hash` is stored in the latter. -/
theorem toyNext_checks (H : Bytes) :
    verifyPhase2 toyCurve (fun _ => 1) (fun _ => 1) toyPrev { toyNext with Hash := H }
      = verifyPhase2.checkHash (toyNext.hash toyCurve) H := by
  apply verifyPhase2_of_checks <;>
    simp [toyNext, toyPrev, toyState0, Phase2.Contribute, utils.GenPublicKey, utils.SameRatio,
      utils.GenR, utils.Merge, utils.linComb, toyCurve] <;> norm_num

/-- C12.  Hash invariant: in the state left by `Contribute`, and in the state
returned by `NewPhase2`, the stored `Hash` is SHA-256 of the canonical
serialization of `(PublicKey.SG, PublicKey.SXG, PublicKey.XR, Delta₁, L, Z,
Delta₂)` taken from the final values of the fields, and the bytes written by
`WriteTo` are that serialization followed by its SHA-256. -/
theorem Hash_invariant (cv : Curve F G₁ G₂ Gₜ) :
    (∀ (c : Phase2 G₁ G₂) (delta s : F),
      (c.Contribute cv delta s).Hash = cv.sha256 (specCanonical cv
        (c.Contribute cv delta s).PublicKey.SG (c.Contribute cv delta s).PublicKey.SXG
        (c.Contribute cv delta s).PublicKey.XR (c.Contribute cv delta s).Parameters.G1.Delta
        (c.Contribute cv delta s).Parameters.G1.L (c.Contribute cv delta s).Parameters.G1.Z
        (c.Contribute cv delta s).Parameters.G2.Delta) ∧
      ((c.Contribute cv delta s).WriteTo cv).1 = specCanonical cv
        (c.Contribute cv delta s).PublicKey.SG (c.Contribute cv delta s).PublicKey.SXG
        (c.Contribute cv delta s).PublicKey.XR (c.Contribute cv delta s).Parameters.G1.Delta
        (c.Contribute cv delta s).Parameters.G1.L (c.Contribute cv delta s).Parameters.G1.Z
        (c.Contribute cv delta s).Parameters.G2.Delta ++ cv.sha256 (specCanonical cv
        (c.Contribute cv delta s).PublicKey.SG (c.Contribute cv delta s).PublicKey.SXG
        (c.Contribute cv delta s).PublicKey.XR (c.Contribute cv delta s).Parameters.G1.Delta
        (c.Contribute cv delta s).Parameters.G1.L (c.Contribute cv delta s).Parameters.G1.Z
        (c.Contribute cv delta s).Parameters.G2.Delta)) ∧
    (∀ (ids : constraint.CoeffIds) (s : F) (r1cs : R1CS F) (srs1 : Phase1 G₁ G₂)
      (c2 : Phase2 G₁ G₂) (ev : Phase2Evaluations G₁ G₂),
      NewPhase2 cv ids s r1cs srs1 = .ok (c2, ev) →
      c2.Hash = cv.sha256 (specCanonical cv c2.PublicKey.SG c2.PublicKey.SXG c2.PublicKey.XR
        c2.Parameters.G1.Delta c2.Parameters.G1.L c2.Parameters.G1.Z c2.Parameters.G2.Delta) ∧
      (c2.WriteTo cv).1 = specCanonical cv c2.PublicKey.SG c2.PublicKey.SXG c2.PublicKey.XR
        c2.Parameters.G1.Delta c2.Parameters.G1.L c2.Parameters.G1.Z c2.Parameters.G2.Delta ++
        cv.sha256 (specCanonical cv c2.PublicKey.SG c2.PublicKey.SXG c2.PublicKey.XR
        c2.Parameters.G1.Delta c2.Parameters.G1.L c2.Parameters.G1.Z
        c2.Parameters.G2.Delta)) := by
  constructor
  · intro c delta s
    exact ⟨rfl, rfl⟩
  · intro ids s r1cs srs1 c2 ev h
    obtain ⟨_, _, _, _, _, _, _, _, _, _, _, _, _, _, _, _, _, _, _, _, _, _, hHash, _⟩ :=
      NewPhase2_inv cv ids s r1cs srs1 c2 ev h
    have e : c2.hash cv = cv.sha256 (specCanonical cv c2.PublicKey.SG c2.PublicKey.SXG
        c2.PublicKey.XR c2.Parameters.G1.Delta c2.Parameters.G1.L c2.Parameters.G1.Z
        c2.Parameters.G2.Delta) := rfl
    refine ⟨by rw [hHash, e], ?_⟩
    show c2.writeTo cv ++ c2.Hash = _
    rw [hHash, e]
    rfl

/-- Witness for `Hash_invariant`: the state returned on the concrete instance. -/
theorem Hash_invariant_witness :
    NewPhase2 toyCurve toyIds 1 toyR1CS toyPhase1 = .ok (toyC0, toyEv) ∧
    toyC0.Hash = toyCurve.sha256 (specCanonical toyCurve toyC0.PublicKey.SG
      toyC0.PublicKey.SXG toyC0.PublicKey.XR toyC0.Parameters.G1.Delta toyC0.Parameters.G1.L
      toyC0.Parameters.G1.Z toyC0.Parameters.G2.Delta) :=
  ⟨toy_NewPhase2,
    ((Hash_invariant toyCurve).2 toyIds 1 toyR1CS toyPhase1 toyC0 toyEv toy_NewPhase2).1⟩

/-- C13, evaluation of the code at the failing inputs.  `toyNextLong` stores 33
bytes, the SHA-256 of its serialization followed by one more byte:
`verifyPhase2` returns success although the stored `Hash` is not that SHA-256.
`toyNextShort` stores an empty `Hash`: `verifyPhase2` ends in the run-time panic
of an index out of range instead of returning an error. -/
theorem verifyPhase2_hash_length :
    toyNextLong.Hash ≠ toyNextLong.hash toyCurve ∧
    verifyPhase2 toyCurve (fun _ => 1) (fun _ => 1) toyPrev toyNextLong = .ok () ∧
    toyNextShort.Hash ≠ toyNextShort.hash toyCurve ∧
    verifyPhase2 toyCurve (fun _ => 1) (fun _ => 1) toyPrev toyNextShort
      = .error .outOfRange := by
  have hh : toyNext.Hash = toyNext.hash toyCurve := rfl
  have hlen : (toyNext.hash toyCurve).length = 32 := by
    simp [Phase2.hash, toyCurve]
  refine ⟨?_, ?_, ?_, ?_⟩
  · intro e
    have : (toyNext.Hash ++ [0]).length = (toyNext.hash toyCurve).length := congrArg _ e
    rw [List.length_append, hh, hlen] at this
    simp at this
  · show verifyPhase2 toyCurve (fun _ => 1) (fun _ => 1) toyPrev
      { toyNext with Hash := toyNext.Hash ++ [0] } = .ok ()
    rw [toyNext_checks, hh]
    exact checkHash_append _ _
  · intro e
    have : ([] : Bytes).length = (toyNext.hash toyCurve).length := congrArg _ e
    rw [hlen] at this
    simp at this
  · show verifyPhase2 toyCurve (fun _ => 1) (fun _ => 1) toyPrev
      { toyNext with Hash := [] } = .error .outOfRange
    rw [toyNext_checks]
    cases hc : toyNext.hash toyCurve with
    | nil => rw [hc] at hlen; simp at hlen
    | cons a t => rfl

/-- C14, evaluation of the code at the failing input.  `toyNextNegZ` is a valid
contribution with the entry of `Z` negated: the first four checks pass (the
check of `L` included) and the error returned for the failure of `Z` is the
very error returned for a failure of `L` (`toyNextNegL`), whose message names
`L`. -/
theorem verifyPhase2_Z_error :
    utils.SameRatio toyCurve
      (utils.Merge (fun _ => (1 : ℚ)) toyNextNegZ.Parameters.G1.L toyPrev.Parameters.G1.L).1
      (utils.Merge (fun _ => (1 : ℚ)) toyNextNegZ.Parameters.G1.L toyPrev.Parameters.G1.L).2
      toyNextNegZ.Parameters.G2.Delta toyPrev.Parameters.G2.Delta = true ∧
    utils.SameRatio toyCurve
      (utils.Merge (fun _ => (1 : ℚ)) toyNextNegZ.Parameters.G1.Z toyPrev.Parameters.G1.Z).1
      (utils.Merge (fun _ => (1 : ℚ)) toyNextNegZ.Parameters.G1.Z toyPrev.Parameters.G1.Z).2
      toyNextNegZ.Parameters.G2.Delta toyPrev.Parameters.G2.Delta = false ∧
    verifyPhase2 toyCurve (fun _ => 1) (fun _ => 1) toyPrev toyNextNegZ
      = .error (.error "couldn't verify valid updates of L using δ⁻¹") ∧
    verifyPhase2 toyCurve (fun _ => 1) (fun _ => 1) toyPrev toyNextNegL
      = .error (.error "couldn't verify valid updates of L using δ⁻¹") := by
  refine ⟨?_, ?_, ?_, ?_⟩
  · simp [toyNextNegZ, toyNext, toyPrev, toyState0, Phase2.Contribute, utils.SameRatio,
      utils.Merge, utils.linComb, toyCurve]
    norm_num
  · simp [toyNextNegZ, toyNext, toyPrev, toyState0, Phase2.Contribute, utils.SameRatio,
      utils.Merge, utils.linComb, toyCurve]
    norm_num
  · simp [verifyPhase2, toyNextNegZ, toyNext, toyPrev, toyState0, Phase2.Contribute,
      utils.GenPublicKey, utils.SameRatio, utils.GenR, utils.Merge, utils.linComb, toyCurve]
    norm_num
  · simp [verifyPhase2, toyNextNegL, toyNext, toyPrev, toyState0, Phase2.Contribute,
      utils.GenPublicKey, utils.SameRatio, utils.GenR, utils.Merge, utils.linComb, toyCurve]
    norm_num

/-- C15 (as amended).  With `SameRatio`, `GenR` and `GenPublicKey` as the
specification defines them and a pairing without zero values on non-identity
points: for a state built like an honest contribution with a non-zero scalar
`delta` and a non-zero nonce `s`, on a state `prev` whose `Delta₁`, `Delta₂` and
point `R` are not the identity, except that `Delta₂` is scaled by some `delta'`
different from `delta`, `verifyPhase2` returns the error of the `Delta₂`
check. -/
theorem verifyPhase2_wrong_delta2 (cv : Curve F G₁ G₂ Gₜ) (rL rZ : Nat → F)
    (prev : Phase2 G₁ G₂) (delta delta' s : F)
    (hnd : ∀ (p : G₁) (q : G₂), p ≠ 0 → q ≠ 0 → cv.e p q ≠ 0)
    (hδ : delta ≠ 0) (hs : s ≠ 0) (hne : delta' ≠ delta)
    (h1 : prev.Parameters.G1.Delta ≠ 0) (h2 : prev.Parameters.G2.Delta ≠ 0)
    (hR : utils.GenR cv (s • cv.g1) ((s * delta) • cv.g1) prev.Hash 1 ≠ 0) :
    verifyPhase2 cv rL rZ prev (contributeWrongG2 cv delta delta' s prev)
      = .error (.error "couldn't verify that [δ]₂ is based on previous contribution") := by
  have hd : delta ≠ 0 := hδ
  have hg := cv.g1_ne_zero
  have c1 : utils.SameRatio cv (s • cv.g1) ((s * delta) • cv.g1)
      (delta • utils.GenR cv (s • cv.g1) ((s * delta) • cv.g1) prev.Hash 1)
      (utils.GenR cv (s • cv.g1) ((s * delta) • cv.g1) prev.Hash 1) = true := by
    apply SameRatio_eq_true
    · simp [hs, hg]
    · simp [hs, hd, hg]
    · simp [hd, hR]
    · exact hR
    · simp only [cv.e_smul_left, cv.e_smul_right, smul_smul]
  have c2 : utils.SameRatio cv (delta • prev.Parameters.G1.Delta) prev.Parameters.G1.Delta
      (utils.GenR cv (s • cv.g1) ((s * delta) • cv.g1) prev.Hash 1)
      (delta • utils.GenR cv (s • cv.g1) ((s * delta) • cv.g1) prev.Hash 1) = true := by
    apply SameRatio_eq_true
    · simp [hd, h1]
    · exact h1
    · exact hR
    · simp [hd, hR]
    · simp only [cv.e_smul_left, cv.e_smul_right]
  have c3 : utils.SameRatio cv (s • cv.g1) ((s * delta) • cv.g1)
      (delta' • prev.Parameters.G2.Delta) prev.Parameters.G2.Delta = false := by
    unfold utils.SameRatio
    split_ifs with hz
    · rfl
    · simp only [decide_eq_false_iff_not]
      intro heq
      simp only [cv.e_smul_left, cv.e_smul_right, smul_smul] at heq
      have hE := hnd cv.g1 prev.Parameters.G2.Delta hg h2
      have hsub : (s * delta' - s * delta) • cv.e cv.g1 prev.Parameters.G2.Delta = 0 := by
        rw [sub_smul, heq, sub_self]
      rcases smul_eq_zero.mp hsub with h0 | h0
      · have h3 : s * (delta' - delta) = 0 := by
          rw [← h0]
          ring
        rcases mul_eq_zero.mp h3 with h4 | h4
        · exact hs h4
        · exact hne (sub_eq_zero.mp h4)
      · exact hE h0
  simp only [verifyPhase2, contributeWrongG2, utils.GenPublicKey, c1, c2, c3,
    Bool.not_true, Bool.not_false, Bool.false_eq_true, if_false, if_true]

/-- Witness for `verifyPhase2_wrong_delta2`: `delta = 2`, `delta' = 3`, `s = 1`
on `toyPrev`. -/
theorem verifyPhase2_wrong_delta2_witness :
    verifyPhase2 toyCurve (fun _ => 1) (fun _ => 1) toyPrev
      (contributeWrongG2 toyCurve 2 3 1 toyPrev)
      = .error (.error "couldn't verify that [δ]₂ is based on previous contribution") :=
  verifyPhase2_wrong_delta2 toyCurve (fun _ => 1) (fun _ => 1) toyPrev 2 3 1
    (by
      intro p q hp hq
      exact mul_ne_zero hp hq)
    (by norm_num) (by norm_num) (by norm_num)
    (by simp [toyPrev, toyState0]) (by simp [toyPrev, toyState0])
    (by simp [utils.GenR, toyCurve])

/-- C15, counterexample.  On `toyPrev` (both `Delta` are `1`, the pairing is the
product of rationals), a state built like the one `Contribute` leaves for the
sampled `delta = 0`, with `s = 1` and with `Delta₂` scaled by `delta' = 1`, is
rejected by the knowledge check (`SXG` and `XR` are the identity), not by the
`Delta₂` check. -/
theorem verifyPhase2_wrong_delta2_counterexample :
    toyPrev.Parameters.G2.Delta ≠ 0 ∧ (1 : ℚ) ≠ 0 ∧
    (∀ p q : ℚ, p ≠ 0 → q ≠ 0 → toyCurve.e p q ≠ 0) ∧
    (contributeWrongG2 toyCurve 0 1 1 toyPrev).PublicKey.SXG = 0 ∧
    verifyPhase2 toyCurve (fun _ => 1) (fun _ => 1) toyPrev
      (contributeWrongG2 toyCurve 0 1 1 toyPrev)
      = .error (.error "couldn't verify knowledge of δ") := by
  refine ⟨by simp [toyPrev, toyState0], by norm_num, ?_, ?_, ?_⟩
  · intro p q hp hq
    exact mul_ne_zero hp hq
  · simp [contributeWrongG2, utils.GenPublicKey, toyCurve]
  · simp [verifyPhase2, contributeWrongG2, utils.GenPublicKey, utils.SameRatio, utils.GenR,
      toyCurve, toyPrev, toyState0]

/-- C18.  Coefficient shortcuts do not change results: when the coefficient
table stores `0`, `1`, `-1`, `2` at the four special identifiers, `accumulateG1`
and `accumulateG2` return what the generic branch alone returns for the same
identifier; in particular, when the table holds `c` at the identifier of `t`,
they leave `res + c · value`. -/
theorem accumulate_shortcuts (ids : constraint.CoeffIds) (r1cs : R1CS F)
    (h0 : r1cs.Coefficients[ids.CoeffIdZero]? = some 0)
    (h1 : r1cs.Coefficients[ids.CoeffIdOne]? = some 1)
    (hm : r1cs.Coefficients[ids.CoeffIdMinusOne]? = some (-1))
    (h2 : r1cs.Coefficients[ids.CoeffIdTwo]? = some 2) :
    (∀ (res : G₁) (t : constraint.Term) (value : G₁),
      NewPhase2.accumulateG1 ids r1cs res t value = specAccumulate r1cs res t value ∧
      ∀ c, r1cs.Coefficients[t.CoeffID]? = some c →
        NewPhase2.accumulateG1 ids r1cs res t value = .ok (res + c • value)) ∧
    (∀ (res : G₂) (t : constraint.Term) (value : G₂),
      NewPhase2.accumulateG2 ids r1cs res t value = specAccumulate r1cs res t value ∧
      ∀ c, r1cs.Coefficients[t.CoeffID]? = some c →
        NewPhase2.accumulateG2 ids r1cs res t value = .ok (res + c • value)) := by
  constructor
  · intro res t value
    have key : NewPhase2.accumulateG1 ids r1cs res t value
        = specAccumulate r1cs res t value := by
      unfold NewPhase2.accumulateG1 specAccumulate
      simp only
      split_ifs with a b c d
      · simp only [a, h0, zero_smul, add_zero]
      · simp only [b, h1, one_smul]
      · simp only [c, hm, neg_smul, one_smul, sub_eq_add_neg]
      · simp only [d, h2, two_smul, add_assoc]
      · rfl
    refine ⟨key, ?_⟩
    intro c hc
    simp only [key, specAccumulate, hc]
  · intro res t value
    have key : NewPhase2.accumulateG2 ids r1cs res t value
        = specAccumulate r1cs res t value := by
      unfold NewPhase2.accumulateG2 specAccumulate
      simp only
      split_ifs with a b c d
      · simp only [a, h0, zero_smul, add_zero]
      · simp only [b, h1, one_smul]
      · simp only [c, hm, neg_smul, one_smul, sub_eq_add_neg]
      · simp only [d, h2, two_smul, add_assoc]
      · rfl
    refine ⟨key, ?_⟩
    intro c hc
    simp only [key, specAccumulate, hc]

/-- Witness for `accumulate_shortcuts`: the table `[0, 1, 2, -1, 5]` of `toyR1CS`
with the identifiers `toyIds`, on the term with the identifier of `-1`. -/
theorem accumulate_shortcuts_witness :
    NewPhase2.accumulateG1 toyIds toyR1CS (10 : ℚ) ⟨3, 0⟩ 4
      = specAccumulate toyR1CS (10 : ℚ) ⟨3, 0⟩ 4 ∧
    NewPhase2.accumulateG2 toyIds toyR1CS (10 : ℚ) ⟨2, 0⟩ 4
      = specAccumulate toyR1CS (10 : ℚ) ⟨2, 0⟩ 4 :=
  ⟨((@accumulate_shortcuts ℚ ℚ ℚ _ _ _ _ _ _ _ toyIds toyR1CS (by simp [toyIds, toyR1CS])
      (by simp [toyIds, toyR1CS]) (by simp [toyIds, toyR1CS])
      (by simp [toyIds, toyR1CS])).1 10 ⟨3, 0⟩ 4).1,
   ((@accumulate_shortcuts ℚ ℚ ℚ _ _ _ _ _ _ _ toyIds toyR1CS (by simp [toyIds, toyR1CS])
      (by simp [toyIds, toyR1CS]) (by simp [toyIds, toyR1CS])
      (by simp [toyIds, toyR1CS])).2 10 ⟨2, 0⟩ 4).1⟩

/-! ### The chain of transitions -/

theorem VerifyPhase2_loop_ok_iff (cv : Curve F G₁ G₂ Gₜ) (rnd : Nat → (Nat → F) × (Nat → F))
    (ss : List (Phase2 G₁ G₂)) (i0 : Nat) :
    VerifyPhase2.loop cv rnd i0 ss = .ok () ↔
      ∀ (i : Nat) (a b : Phase2 G₁ G₂), ss[i]? = some a → ss[i + 1]? = some b →
        verifyPhase2 cv (rnd (i0 + i)).1 (rnd (i0 + i)).2 a b = .ok () := by
  induction ss generalizing i0 with
  | nil =>
    simp [VerifyPhase2.loop]
  | cons x rest ih =>
    cases rest with
    | nil => simp [VerifyPhase2.loop]
    | cons y rest =>
      have e : VerifyPhase2.loop cv rnd i0 (x :: y :: rest) =
          (match verifyPhase2 cv (rnd i0).1 (rnd i0).2 x y with
            | .error err => .error err
            | .ok () => VerifyPhase2.loop cv rnd (i0 + 1) (y :: rest)) := rfl
      rw [e]
      constructor
      · intro h i a b ha hb
        cases hv : verifyPhase2 cv (rnd i0).1 (rnd i0).2 x y with
        | error err => simp [hv] at h
        | ok u =>
          cases u
          simp only [hv] at h
          cases i with
          | zero =>
            simp only [List.getElem?_cons_zero, Option.some.injEq, zero_add,
              List.getElem?_cons_succ] at ha hb
            subst ha hb
            simpa using hv
          | succ i =>
            have := (ih (i0 + 1)).mp h i a b (by simpa using ha) (by simpa using hb)
            rw [show i0 + (i + 1) = i0 + 1 + i by omega]
            exact this
      · intro h
        have h0 := h 0 x y (by simp) (by simp)
        simp only [Nat.add_zero] at h0
        simp only [h0]
        apply (ih (i0 + 1)).mpr
        intro i a b ha hb
        have := h (i + 1) a b (by simpa using ha) (by simpa using hb)
        rw [show i0 + (i + 1) = i0 + 1 + i by omega] at this
        exact this

theorem VerifyPhase2_loop_first_error (cv : Curve F G₁ G₂ Gₜ)
    (rnd : Nat → (Nat → F) × (Nat → F)) (ss : List (Phase2 G₁ G₂)) (i0 i : Nat)
    (a b : Phase2 G₁ G₂) (err : Failure) (ha : ss[i]? = some a) (hb : ss[i + 1]? = some b)
    (hv : verifyPhase2 cv (rnd (i0 + i)).1 (rnd (i0 + i)).2 a b = .error err)
    (hbefore : ∀ (j : Nat) (a' b' : Phase2 G₁ G₂), j < i → ss[j]? = some a' →
      ss[j + 1]? = some b' →
      verifyPhase2 cv (rnd (i0 + j)).1 (rnd (i0 + j)).2 a' b' = .ok ()) :
    VerifyPhase2.loop cv rnd i0 ss = .error err := by
  induction ss generalizing i0 i with
  | nil => simp at ha
  | cons x rest ih =>
    cases rest with
    | nil => simp at hb
    | cons y rest =>
      have e : VerifyPhase2.loop cv rnd i0 (x :: y :: rest) =
          (match verifyPhase2 cv (rnd i0).1 (rnd i0).2 x y with
            | .error err => .error err
            | .ok () => VerifyPhase2.loop cv rnd (i0 + 1) (y :: rest)) := rfl
      rw [e]
      cases i with
      | zero =>
        simp only [List.getElem?_cons_zero, Option.some.injEq, zero_add,
          List.getElem?_cons_succ] at ha hb
        subst ha hb
        simp only [Nat.add_zero] at hv
        simp only [hv]
      | succ i =>
        have h0 := hbefore 0 x y (by omega) (by simp) (by simp)
        simp only [Nat.add_zero] at h0
        simp only [h0]
        apply ih (i0 + 1) i (by simpa using ha) (by simpa using hb)
        · rw [show i0 + 1 + i = i0 + (i + 1) by omega]
          exact hv
        · intro j a' b' hj ha' hb'
          have := hbefore (j + 1) a' b' (by omega) (by simpa using ha') (by simpa using hb')
          rw [show i0 + 1 + j = i0 + (j + 1) by omega]
          exact this

/-- C19.  Chain verification: for the states `s_0 = c0, s_1 = c1, s_2, …`,
`VerifyPhase2` returns success iff `verifyPhase2(s_i, s_{i+1})` succeeds for
every adjacent pair; otherwise it returns the error of the first failing
transition; and the knowledge check of a transition is made against the `Hash`
of the state immediately before. -/
theorem VerifyPhase2_chain (cv : Curve F G₁ G₂ Gₜ) (rnd : Nat → (Nat → F) × (Nat → F))
    (c0 c1 : Phase2 G₁ G₂) (c : List (Phase2 G₁ G₂)) :
    (VerifyPhase2 cv rnd c0 c1 c = .ok () ↔
      ∀ (i : Nat) (a b : Phase2 G₁ G₂), (c0 :: c1 :: c)[i]? = some a →
        (c0 :: c1 :: c)[i + 1]? = some b →
        verifyPhase2 cv (rnd i).1 (rnd i).2 a b = .ok ()) ∧
    (∀ (i : Nat) (a b : Phase2 G₁ G₂) (err : Failure), (c0 :: c1 :: c)[i]? = some a →
      (c0 :: c1 :: c)[i + 1]? = some b →
      verifyPhase2 cv (rnd i).1 (rnd i).2 a b = .error err →
      (∀ (j : Nat) (a' b' : Phase2 G₁ G₂), j < i → (c0 :: c1 :: c)[j]? = some a' →
        (c0 :: c1 :: c)[j + 1]? = some b' →
        verifyPhase2 cv (rnd j).1 (rnd j).2 a' b' = .ok ()) →
      VerifyPhase2 cv rnd c0 c1 c = .error err) ∧
    (∀ (rL rZ : Nat → F) (a b : Phase2 G₁ G₂),
      utils.SameRatio cv b.PublicKey.SG b.PublicKey.SXG b.PublicKey.XR
        (utils.GenR cv b.PublicKey.SG b.PublicKey.SXG a.Hash 1) = false →
      verifyPhase2 cv rL rZ a b = .error (.error "couldn't verify knowledge of δ")) := by
  refine ⟨?_, ?_, ?_⟩
  · have := VerifyPhase2_loop_ok_iff cv rnd (c0 :: c1 :: c) 0
    simpa only [VerifyPhase2, Nat.zero_add] using this
  · intro i a b err ha hb hv hbefore
    have := VerifyPhase2_loop_first_error cv rnd (c0 :: c1 :: c) 0 i a b err ha hb
      (by simpa only [Nat.zero_add] using hv)
      (by
        intro j a' b' hj ha' hb'
        simpa only [Nat.zero_add] using hbefore j a' b' hj ha' hb')
    exact this
  · intro rL rZ a b h
    simp [verifyPhase2, h]

/-- Witness for `VerifyPhase2_chain`: the chain `toyPrev`, `toyNext`. -/
theorem VerifyPhase2_chain_witness :
    VerifyPhase2 toyCurve (fun _ => (fun _ => 1, fun _ => 1)) toyPrev toyNext [] = .ok () := by
  apply (VerifyPhase2_chain toyCurve (fun _ => (fun _ => 1, fun _ => 1)) toyPrev toyNext
    []).1.mpr
  intro i a b ha hb
  cases i with
  | zero =>
    simp only [List.getElem?_cons_zero, Option.some.injEq, zero_add,
      List.getElem?_cons_succ] at ha hb
    subst ha hb
    have := toyNext_checks toyNext.Hash
    rw [show ({ toyNext with Hash := toyNext.Hash } : Phase2 ℚ ℚ) = toyNext from rfl] at this
    rw [this]
    exact checkHash_self _
  | succ i => simp at hb

/-! ### Bounds: every access of `NewPhase2` is in range -/

theorem accumulateG1_ok (ids : constraint.CoeffIds) (r1cs : R1CS F) (nWires : Nat)
    (t : constraint.Term) (ht : TermOk ids r1cs nWires t) (res v : G₁) :
    ∃ r, NewPhase2.accumulateG1 ids r1cs res t v = .ok r := by
  unfold NewPhase2.accumulateG1
  simp only
  split_ifs with a b c d
  · exact ⟨_, rfl⟩
  · exact ⟨_, rfl⟩
  · exact ⟨_, rfl⟩
  · exact ⟨_, rfl⟩
  · have hlt : t.CoeffID < r1cs.Coefficients.length := by
      rcases ht.2 with h | h | h | h | h
      · exact absurd h a
      · exact absurd h b
      · exact absurd h c
      · exact absurd h d
      · exact h
    rw [List.getElem?_eq_getElem hlt]
    exact ⟨_, rfl⟩

theorem accumulateG2_ok (ids : constraint.CoeffIds) (r1cs : R1CS F) (nWires : Nat)
    (t : constraint.Term) (ht : TermOk ids r1cs nWires t) (res v : G₂) :
    ∃ r, NewPhase2.accumulateG2 ids r1cs res t v = .ok r := by
  unfold NewPhase2.accumulateG2
  simp only
  split_ifs with a b c d
  · exact ⟨_, rfl⟩
  · exact ⟨_, rfl⟩
  · exact ⟨_, rfl⟩
  · exact ⟨_, rfl⟩
  · have hlt : t.CoeffID < r1cs.Coefficients.length := by
      rcases ht.2 with h | h | h | h | h
      · exact absurd h a
      · exact absurd h b
      · exact absurd h c
      · exact absurd h d
      · exact h
    rw [List.getElem?_eq_getElem hlt]
    exact ⟨_, rfl⟩

theorem atWire_ok {G : Type} (acc : G → constraint.Term → G → Except Failure G)
    (arr : List G) (t : constraint.Term) (v : G) (hacc : ∀ res v, ∃ r, acc res t v = .ok r)
    (hw : t.WireID < arr.length) :
    ∃ arr', NewPhase2.atWire acc arr t (some v) = .ok arr' ∧ arr'.length = arr.length := by
  obtain ⟨r, hr⟩ := hacc (arr[t.WireID]) v
  refine ⟨arr.set t.WireID r, ?_, by simp⟩
  simp only [NewPhase2.atWire, List.getElem?_eq_getElem hw, hr]

theorem loopL_ok (ids : constraint.CoeffIds) (r1cs : R1CS F) (nWires : Nat) (v b : G₁)
    (ts : List constraint.Term) (hts : ∀ t ∈ ts, TermOk ids r1cs nWires t)
    (st : NewPhase2.Acc G₁ G₂) (hst : AccLen nWires st) :
    ∃ st', NewPhase2.loopL ids r1cs (some v) (some b) ts st = .ok st' ∧ AccLen nWires st' := by
  induction ts generalizing st with
  | nil => exact ⟨st, rfl, hst⟩
  | cons t ts ih =>
    have ht := hts t (List.mem_cons_self _ _)
    obtain ⟨hA, hB, hB2, hbA, haB, hC⟩ := hst
    obtain ⟨A, e1, l1⟩ := atWire_ok (NewPhase2.accumulateG1 ids r1cs) st.A t v
      (accumulateG1_ok ids r1cs nWires t ht) (by rw [hA]; exact ht.1)
    obtain ⟨bA, e2, l2⟩ := atWire_ok (NewPhase2.accumulateG1 ids r1cs) st.bA t b
      (accumulateG1_ok ids r1cs nWires t ht) (by rw [hbA]; exact ht.1)
    obtain ⟨st', e3, l3⟩ := ih (fun t' h' => hts t' (List.mem_cons_of_mem _ h'))
      { st with A := A, bA := bA } ⟨by rw [l1, hA], hB, hB2, by rw [l2, hbA], haB, hC⟩
    refine ⟨st', ?_, l3⟩
    simp only [NewPhase2.loopL, bind, Except.bind, e1, e2, e3]

theorem loopR_ok (ids : constraint.CoeffIds) (r1cs : R1CS F) (nWires : Nat) (v : G₁) (v2 : G₂)
    (a : G₁) (ts : List constraint.Term) (hts : ∀ t ∈ ts, TermOk ids r1cs nWires t)
    (st : NewPhase2.Acc G₁ G₂) (hst : AccLen nWires st) :
    ∃ st', NewPhase2.loopR ids r1cs (some v) (some v2) (some a) ts st = .ok st' ∧
      AccLen nWires st' := by
  induction ts generalizing st with
  | nil => exact ⟨st, rfl, hst⟩
  | cons t ts ih =>
    have ht := hts t (List.mem_cons_self _ _)
    obtain ⟨hA, hB, hB2, hbA, haB, hC⟩ := hst
    obtain ⟨B, e1, l1⟩ := atWire_ok (NewPhase2.accumulateG1 ids r1cs) st.B t v
      (accumulateG1_ok ids r1cs nWires t ht) (by rw [hB]; exact ht.1)
    obtain ⟨B2, e2, l2⟩ := atWire_ok (NewPhase2.accumulateG2 ids r1cs) st.B2 t v2
      (accumulateG2_ok ids r1cs nWires t ht) (by rw [hB2]; exact ht.1)
    obtain ⟨aB, e3, l3⟩ := atWire_ok (NewPhase2.accumulateG1 ids r1cs) st.aB t a
      (accumulateG1_ok ids r1cs nWires t ht) (by rw [haB]; exact ht.1)
    obtain ⟨st', e4, l4⟩ := ih (fun t' h' => hts t' (List.mem_cons_of_mem _ h'))
      { st with B := B, B2 := B2, aB := aB }
      ⟨hA, by rw [l1, hB], by rw [l2, hB2], hbA, by rw [l3, haB], hC⟩
    refine ⟨st', ?_, l4⟩
    simp only [NewPhase2.loopR, bind, Except.bind, e1, e2, e3, e4]

theorem loopO_ok (ids : constraint.CoeffIds) (r1cs : R1CS F) (nWires : Nat) (v : G₁)
    (ts : List constraint.Term) (hts : ∀ t ∈ ts, TermOk ids r1cs nWires t)
    (st : NewPhase2.Acc G₁ G₂) (hst : AccLen nWires st) :
    ∃ st', NewPhase2.loopO ids r1cs (some v) ts st = .ok st' ∧ AccLen nWires st' := by
  induction ts generalizing st with
  | nil => exact ⟨st, rfl, hst⟩
  | cons t ts ih =>
    have ht := hts t (List.mem_cons_self _ _)
    obtain ⟨hA, hB, hB2, hbA, haB, hC⟩ := hst
    obtain ⟨C, e1, l1⟩ := atWire_ok (NewPhase2.accumulateG1 ids r1cs) st.C t v
      (accumulateG1_ok ids r1cs nWires t ht) (by rw [hC]; exact ht.1)
    obtain ⟨st', e2, l2⟩ := ih (fun t' h' => hts t' (List.mem_cons_of_mem _ h'))
      { st with C := C } ⟨hA, hB, hB2, hbA, haB, by rw [l1, hC]⟩
    refine ⟨st', ?_, l2⟩
    simp only [NewPhase2.loopO, bind, Except.bind, e1, e2]

theorem loopConstraints_ok (ids : constraint.CoeffIds) (r1cs : R1CS F) (nWires : Nat)
    (tau1 : List G₁) (tau2 : List G₂) (atau1 btau1 : List G₁) (cs : List constraint.R1C)
    (hcs : ∀ c ∈ cs, ∀ t, t ∈ c.L ∨ t ∈ c.R ∨ t ∈ c.O → TermOk ids r1cs nWires t)
    (i : Nat) (h1 : i + cs.length ≤ tau1.length) (h2 : i + cs.length ≤ tau2.length)
    (h3 : i + cs.length ≤ atau1.length) (h4 : i + cs.length ≤ btau1.length)
    (st : NewPhase2.Acc G₁ G₂) (hst : AccLen nWires st) :
    ∃ st', NewPhase2.loopConstraints ids r1cs tau1 tau2 atau1 btau1 i cs st = .ok st' ∧
      AccLen nWires st' := by
  induction cs generalizing i st with
  | nil => exact ⟨st, rfl, hst⟩
  | cons c cs ih =>
    simp only [List.length_cons] at h1 h2 h3 h4
    have hc := hcs c (List.mem_cons_self _ _)
    have g1 : tau1[i]? = some tau1[i] := List.getElem?_eq_getElem (by omega)
    have g2 : tau2[i]? = some tau2[i] := List.getElem?_eq_getElem (by omega)
    have g3 : atau1[i]? = some atau1[i] := List.getElem?_eq_getElem (by omega)
    have g4 : btau1[i]? = some btau1[i] := List.getElem?_eq_getElem (by omega)
    obtain ⟨s1, e1, l1⟩ := loopL_ok ids r1cs nWires tau1[i] btau1[i] c.L
      (fun t h => hc t (Or.inl h)) st hst
    obtain ⟨s2, e2, l2⟩ := loopR_ok ids r1cs nWires tau1[i] tau2[i] atau1[i] c.R
      (fun t h => hc t (Or.inr (Or.inl h))) s1 l1
    obtain ⟨s3, e3, l3⟩ := loopO_ok ids r1cs nWires tau1[i] c.O
      (fun t h => hc t (Or.inr (Or.inr h))) s2 l2
    obtain ⟨st', e4, l4⟩ := ih (fun c' h' => hcs c' (List.mem_cons_of_mem _ h')) (i + 1)
      (by omega) (by omega) (by omega) (by omega) s3 l3
    refine ⟨st', ?_, l4⟩
    simp only [NewPhase2.loopConstraints, bind, Except.bind, g1, g2, g3, g4, e1, e2, e3, e4]

theorem loopZ_ok (Tau : List G₁) (n k : Nat) (Z0 : List G₁) (hk : k ≤ Z0.length)
    (hT : k + n ≤ Tau.length) (hn : 0 < n) :
    ∃ Z, NewPhase2.loopZ Tau n k Z0 = .ok Z ∧ Z.length = Z0.length := by
  induction k with
  | zero => exact ⟨Z0, rfl, rfl⟩
  | succ k ih =>
    obtain ⟨Z, e, l⟩ := ih (by omega) (by omega)
    have hb1 : k + n < Tau.length := by omega
    have hb2 : k < Tau.length := by omega
    have g1 : Tau[k + n]? = some Tau[k + n] := List.getElem?_eq_getElem (by omega)
    have g2 : Tau[k]? = some Tau[k] := List.getElem?_eq_getElem (by omega)
    have hl : k < Z.length := by omega
    refine ⟨Z.set k (Tau[k + n] - Tau[k]), ?_, by simp [l]⟩
    simp only [NewPhase2.loopZ, bind, Except.bind, e, g1, g2, hl, if_true]

theorem loopK_ok (pub nPrivate : Nat) (bA aB C : List G₁) (k : Nat)
    (hbA : k ≤ bA.length) (haB : k ≤ aB.length) (hC : k ≤ C.length)
    (hk : k ≤ nPrivate + pub) (st0 : List G₁ × List G₁) (h1 : st0.1.length = pub)
    (h2 : st0.2.length = nPrivate) :
    ∃ st, NewPhase2.loopK pub bA aB C k st0 = .ok st ∧ st.1.length = pub ∧
      st.2.length = nPrivate := by
  induction k with
  | zero => exact ⟨st0, rfl, h1, h2⟩
  | succ k ih =>
    obtain ⟨st, e, l1, l2⟩ := ih (by omega) (by omega) (by omega) (by omega)
    obtain ⟨VKK, L⟩ := st
    simp only at l1 l2
    have g1 : bA[k]? = some bA[k] := List.getElem?_eq_getElem (by omega)
    have g2 : aB[k]? = some aB[k] := List.getElem?_eq_getElem (by omega)
    have g3 : C[k]? = some C[k] := List.getElem?_eq_getElem (by omega)
    by_cases hp : k < pub
    · have hl : k < VKK.length := by omega
      refine ⟨(VKK.set k (bA[k] + aB[k] + C[k]), L), ?_, by simp [l1], l2⟩
      simp only [NewPhase2.loopK, bind, Except.bind, e, g1, g2, g3, hp, hl, if_true]
    · have hl : k - pub < L.length := by omega
      refine ⟨(VKK, L.set (k - pub) (bA[k] + aB[k] + C[k])), ?_, l1, by simp [l2]⟩
      simp only [NewPhase2.loopK, bind, Except.bind, e, g1, g2, g3, hp, hl, if_true, if_false]

theorem LagrangeCoeffs_ok {G : Type} [AddCommGroup G] [Module F G] (ω : F) (P : List G)
    (n : Nat) (hp : ∃ k, n = 2 ^ k) (hl : n ≤ P.length) :
    ∃ Q, utils.LagrangeCoeffs ω P n = .ok Q ∧ Q.length = n := by
  have h := (isPowerOfTwo_iff n).mpr hp
  cases e : utils.LagrangeCoeffs ω P n with
  | ok Q => exact ⟨Q, rfl, (LagrangeCoeffs_spec ω P Q n e).2.2⟩
  | error err =>
    simp [utils.LagrangeCoeffs, h, Nat.not_lt.mpr hl] at e

/-- C20.  Under the documented input invariants (`n = len(G1.AlphaTau)` a power
of two, `len(G1.Tau) = 2n - 1`, `len(G1.BetaTau) = len(G2.Tau) = n`, at most `n`
constraints, every wire identifier below `n_internal + n_secret + n_public` and
every coefficient identifier that is not a shortcut below `len(Coefficients)`),
no access of `NewPhase2` is out of range and the slice `Z[:n-1]` is valid: the
call does not end in the run-time panic, it returns its two results. -/
theorem NewPhase2_in_bounds (cv : Curve F G₁ G₂ Gₜ) (ids : constraint.CoeffIds) (s : F)
    (r1cs : R1CS F) (srs1 : Phase1 G₁ G₂)
    (hpow : ∃ k, srs1.Parameters.G1.AlphaTau.length = 2 ^ k)
    (hTau : srs1.Parameters.G1.Tau.length = 2 * srs1.Parameters.G1.AlphaTau.length - 1)
    (hBeta : srs1.Parameters.G1.BetaTau.length = srs1.Parameters.G1.AlphaTau.length)
    (hTau2 : srs1.Parameters.G2.Tau.length = srs1.Parameters.G1.AlphaTau.length)
    (hnb : r1cs.GetNbConstraints ≤ srs1.Parameters.G1.AlphaTau.length)
    (hterms : ∀ c ∈ r1cs.Constraints, ∀ t, t ∈ c.L ∨ t ∈ c.R ∨ t ∈ c.O →
      t.WireID < r1cs.GetNbVariables.1 + r1cs.GetNbVariables.2.1 + r1cs.GetNbVariables.2.2 ∧
      (t.CoeffID = ids.CoeffIdZero ∨ t.CoeffID = ids.CoeffIdOne ∨
        t.CoeffID = ids.CoeffIdMinusOne ∨ t.CoeffID = ids.CoeffIdTwo ∨
        t.CoeffID < r1cs.Coefficients.length)) :
    (∃ c2 ev, NewPhase2 cv ids s r1cs srs1 = .ok (c2, ev)) ∧
    NewPhase2 cv ids s r1cs srs1 ≠ .error .outOfRange := by
  have hn : 0 < srs1.Parameters.G1.AlphaTau.length := by
    obtain ⟨k, hk⟩ := hpow
    rw [hk]
    exact Nat.two_pow_pos k
  obtain ⟨tau1, e1, l1⟩ := LagrangeCoeffs_ok (cv.rootOfUnity srs1.Parameters.G1.AlphaTau.length)
    srs1.Parameters.G1.Tau _ hpow (by omega)
  obtain ⟨tau2, e2, l2⟩ := LagrangeCoeffs_ok (cv.rootOfUnity srs1.Parameters.G1.AlphaTau.length)
    srs1.Parameters.G2.Tau _ hpow (by omega)
  obtain ⟨atau1, e3, l3⟩ := LagrangeCoeffs_ok
    (cv.rootOfUnity srs1.Parameters.G1.AlphaTau.length)
    srs1.Parameters.G1.AlphaTau _ hpow (Nat.le_refl _)
  obtain ⟨btau1, e4, l4⟩ := LagrangeCoeffs_ok
    (cv.rootOfUnity srs1.Parameters.G1.AlphaTau.length)
    srs1.Parameters.G1.BetaTau _ hpow (by omega)
  simp only [R1CS.GetNbVariables] at hterms
  simp only [R1CS.GetNbConstraints] at hnb
  obtain ⟨st, e5, hA, hB, hB2, hbA, haB, hC⟩ := loopConstraints_ok ids r1cs
    (r1cs.NbInternalVariables + r1cs.NbSecretVariables + r1cs.NbPublicVariables)
    tau1 tau2 atau1 btau1 r1cs.Constraints hterms 0
    (by omega) (by omega) (by omega) (by omega)
    { A := List.replicate
        (r1cs.NbInternalVariables + r1cs.NbSecretVariables + r1cs.NbPublicVariables) 0,
      B := List.replicate
        (r1cs.NbInternalVariables + r1cs.NbSecretVariables + r1cs.NbPublicVariables) 0,
      B2 := List.replicate
        (r1cs.NbInternalVariables + r1cs.NbSecretVariables + r1cs.NbPublicVariables) 0,
      bA := List.replicate
        (r1cs.NbInternalVariables + r1cs.NbSecretVariables + r1cs.NbPublicVariables) 0,
      aB := List.replicate
        (r1cs.NbInternalVariables + r1cs.NbSecretVariables + r1cs.NbPublicVariables) 0,
      C := List.replicate
        (r1cs.NbInternalVariables + r1cs.NbSecretVariables + r1cs.NbPublicVariables) 0 }
    ⟨by simp, by simp, by simp, by simp, by simp, by simp⟩
  obtain ⟨Z, e6, _⟩ := loopZ_ok srs1.Parameters.G1.Tau srs1.Parameters.G1.AlphaTau.length
    (srs1.Parameters.G1.AlphaTau.length - 1)
    (List.replicate srs1.Parameters.G1.AlphaTau.length 0) (by simp) (by omega) hn
  obtain ⟨VL, e7, _, _⟩ := loopK_ok r1cs.NbPublicVariables
    (r1cs.NbInternalVariables + r1cs.NbSecretVariables) st.bA st.aB st.C
    (r1cs.NbInternalVariables + r1cs.NbSecretVariables + r1cs.NbPublicVariables)
    (by omega) (by omega) (by omega) (Nat.le_refl _)
    (List.replicate r1cs.NbPublicVariables 0,
      List.replicate (r1cs.NbInternalVariables + r1cs.NbSecretVariables) 0)
    (by simp) (by simp)
  have key : ∃ c2 ev, NewPhase2 cv ids s r1cs srs1 = .ok (c2, ev) := by
    cases hres : NewPhase2 cv ids s r1cs srs1 with
    | ok r => exact ⟨r.1, r.2, rfl⟩
    | error err =>
      unfold NewPhase2 at hres
      simp only [R1CS.GetNbVariables, R1CS.GetNbConstraints, Nat.not_lt.mpr hnb, if_false,
        utils.LagrangeCoeffsG1, utils.LagrangeCoeffsG2, e1, e2, e3, e4, bind, Except.bind, e5,
        e6, Nat.pos_iff_ne_zero.mp hn, e7, pure, Except.pure] at hres
      cases hres
  refine ⟨key, ?_⟩
  obtain ⟨c2, ev, h⟩ := key
  rw [h]
  intro hc
  cases hc

/-- Witness for `NewPhase2_in_bounds`: the concrete instance (`n = 2`, `Tau` of
`3` entries, two constraints, three wires, a table of five coefficients). -/
theorem NewPhase2_in_bounds_witness :
    (∃ c2 ev, NewPhase2 toyCurve toyIds 1 toyR1CS toyPhase1 = .ok (c2, ev)) ∧
    NewPhase2 toyCurve toyIds 1 toyR1CS toyPhase1 ≠ .error .outOfRange :=
  NewPhase2_in_bounds toyCurve toyIds 1 toyR1CS toyPhase1 ⟨1, rfl⟩ rfl rfl rfl (by decide)
    (by
      intro c hc t ht
      simp only [toyR1CS, List.mem_cons, List.mem_singleton, List.not_mem_nil, or_false] at hc
      rcases hc with rfl | rfl <;>
        simp only [List.mem_cons, List.mem_singleton, List.not_mem_nil, or_false] at ht <;>
        rcases ht with (rfl | rfl) | (rfl | rfl) | (rfl | rfl) <;>
        simp [toyR1CS, toyIds, R1CS.GetNbVariables])

/-! ### Serialisation -/

theorem decodeUint32_encodeUint32 (n : Nat) (hn : n < 2 ^ 32) (rest : Bytes) :
    decodeUint32 (encodeUint32 n ++ rest) = .ok (n, rest) := by
  simp only [encodeUint32, List.cons_append, List.nil_append, decodeUint32, Except.ok.injEq,
    Prod.mk.injEq, and_true]
  norm_num at hn ⊢
  omega

theorem decodeUint32_encodeUint32_overflow (rest : Bytes) :
    decodeUint32 (encodeUint32 (2 ^ 32) ++ rest) = .ok (0, rest) := by
  simp [encodeUint32, decodeUint32]

theorem decodePoints_encode {α : Type} (enc : α → Bytes)
    (dec : Bytes → Except Failure (α × Bytes))
    (hdec : ∀ p rest, dec (enc p ++ rest) = .ok (p, rest)) (xs : List α) (rest : Bytes) :
    decodePoints dec xs.length (xs.foldr (fun x acc => enc x ++ acc) [] ++ rest)
      = .ok (xs, rest) := by
  induction xs with
  | nil => rfl
  | cons x xs ih =>
    simp only [List.length_cons, List.foldr_cons, List.append_assoc, decodePoints, hdec,
      bind, Except.bind, ih, pure, Except.pure]

theorem decodeSlice_encodeSlice {α : Type} (enc : α → Bytes)
    (dec : Bytes → Except Failure (α × Bytes))
    (hdec : ∀ p rest, dec (enc p ++ rest) = .ok (p, rest)) (xs : List α)
    (hxs : xs.length < 2 ^ 32) (rest : Bytes) :
    decodeSlice dec (encodeSlice enc xs ++ rest) = .ok (xs, rest) := by
  simp only [decodeSlice, encodeSlice, List.append_assoc,
    decodeUint32_encodeUint32 _ hxs, bind, Except.bind, decodePoints_encode enc dec hdec]

theorem decodeSlice_encodeSlice_overflow {α : Type} (enc : α → Bytes)
    (dec : Bytes → Except Failure (α × Bytes)) (xs : List α)
    (hxs : xs.length = 2 ^ 32) (rest : Bytes) :
    decodeSlice dec (encodeSlice enc xs ++ rest)
      = .ok ([], xs.foldr (fun x acc => enc x ++ acc) [] ++ rest) := by
  simp only [decodeSlice, encodeSlice, List.append_assoc, hxs,
    decodeUint32_encodeUint32_overflow, bind, Except.bind, decodePoints]

theorem readHash_append (H rest : Bytes) (hH : H.length = 32) :
    readHash (H ++ rest) = .ok (H, 32, rest) := by
  have hne : H ++ rest ≠ [] := by
    intro e
    have := congrArg List.length e
    simp [hH] at this
  have ht : (H ++ rest).take 32 = H := by
    rw [← hH, List.take_left]
  have hd : (H ++ rest).drop 32 = rest := by
    rw [← hH, List.drop_left]
  simp only [readHash, hne, if_false, ht, hd, hH, Nat.sub_self, List.replicate_zero,
    List.append_nil]

/-- Reading what `Phase2Evaluations.WriteTo` wrote: `G1.A`, `G1.B` and `G2.B` come
back, `G1.VKK` is the one the receiver had. -/
theorem Phase2Evaluations_ReadFrom_WriteTo (cv : Curve F G₁ G₂ Gₜ) (dec : Decoder G₁ G₂)
    (hrt : dec.RoundTrip cv) (x c : Phase2Evaluations G₁ G₂) (rest : Bytes)
    (hA : x.G1.A.length < 2 ^ 32) (hB : x.G1.B.length < 2 ^ 32)
    (hB2 : x.G2.B.length < 2 ^ 32) :
    Phase2Evaluations.ReadFrom dec c ((x.WriteTo cv).1 ++ rest) =
      .ok ({ G1 := { A := x.G1.A, B := x.G1.B, VKK := c.G1.VKK }, G2 := { B := x.G2.B } },
        (x.WriteTo cv).2, rest) := by
  simp only [Phase2Evaluations.ReadFrom, Phase2Evaluations.WriteTo, List.append_assoc,
    decodeSlice_encodeSlice cv.encodeG1 dec.decodeG1 hrt.1 _ hA,
    decodeSlice_encodeSlice cv.encodeG1 dec.decodeG1 hrt.1 _ hB,
    decodeSlice_encodeSlice cv.encodeG2 dec.decodeG2 hrt.2 _ hB2,
    bind, Except.bind, pure, Except.pure, Except.ok.injEq, Prod.mk.injEq, true_and, and_true]
  simp only [List.length_append]
  omega

/-- Reading what `Phase2.writeTo` wrote, followed by any `tail`: the seven
encoded fields come back and `Hash` is what `reader.Read` gets from `tail`. -/
theorem Phase2_ReadFrom_writeTo (cv : Curve F G₁ G₂ Gₜ) (dec : Decoder G₁ G₂)
    (hrt : dec.RoundTrip cv) (x c : Phase2 G₁ G₂) (tail : Bytes)
    (hL : x.Parameters.G1.L.length < 2 ^ 32) (hZ : x.Parameters.G1.Z.length < 2 ^ 32) :
    Phase2.ReadFrom dec c (x.writeTo cv ++ tail) =
      (match readHash tail with
        | .ok (H, n, r) => .ok ({ x with Hash := H }, n + (x.writeTo cv).length, r)
        | .error err => .error err) := by
  have hlen : (x.writeTo cv ++ tail).length - tail.length = (x.writeTo cv).length := by
    rw [List.length_append]
    omega
  have e : Phase2.ReadFrom dec c (x.writeTo cv ++ tail) =
      (readHash tail >>= fun p =>
        pure ({ x with Hash := p.1 }, p.2.1 + ((x.writeTo cv ++ tail).length - tail.length),
          p.2.2)) := by
    simp only [Phase2.ReadFrom, Phase2.writeTo, List.append_assoc, hrt.1, hrt.2,
      decodeSlice_encodeSlice cv.encodeG1 dec.decodeG1 hrt.1 _ hL,
      decodeSlice_encodeSlice cv.encodeG1 dec.decodeG1 hrt.1 _ hZ, bind, Except.bind]
  rw [e, hlen]
  cases readHash tail with
  | error err => rfl
  | ok p => rfl

/-- Reading what `Phase2.WriteTo` wrote for a state with a 32-byte `Hash`. -/
theorem Phase2_ReadFrom_WriteTo (cv : Curve F G₁ G₂ Gₜ) (dec : Decoder G₁ G₂)
    (hrt : dec.RoundTrip cv) (x c : Phase2 G₁ G₂) (rest : Bytes)
    (hL : x.Parameters.G1.L.length < 2 ^ 32) (hZ : x.Parameters.G1.Z.length < 2 ^ 32)
    (hH : x.Hash.length = 32) :
    Phase2.ReadFrom dec c ((x.WriteTo cv).1 ++ rest) = .ok (x, (x.WriteTo cv).2, rest) := by
  have e : (x.WriteTo cv).1 ++ rest = x.writeTo cv ++ (x.Hash ++ rest) := by
    simp [Phase2.WriteTo]
  rw [e, Phase2_ReadFrom_writeTo cv dec hrt x c _ hL hZ, readHash_append _ _ hH]
  simp only [Phase2.WriteTo, hH]

theorem toyDecode_toyEncode (p : ℚ) (rest : Bytes) :
    toyDecode (toyEncode p ++ rest) = .ok (p, rest) := by
  have hd : ((p.den : ℚ)) ≠ 0 := by exact_mod_cast p.den_nz
  simp only [toyEncode, List.cons_append, List.nil_append, toyDecode, Except.ok.injEq,
    Prod.mk.injEq, and_true]
  by_cases h : p.num < 0
  · simp only [h, if_true]
    have e : -((p.num.natAbs : ℚ)) = (p.num : ℚ) := by
      rw [Nat.cast_natAbs, abs_of_neg h]
      push_cast
      ring
    rw [e]
    exact Rat.num_div_den p
  · simp only [h, if_false]
    have e : ((p.num.natAbs : ℚ)) = (p.num : ℚ) := by
      rw [Nat.cast_natAbs, abs_of_nonneg (not_lt.mp h)]
    simp only [zero_ne_one, if_false, e]
    exact Rat.num_div_den p

theorem toyDecoder_roundTrip : toyDecoder.RoundTrip toyCodecCurve :=
  ⟨toyDecode_toyEncode, toyDecode_toyEncode⟩

/-- C16 (as amended).  With a backend decoder that reads back what the encoder
writes: for every `Phase2Evaluations` value `x` whose `G1.A`, `G1.B` and `G2.B`
have fewer than `2 ^ 32` entries, reading the bytes written by `x.WriteTo`
returns a value equal to `x` in `G1.A`, `G1.B` and `G2.B`, reports the count
`WriteTo` reported and leaves what follows in the stream; `G1.VKK` is neither
written nor read, the value read keeps the `VKK` of the receiver (none for a
fresh value), and writing it again gives the same bytes. -/
theorem Phase2Evaluations_round_trip (cv : Curve F G₁ G₂ Gₜ) (dec : Decoder G₁ G₂)
    (hrt : dec.RoundTrip cv) (x c : Phase2Evaluations G₁ G₂) (rest : Bytes)
    (hA : x.G1.A.length < 2 ^ 32) (hB : x.G1.B.length < 2 ^ 32)
    (hB2 : x.G2.B.length < 2 ^ 32) :
    ∃ y, Phase2Evaluations.ReadFrom dec c ((x.WriteTo cv).1 ++ rest)
        = .ok (y, (x.WriteTo cv).2, rest) ∧
      y.G1.A = x.G1.A ∧ y.G1.B = x.G1.B ∧ y.G2.B = x.G2.B ∧ y.G1.VKK = c.G1.VKK ∧
      (y.WriteTo cv).1 = (x.WriteTo cv).1 :=
  ⟨_, Phase2Evaluations_ReadFrom_WriteTo cv dec hrt x c rest hA hB hB2, rfl, rfl, rfl, rfl, rfl⟩

/-- Witness for `Phase2Evaluations_round_trip`: `toyEv` read into a fresh value. -/
theorem Phase2Evaluations_round_trip_witness :
    ∃ y, Phase2Evaluations.ReadFrom toyDecoder freshEvaluations
        ((toyEv.WriteTo toyCodecCurve).1 ++ [])
        = .ok (y, (toyEv.WriteTo toyCodecCurve).2, []) ∧
      y.G1.A = toyEv.G1.A ∧ y.G1.B = toyEv.G1.B ∧ y.G2.B = toyEv.G2.B ∧
      y.G1.VKK = freshEvaluations.G1.VKK ∧
      (y.WriteTo toyCodecCurve).1 = (toyEv.WriteTo toyCodecCurve).1 :=
  Phase2Evaluations_round_trip toyCodecCurve toyDecoder toyDecoder_roundTrip toyEv
    freshEvaluations [] (by simp [toyEv]) (by simp [toyEv]) (by simp [toyEv])

/-- With `2 ^ 32` entries in `G1.A`, the length written is `0` and whatever is
read back has an empty `G1.A`. -/
theorem manyEvaluations_overflow (k : Nat) (hk : k = 2 ^ 32) :
    (manyEvaluations k).G1.A ≠ [] ∧
    ∀ y n r, Phase2Evaluations.ReadFrom toyDecoder freshEvaluations
        ((manyEvaluations k).WriteTo toyCodecCurve).1 = .ok (y, n, r) →
      y.G1.A = [] := by
  have hlen : (manyEvaluations k).G1.A.length = k := by
    show (List.replicate k (0 : ℚ)).length = k
    exact List.length_replicate _ _
  have hpos : 0 < k := by
    rw [hk]
    exact Nat.two_pow_pos 32
  constructor
  · intro e
    rw [e] at hlen
    simp only [List.length_nil] at hlen
    omega
  · intro y n r h
    have hov := decodeSlice_encodeSlice_overflow toyCodecCurve.encodeG1 toyDecoder.decodeG1
      (manyEvaluations k).G1.A (by rw [hlen, hk])
    simp only [Phase2Evaluations.ReadFrom, Phase2Evaluations.WriteTo, List.append_assoc, hov,
      bind, Except.bind] at h
    split at h
    · cases h
    · split at h
      · cases h
      · simp only [pure, Except.pure, Except.ok.injEq, Prod.mk.injEq] at h
        rw [← h.1]

/-- C16, counterexample.  Reading into a fresh value the bytes written for
`toyEv`, whose `G1.VKK` is `[7/2]`, gives a value whose `G1.VKK` is empty; and
for a value whose `G1.A` has `2 ^ 32` entries, whatever is read back has an
empty `G1.A`. -/
theorem Phase2Evaluations_round_trip_counterexample :
    (Phase2Evaluations.ReadFrom toyDecoder freshEvaluations (toyEv.WriteTo toyCodecCurve).1
      = .ok ({ G1 := { A := toyEv.G1.A, B := toyEv.G1.B, VKK := [] },
               G2 := { B := toyEv.G2.B } },
          (toyEv.WriteTo toyCodecCurve).2, []) ∧
      toyEv.G1.VKK ≠ []) ∧
    ((manyEvaluations (2 ^ 32)).G1.A ≠ [] ∧
      ∀ y n r, Phase2Evaluations.ReadFrom toyDecoder freshEvaluations
          ((manyEvaluations (2 ^ 32)).WriteTo toyCodecCurve).1 = .ok (y, n, r) →
        y.G1.A = []) := by
  refine ⟨⟨?_, by simp [toyEv]⟩, manyEvaluations_overflow (2 ^ 32) rfl⟩
  have := Phase2Evaluations_ReadFrom_WriteTo toyCodecCurve toyDecoder toyDecoder_roundTrip
    toyEv freshEvaluations [] (by simp [toyEv]) (by simp [toyEv]) (by simp [toyEv])
  rw [List.append_nil] at this
  exact this

/-- C17 (as amended).  With a backend decoder that reads back what the encoder
writes: for every `Phase2` value `x` whose `L` and `Z` have fewer than `2 ^ 32`
entries and whose `Hash` has `32` bytes, reading the bytes written by
`x.WriteTo` returns `x` itself, every field equal (`PublicKey.SG`, `SXG`, `XR`,
`Delta₁`, `L`, `Z`, `Delta₂` and `Hash`), reports the count `WriteTo` reported
and leaves what follows in the stream. -/
theorem Phase2_round_trip (cv : Curve F G₁ G₂ Gₜ) (dec : Decoder G₁ G₂)
    (hrt : dec.RoundTrip cv) (x c : Phase2 G₁ G₂) (rest : Bytes)
    (hL : x.Parameters.G1.L.length < 2 ^ 32) (hZ : x.Parameters.G1.Z.length < 2 ^ 32)
    (hH : x.Hash.length = 32) :
    Phase2.ReadFrom dec c ((x.WriteTo cv).1 ++ rest) = .ok (x, (x.WriteTo cv).2, rest) :=
  Phase2_ReadFrom_WriteTo cv dec hrt x c rest hL hZ hH

/-- Witness for `Phase2_round_trip`: `toyC0` read into a fresh value. -/
theorem Phase2_round_trip_witness :
    Phase2.ReadFrom toyDecoder freshPhase2 ((toyC0.WriteTo toyCodecCurve).1 ++ [])
      = .ok (toyC0, (toyC0.WriteTo toyCodecCurve).2, []) :=
  Phase2_round_trip toyCodecCurve toyDecoder toyDecoder_roundTrip toyC0 freshPhase2 []
    (by simp [toyC0]) (by simp [toyC0]) (by simp [toyC0])

/-- With `2 ^ 32` entries in `L`, the length written is `0` and whatever is read
back has an empty `L`. -/
theorem manyPhase2_overflow (k : Nat) (hk : k = 2 ^ 32) :
    (manyPhase2 k).Parameters.G1.L ≠ [] ∧ (manyPhase2 k).Hash.length = 32 ∧
    ∀ y n r, Phase2.ReadFrom toyDecoder freshPhase2 ((manyPhase2 k).WriteTo toyCodecCurve).1
        = .ok (y, n, r) →
      y.Parameters.G1.L = [] := by
  have hlen : (manyPhase2 k).Parameters.G1.L.length = k := by
    show (List.replicate k (0 : ℚ)).length = k
    exact List.length_replicate _ _
  have hpos : 0 < k := by
    rw [hk]
    exact Nat.two_pow_pos 32
  refine ⟨?_, by simp [manyPhase2], ?_⟩
  · intro e
    rw [e] at hlen
    simp only [List.length_nil] at hlen
    omega
  · intro y n r h
    have hov := decodeSlice_encodeSlice_overflow toyCodecCurve.encodeG1 toyDecoder.decodeG1
      (manyPhase2 k).Parameters.G1.L (by rw [hlen, hk])
    have hrt := toyDecoder_roundTrip
    simp only [Phase2.ReadFrom, Phase2.WriteTo, Phase2.writeTo, List.append_assoc, hrt.1,
      hrt.2, hov, bind, Except.bind] at h
    split at h
    · cases h
    · split at h
      · cases h
      · split at h
        · cases h
        · simp only [pure, Except.pure, Except.ok.injEq, Prod.mk.injEq] at h
          rw [← h.1]

/-- C17, counterexample.  For `toyState0`, whose `Hash` is empty, reading the
bytes written ends in the error `EOF`; for `toyNextLong`, whose `Hash` has 33
bytes, the value read has a `Hash` of 32 bytes and one byte is left unread; for
a state whose `L` has `2 ^ 32` entries, whatever is read back has an empty
`L`. -/
theorem Phase2_round_trip_counterexample :
    Phase2.ReadFrom toyDecoder freshPhase2 (toyState0.WriteTo toyCodecCurve).1
      = .error (.error "EOF") ∧
    (toyNextLong.Hash.length = 33 ∧
      Phase2.ReadFrom toyDecoder freshPhase2 (toyNextLong.WriteTo toyCodecCurve).1
        = .ok ({ toyNextLong with Hash := toyNext.Hash },
            32 + (toyNextLong.writeTo toyCodecCurve).length, [0]) ∧
      toyNext.Hash.length = 32) ∧
    ((manyPhase2 (2 ^ 32)).Parameters.G1.L ≠ [] ∧ (manyPhase2 (2 ^ 32)).Hash.length = 32 ∧
      ∀ y n r, Phase2.ReadFrom toyDecoder freshPhase2
          ((manyPhase2 (2 ^ 32)).WriteTo toyCodecCurve).1 = .ok (y, n, r) →
        y.Parameters.G1.L = []) := by
  have hlen : toyNext.Hash.length = 32 := by
    show (toyNext.hash toyCurve).length = 32
    simp [Phase2.hash, toyCurve]
  refine ⟨?_, ⟨?_, ?_, hlen⟩, manyPhase2_overflow (2 ^ 32) rfl⟩
  · have := Phase2_ReadFrom_writeTo toyCodecCurve toyDecoder toyDecoder_roundTrip toyState0
      freshPhase2 [] (by simp [toyState0]) (by simp [toyState0])
    have e : (toyState0.WriteTo toyCodecCurve).1 = toyState0.writeTo toyCodecCurve ++ [] := rfl
    rw [e, this]
    rfl
  · show (toyNext.Hash ++ [0]).length = 33
    rw [List.length_append, hlen]
    rfl
  · have := Phase2_ReadFrom_writeTo toyCodecCurve toyDecoder toyDecoder_roundTrip toyNextLong
      freshPhase2 (toyNext.Hash ++ [0])
      (by simp [toyNextLong, toyNext, toyPrev, toyState0, Phase2.Contribute])
      (by simp [toyNextLong, toyNext, toyPrev, toyState0, Phase2.Contribute])
    have e : (toyNextLong.WriteTo toyCodecCurve).1
        = toyNextLong.writeTo toyCodecCurve ++ (toyNext.Hash ++ [0]) := rfl
    rw [e, this, readHash_append _ _ hlen]

end Setup
